import Mathlib

set_option linter.all false
set_option maxHeartbeats 1000000

/-!
Verification development for the core of the modern-uuid library.

Part 1 models the generic bit packer of `inc/modern-uuid/bit_packer.h`:
for each supported bits-per-digit value B in [2,7] the C++ code is an
unrolled cyclic state machine (a Duff's device switch) that packs B-bit
digits into bytes and unpacks bytes into B-bit digits.  Bytes and digits
are modelled as `Nat`; every store into a `uint8_t` that can exceed 255
carries the C++ truncation as an explicit `% 256`.  Shifts `<<` / `>>`,
masks `&` and bitwise or `|` are modelled by `<<<`, `>>>`, `&&&`, `|||`
on `Nat`, matching C++ integer promotion semantics on `uint8_t` values.

Part 2 models the clock arbitration states of `src/clocks.cpp`
(`non_repeatable_clock_state`, `monotonic_clock_state`,
`ulid_clock_state`): their `adjust` members become pure functions from a
state record and a clock reading to an optional new state and outputs
(`none` models `return false`, i.e. "caller must wait"), and the `get`
members become recursions over the stream of successive clock readings.
Times are modelled as `Nat` tick counts of the variant's max-unit
duration (`round<MaxUnitDuration>(now)` of the source is order
preserving, and all reachable readings are non-negative), so C++ integer
division on durations coincides with `Nat` division.  Calls to the
uniform random distributions are modelled by oracle parameters carrying
the value the generator would return.

Part 3 models the persistence-call traces of `clock_state_base`
(`set_persistence` / `mutate`) to analyse when `per_thread::load` and
`per_thread::store` are invoked.
-/

namespace Muuid

/-! ## Arithmetic toolkit for the bit-level proofs -/

/-- Distributing `Nat.lor` over a low-bit decomposition:
`(2*x) ||| (2*y + c) = 2*(x ||| y) + c` for a carry bit `c < 2`. -/
theorem lor_two_mul_add (x y c : Nat) (hc : c < 2) :
    (2 * x) ||| (2 * y + c) = 2 * (x ||| y) + c := by
  interval_cases c
  · have h := Nat.lor_bit false x false y
    simpa [Nat.bit_val] using h
  · have h := Nat.lor_bit false x true y
    simpa [Nat.bit_val] using h

/-- Bitwise or of values occupying disjoint bit ranges is addition: if the
low `k` bits of `a` are zero and `b < 2^k` then `a ||| b = a + b`. -/
theorem lor_eq_add (k : Nat) : ∀ a b : Nat, a % 2 ^ k = 0 → b < 2 ^ k → a ||| b = a + b := by
  induction k with
  | zero =>
    intro a b _ hb
    interval_cases b
    simp
  | succ k ih =>
    intro a b ha hb
    have hpow : 2 ^ (k + 1) = 2 ^ k * 2 := by rw [Nat.pow_succ]
    rw [hpow] at ha hb
    rcases Nat.dvd_of_mod_eq_zero ha with ⟨c, hc⟩
    have hsplit : a = 2 * (2 ^ k * c) := by rw [hc]; ring
    have ha2 : a % 2 = 0 := by omega
    have hb2 : b / 2 < 2 ^ k := by omega
    have ha' : (a / 2) % 2 ^ k = 0 := by
      rw [hsplit, Nat.mul_div_cancel_left _ (by omega : 0 < 2), Nat.mul_mod_right]
    have key : a ||| b = 2 * ((a / 2) ||| (b / 2)) + b % 2 := by
      have h1 : a = 2 * (a / 2) := by omega
      have h2 : b = 2 * (b / 2) + b % 2 := by omega
      calc a ||| b = (2 * (a / 2)) ||| (2 * (b / 2) + b % 2) := by rw [← h1, ← h2]
        _ = 2 * ((a / 2) ||| (b / 2)) + b % 2 :=
            lor_two_mul_add _ _ _ (Nat.mod_lt _ (by omega))
    rw [key, ih _ _ ha' hb2]
    omega

/-- Disjoint-or-to-addition specialised to modulus 2. -/
theorem lorD1 (a b : Nat) (ha : a % 2 = 0) (hb : b < 2) : a ||| b = a + b :=
  lor_eq_add 1 a b (by simpa using ha) (by simpa using hb)

/-- Disjoint-or-to-addition specialised to modulus 4. -/
theorem lorD2 (a b : Nat) (ha : a % 4 = 0) (hb : b < 4) : a ||| b = a + b :=
  lor_eq_add 2 a b (by simpa using ha) (by simpa using hb)

/-- Disjoint-or-to-addition specialised to modulus 8. -/
theorem lorD3 (a b : Nat) (ha : a % 8 = 0) (hb : b < 8) : a ||| b = a + b :=
  lor_eq_add 3 a b (by simpa using ha) (by simpa using hb)

/-- Disjoint-or-to-addition specialised to modulus 16. -/
theorem lorD4 (a b : Nat) (ha : a % 16 = 0) (hb : b < 16) : a ||| b = a + b :=
  lor_eq_add 4 a b (by simpa using ha) (by simpa using hb)

/-- Disjoint-or-to-addition specialised to modulus 32. -/
theorem lorD5 (a b : Nat) (ha : a % 32 = 0) (hb : b < 32) : a ||| b = a + b :=
  lor_eq_add 5 a b (by simpa using ha) (by simpa using hb)

/-- Disjoint-or-to-addition specialised to modulus 64. -/
theorem lorD6 (a b : Nat) (ha : a % 64 = 0) (hb : b < 64) : a ||| b = a + b :=
  lor_eq_add 6 a b (by simpa using ha) (by simpa using hb)

/-- Disjoint-or-to-addition specialised to modulus 128. -/
theorem lorD7 (a b : Nat) (ha : a % 128 = 0) (hb : b < 128) : a ||| b = a + b :=
  lor_eq_add 7 a b (by simpa using ha) (by simpa using hb)

/-- Disjoint-or-to-addition specialised to modulus 256. -/
theorem lorD8 (a b : Nat) (ha : a % 256 = 0) (hb : b < 256) : a ||| b = a + b :=
  lor_eq_add 8 a b (by simpa using ha) (by simpa using hb)

/-- Shift left by 1 as multiplication. -/
theorem shl1 (a : Nat) : a <<< 1 = a * 2 := by simp [Nat.shiftLeft_eq]

/-- Shift left by 2 as multiplication. -/
theorem shl2 (a : Nat) : a <<< 2 = a * 4 := by simp [Nat.shiftLeft_eq]

/-- Shift left by 3 as multiplication. -/
theorem shl3 (a : Nat) : a <<< 3 = a * 8 := by simp [Nat.shiftLeft_eq]

/-- Shift left by 4 as multiplication. -/
theorem shl4 (a : Nat) : a <<< 4 = a * 16 := by simp [Nat.shiftLeft_eq]

/-- Shift left by 5 as multiplication. -/
theorem shl5 (a : Nat) : a <<< 5 = a * 32 := by simp [Nat.shiftLeft_eq]

/-- Shift left by 6 as multiplication. -/
theorem shl6 (a : Nat) : a <<< 6 = a * 64 := by simp [Nat.shiftLeft_eq]

/-- Shift left by 7 as multiplication. -/
theorem shl7 (a : Nat) : a <<< 7 = a * 128 := by simp [Nat.shiftLeft_eq]

/-- Shift right by 1 as division. -/
theorem shr1 (a : Nat) : a >>> 1 = a / 2 := by simp [Nat.shiftRight_eq_div_pow]

/-- Shift right by 2 as division. -/
theorem shr2 (a : Nat) : a >>> 2 = a / 4 := by simp [Nat.shiftRight_eq_div_pow]

/-- Shift right by 3 as division. -/
theorem shr3 (a : Nat) : a >>> 3 = a / 8 := by simp [Nat.shiftRight_eq_div_pow]

/-- Shift right by 4 as division. -/
theorem shr4 (a : Nat) : a >>> 4 = a / 16 := by simp [Nat.shiftRight_eq_div_pow]

/-- Shift right by 5 as division. -/
theorem shr5 (a : Nat) : a >>> 5 = a / 32 := by simp [Nat.shiftRight_eq_div_pow]

/-- Shift right by 6 as division. -/
theorem shr6 (a : Nat) : a >>> 6 = a / 64 := by simp [Nat.shiftRight_eq_div_pow]

/-- Shift right by 7 as division. -/
theorem shr7 (a : Nat) : a >>> 7 = a / 128 := by simp [Nat.shiftRight_eq_div_pow]

/-- Masking with `0x03` is reduction mod 4. -/
theorem andE3 (a : Nat) : a &&& 3 = a % 4 := by
  simpa using Nat.and_pow_two_sub_one_eq_mod a 2

/-- Masking with `0x07` is reduction mod 8. -/
theorem andE7 (a : Nat) : a &&& 7 = a % 8 := by
  simpa using Nat.and_pow_two_sub_one_eq_mod a 3

/-- Masking with `0x0F` is reduction mod 16. -/
theorem andE15 (a : Nat) : a &&& 15 = a % 16 := by
  simpa using Nat.and_pow_two_sub_one_eq_mod a 4

/-- Masking with `0x1F` is reduction mod 32. -/
theorem andE31 (a : Nat) : a &&& 31 = a % 32 := by
  simpa using Nat.and_pow_two_sub_one_eq_mod a 5

/-- Masking with `0x3F` is reduction mod 64. -/
theorem andE63 (a : Nat) : a &&& 63 = a % 64 := by
  simpa using Nat.and_pow_two_sub_one_eq_mod a 6

/-- Masking with `0x7F` is reduction mod 128. -/
theorem andE127 (a : Nat) : a &&& 127 = a % 128 := by
  simpa using Nat.and_pow_two_sub_one_eq_mod a 7

/-- Masking with `0x3FFF` (the 14-bit clock-sequence mask) is reduction mod 2^14. -/
theorem andE16383 (a : Nat) : a &&& 16383 = a % 16384 := by
  simpa using Nat.and_pow_two_sub_one_eq_mod a 14

/-! ## Bit packer model (`inc/modern-uuid/bit_packer.h`)

`bit_packer<B, PackedBytes>` packs `unpacked_bytes = ceil(PackedBytes*8/B)`
B-bit digits into `PackedBytes` bytes and back.  For B in {3,5,6,7} the
loops are cyclic switches entered at `remainder = (PackedBytes*8) % B`;
one full switch traversal (a "round") handles `lcm(B,8)` bits.  Each
round and each possible entry suffix is transcribed below as a function
on the digits/bytes it consumes; the top level functions dispatch on the
remainder exactly as the `constexpr` template machinery does. -/

/-- Digit count of `bit_packer_impl`: `unpacked_bytes =
(total_bits / BitsPerByte) + (total_bits % BitsPerByte != 0)`. -/
def bit_packer_unpacked_bytes (bitsPerByte packedBytes : Nat) : Nat :=
  packedBytes * 8 / bitsPerByte + (if packedBytes * 8 % bitsPerByte ≠ 0 then 1 else 0)

/-! ### B = 2 -/

/-- Loop body of `bit_packer<2, P>::pack_bits`: four digits to one byte. -/
def pack_bits2 : List Nat → List Nat
  | d0 :: d1 :: d2 :: d3 :: rest =>
      (((((((d0 <<< 6) % 256) ||| (d1 <<< 4)) % 256) ||| (d2 <<< 2)) % 256) ||| d3) % 256 ::
        pack_bits2 rest
  | _ => []

/-- Loop body of `bit_packer<2, P>::unpack_bits`: one byte to four digits. -/
def unpack_bits2 : List Nat → List Nat
  | b :: rest =>
      b >>> 6 :: ((b >>> 4) &&& 3) :: ((b >>> 2) &&& 3) :: (b &&& 3) :: unpack_bits2 rest
  | [] => []

/-! ### B = 4 -/

/-- Loop body of `bit_packer<4, P>::pack_bits`: two digits to one byte. -/
def pack_bits4 : List Nat → List Nat
  | d0 :: d1 :: rest => ((((d0 <<< 4) % 256) ||| d1) % 256) :: pack_bits4 rest
  | _ => []

/-- Loop body of `bit_packer<4, P>::unpack_bits`: one byte to two digits. -/
def unpack_bits4 : List Nat → List Nat
  | b :: rest => b >>> 4 :: (b &&& 15) :: unpack_bits4 rest
  | [] => []

/-! ### B = 3 -/

/-- One full round of `bit_packer<3, P>::pack_bits` (cases 0,1,2):
eight digits to three bytes. -/
def pack3_round (d0 d1 d2 d3 d4 d5 d6 d7 : Nat) : List Nat :=
  [(((((d0 <<< 5) % 256) ||| (d1 <<< 2)) % 256 ||| (d2 >>> 1)) % 256),
   (((((((d2 <<< 7) % 256) ||| (d3 <<< 4)) % 256) ||| (d4 <<< 1)) % 256 ||| (d5 >>> 2)) % 256),
   (((((d5 <<< 6) % 256) ||| (d6 <<< 3)) % 256 ||| d7) % 256)]

/-- Entry of `bit_packer<3, P>::pack_bits` at `remainder = 1`
(cases 1,2): six digits to two bytes. -/
def pack3_entry1 (d0 d1 d2 d3 d4 d5 : Nat) : List Nat :=
  [(((((((d0 <<< 7) % 256) ||| (d1 <<< 4)) % 256) ||| (d2 <<< 1)) % 256 ||| (d3 >>> 2)) % 256),
   (((((d3 <<< 6) % 256) ||| (d4 <<< 3)) % 256 ||| d5) % 256)]

/-- Entry of `bit_packer<3, P>::pack_bits` at `remainder = 2`
(case 2): three digits to one byte. -/
def pack3_entry2 (d0 d1 d2 : Nat) : List Nat :=
  [(((((d0 <<< 6) % 256) ||| (d1 <<< 3)) % 256 ||| d2) % 256)]

/-- Full rounds of `bit_packer<3, P>::pack_bits` after the entry. -/
def pack3_rounds : Nat → List Nat → List Nat
  | 0, _ => []
  | n + 1, d0 :: d1 :: d2 :: d3 :: d4 :: d5 :: d6 :: d7 :: rest =>
      pack3_round d0 d1 d2 d3 d4 d5 d6 d7 ++ pack3_rounds n rest
  | _ + 1, _ => []

/-- `bit_packer<3, p>::pack_bits`, dispatching on `remainder = (p*8) % 3`. -/
def pack_bits3 (p : Nat) (src : List Nat) : List Nat :=
  if p * 8 % 3 = 0 then pack3_rounds (p * 8 / 24) src
  else if p * 8 % 3 = 1 then
    match src with
    | d0 :: d1 :: d2 :: d3 :: d4 :: d5 :: rest =>
        pack3_entry1 d0 d1 d2 d3 d4 d5 ++ pack3_rounds (p * 8 / 24) rest
    | _ => []
  else
    match src with
    | d0 :: d1 :: d2 :: rest => pack3_entry2 d0 d1 d2 ++ pack3_rounds (p * 8 / 24) rest
    | _ => []

/-- One full round of `bit_packer<3, P>::unpack_bits` (cases 0,1,2):
three bytes to eight digits. -/
def unpack3_round (b0 b1 b2 : Nat) : List Nat :=
  [b0 >>> 5, (b0 >>> 2) &&& 7, (((b0 <<< 1) &&& 7) ||| (b1 >>> 7)),
   (b1 >>> 4) &&& 7, (b1 >>> 1) &&& 7, (((b1 <<< 2) &&& 7) ||| (b2 >>> 6)),
   (b2 >>> 3) &&& 7, b2 &&& 7]

/-- Entry of `bit_packer<3, P>::unpack_bits` at `remainder = 1`
(cases 1,2 with the zero-initialised first digit): two bytes to six digits. -/
def unpack3_entry1 (b0 b1 : Nat) : List Nat :=
  [0 ||| (b0 >>> 7), (b0 >>> 4) &&& 7, (b0 >>> 1) &&& 7,
   (((b0 <<< 2) &&& 7) ||| (b1 >>> 6)), (b1 >>> 3) &&& 7, b1 &&& 7]

/-- Entry of `bit_packer<3, P>::unpack_bits` at `remainder = 2`
(case 2 with the zero-initialised first digit): one byte to three digits. -/
def unpack3_entry2 (b0 : Nat) : List Nat :=
  [0 ||| (b0 >>> 6), (b0 >>> 3) &&& 7, b0 &&& 7]

/-- Full rounds of `bit_packer<3, P>::unpack_bits` after the entry. -/
def unpack3_rounds : Nat → List Nat → List Nat
  | 0, _ => []
  | n + 1, b0 :: b1 :: b2 :: rest => unpack3_round b0 b1 b2 ++ unpack3_rounds n rest
  | _ + 1, _ => []

/-- `bit_packer<3, p>::unpack_bits`, dispatching on `remainder = (p*8) % 3`. -/
def unpack_bits3 (p : Nat) (src : List Nat) : List Nat :=
  if p * 8 % 3 = 0 then unpack3_rounds (p * 8 / 24) src
  else if p * 8 % 3 = 1 then
    match src with
    | b0 :: b1 :: rest => unpack3_entry1 b0 b1 ++ unpack3_rounds (p * 8 / 24) rest
    | _ => []
  else
    match src with
    | b0 :: rest => unpack3_entry2 b0 ++ unpack3_rounds (p * 8 / 24) rest
    | _ => []

/-! ### B = 5 -/

/-- One full round of `bit_packer<5, P>::pack_bits` (cases 0,2,4,1,3):
eight digits to five bytes. -/
def pack5_round (d0 d1 d2 d3 d4 d5 d6 d7 : Nat) : List Nat :=
  [(((d0 <<< 3) % 256) ||| (d1 >>> 2)) % 256,
   (((((d1 <<< 6) % 256) ||| (d2 <<< 1)) % 256) ||| (d3 >>> 4)) % 256,
   (((d3 <<< 4) % 256) ||| (d4 >>> 1)) % 256,
   (((((d4 <<< 7) % 256) ||| (d5 <<< 2)) % 256) ||| (d6 >>> 3)) % 256,
   (((d6 <<< 5) % 256) ||| d7) % 256]

/-- Entry of `bit_packer<5, P>::pack_bits` at `remainder = 3` (case 3):
two digits to one byte. -/
def pack5_entry3 (d0 d1 : Nat) : List Nat :=
  [(((d0 <<< 5) % 256) ||| d1) % 256]

/-- Entry of `bit_packer<5, P>::pack_bits` at `remainder = 1`
(cases 1,3): four digits to two bytes. -/
def pack5_entry1 (d0 d1 d2 d3 : Nat) : List Nat :=
  [(((((d0 <<< 7) % 256) ||| (d1 <<< 2)) % 256) ||| (d2 >>> 3)) % 256,
   (((d2 <<< 5) % 256) ||| d3) % 256]

/-- Entry of `bit_packer<5, P>::pack_bits` at `remainder = 4`
(cases 4,1,3): five digits to three bytes. -/
def pack5_entry4 (d0 d1 d2 d3 d4 : Nat) : List Nat :=
  [(((d0 <<< 4) % 256) ||| (d1 >>> 1)) % 256,
   (((((d1 <<< 7) % 256) ||| (d2 <<< 2)) % 256) ||| (d3 >>> 3)) % 256,
   (((d3 <<< 5) % 256) ||| d4) % 256]

/-- Entry of `bit_packer<5, P>::pack_bits` at `remainder = 2`
(cases 2,4,1,3): seven digits to four bytes. -/
def pack5_entry2 (d0 d1 d2 d3 d4 d5 d6 : Nat) : List Nat :=
  [(((((d0 <<< 6) % 256) ||| (d1 <<< 1)) % 256) ||| (d2 >>> 4)) % 256,
   (((d2 <<< 4) % 256) ||| (d3 >>> 1)) % 256,
   (((((d3 <<< 7) % 256) ||| (d4 <<< 2)) % 256) ||| (d5 >>> 3)) % 256,
   (((d5 <<< 5) % 256) ||| d6) % 256]

/-- Full rounds of `bit_packer<5, P>::pack_bits` after the entry. -/
def pack5_rounds : Nat → List Nat → List Nat
  | 0, _ => []
  | n + 1, d0 :: d1 :: d2 :: d3 :: d4 :: d5 :: d6 :: d7 :: rest =>
      pack5_round d0 d1 d2 d3 d4 d5 d6 d7 ++ pack5_rounds n rest
  | _ + 1, _ => []

/-- `bit_packer<5, p>::pack_bits`, dispatching on `remainder = (p*8) % 5`. -/
def pack_bits5 (p : Nat) (src : List Nat) : List Nat :=
  if p * 8 % 5 = 0 then pack5_rounds (p * 8 / 40) src
  else if p * 8 % 5 = 3 then
    match src with
    | d0 :: d1 :: rest => pack5_entry3 d0 d1 ++ pack5_rounds (p * 8 / 40) rest
    | _ => []
  else if p * 8 % 5 = 1 then
    match src with
    | d0 :: d1 :: d2 :: d3 :: rest => pack5_entry1 d0 d1 d2 d3 ++ pack5_rounds (p * 8 / 40) rest
    | _ => []
  else if p * 8 % 5 = 4 then
    match src with
    | d0 :: d1 :: d2 :: d3 :: d4 :: rest =>
        pack5_entry4 d0 d1 d2 d3 d4 ++ pack5_rounds (p * 8 / 40) rest
    | _ => []
  else
    match src with
    | d0 :: d1 :: d2 :: d3 :: d4 :: d5 :: d6 :: rest =>
        pack5_entry2 d0 d1 d2 d3 d4 d5 d6 ++ pack5_rounds (p * 8 / 40) rest
    | _ => []

/-- One full round of `bit_packer<5, P>::unpack_bits` (cases 0,2,4,1,3):
five bytes to eight digits. -/
def unpack5_round (b0 b1 b2 b3 b4 : Nat) : List Nat :=
  [b0 >>> 3,
   ((b0 <<< 2) &&& 31) ||| (b1 >>> 6),
   (b1 >>> 1) &&& 31,
   ((b1 <<< 4) &&& 31) ||| (b2 >>> 4),
   ((b2 <<< 1) &&& 31) ||| (b3 >>> 7),
   (b3 >>> 2) &&& 31,
   ((b3 <<< 3) &&& 31) ||| (b4 >>> 5),
   b4 &&& 31]

/-- Entry of `bit_packer<5, P>::unpack_bits` at `remainder = 3` (case 3
with the zero-initialised first digit): one byte to two digits. -/
def unpack5_entry3 (b0 : Nat) : List Nat :=
  [0 ||| (b0 >>> 5), b0 &&& 31]

/-- Entry of `bit_packer<5, P>::unpack_bits` at `remainder = 1`
(cases 1,3): two bytes to four digits. -/
def unpack5_entry1 (b0 b1 : Nat) : List Nat :=
  [0 ||| (b0 >>> 7), (b0 >>> 2) &&& 31, ((b0 <<< 3) &&& 31) ||| (b1 >>> 5), b1 &&& 31]

/-- Entry of `bit_packer<5, P>::unpack_bits` at `remainder = 4`
(cases 4,1,3): three bytes to five digits. -/
def unpack5_entry4 (b0 b1 b2 : Nat) : List Nat :=
  [0 ||| (b0 >>> 4), ((b0 <<< 1) &&& 31) ||| (b1 >>> 7), (b1 >>> 2) &&& 31,
   ((b1 <<< 3) &&& 31) ||| (b2 >>> 5), b2 &&& 31]

/-- Entry of `bit_packer<5, P>::unpack_bits` at `remainder = 2`
(cases 2,4,1,3): four bytes to seven digits. -/
def unpack5_entry2 (b0 b1 b2 b3 : Nat) : List Nat :=
  [0 ||| (b0 >>> 6), (b0 >>> 1) &&& 31, ((b0 <<< 4) &&& 31) ||| (b1 >>> 4),
   ((b1 <<< 1) &&& 31) ||| (b2 >>> 7), (b2 >>> 2) &&& 31,
   ((b2 <<< 3) &&& 31) ||| (b3 >>> 5), b3 &&& 31]

/-- Full rounds of `bit_packer<5, P>::unpack_bits` after the entry. -/
def unpack5_rounds : Nat → List Nat → List Nat
  | 0, _ => []
  | n + 1, b0 :: b1 :: b2 :: b3 :: b4 :: rest =>
      unpack5_round b0 b1 b2 b3 b4 ++ unpack5_rounds n rest
  | _ + 1, _ => []

/-- `bit_packer<5, p>::unpack_bits`, dispatching on `remainder = (p*8) % 5`. -/
def unpack_bits5 (p : Nat) (src : List Nat) : List Nat :=
  if p * 8 % 5 = 0 then unpack5_rounds (p * 8 / 40) src
  else if p * 8 % 5 = 3 then
    match src with
    | b0 :: rest => unpack5_entry3 b0 ++ unpack5_rounds (p * 8 / 40) rest
    | _ => []
  else if p * 8 % 5 = 1 then
    match src with
    | b0 :: b1 :: rest => unpack5_entry1 b0 b1 ++ unpack5_rounds (p * 8 / 40) rest
    | _ => []
  else if p * 8 % 5 = 4 then
    match src with
    | b0 :: b1 :: b2 :: rest => unpack5_entry4 b0 b1 b2 ++ unpack5_rounds (p * 8 / 40) rest
    | _ => []
  else
    match src with
    | b0 :: b1 :: b2 :: b3 :: rest =>
        unpack5_entry2 b0 b1 b2 b3 ++ unpack5_rounds (p * 8 / 40) rest
    | _ => []

/-! ### B = 6 -/

/-- One full round of `bit_packer<6, P>::pack_bits` (cases 0,4,2):
four digits to three bytes. -/
def pack6_round (d0 d1 d2 d3 : Nat) : List Nat :=
  [(((d0 <<< 2) % 256) ||| (d1 >>> 4)) % 256,
   (((d1 <<< 4) % 256) ||| (d2 >>> 2)) % 256,
   (((d2 <<< 6) % 256) ||| d3) % 256]

/-- Entry of `bit_packer<6, P>::pack_bits` at `remainder = 4`
(cases 4,2): three digits to two bytes. -/
def pack6_entry4 (d0 d1 d2 : Nat) : List Nat :=
  [(((d0 <<< 4) % 256) ||| (d1 >>> 2)) % 256,
   (((d1 <<< 6) % 256) ||| d2) % 256]

/-- Entry of `bit_packer<6, P>::pack_bits` at `remainder = 2`
(case 2): two digits to one byte. -/
def pack6_entry2 (d0 d1 : Nat) : List Nat :=
  [(((d0 <<< 6) % 256) ||| d1) % 256]

/-- Full rounds of `bit_packer<6, P>::pack_bits` after the entry. -/
def pack6_rounds : Nat → List Nat → List Nat
  | 0, _ => []
  | n + 1, d0 :: d1 :: d2 :: d3 :: rest => pack6_round d0 d1 d2 d3 ++ pack6_rounds n rest
  | _ + 1, _ => []

/-- `bit_packer<6, p>::pack_bits`, dispatching on `remainder = (p*8) % 6`. -/
def pack_bits6 (p : Nat) (src : List Nat) : List Nat :=
  if p * 8 % 6 = 0 then pack6_rounds (p * 8 / 24) src
  else if p * 8 % 6 = 4 then
    match src with
    | d0 :: d1 :: d2 :: rest => pack6_entry4 d0 d1 d2 ++ pack6_rounds (p * 8 / 24) rest
    | _ => []
  else
    match src with
    | d0 :: d1 :: rest => pack6_entry2 d0 d1 ++ pack6_rounds (p * 8 / 24) rest
    | _ => []

/-- One full round of `bit_packer<6, P>::unpack_bits` (cases 0,4,2):
three bytes to four digits. -/
def unpack6_round (b0 b1 b2 : Nat) : List Nat :=
  [b0 >>> 2,
   ((b0 <<< 4) &&& 63) ||| (b1 >>> 4),
   ((b1 <<< 2) &&& 63) ||| (b2 >>> 6),
   b2 &&& 63]

/-- Entry of `bit_packer<6, P>::unpack_bits` at `remainder = 4`
(cases 4,2 with the zero-initialised first digit): two bytes to three digits. -/
def unpack6_entry4 (b0 b1 : Nat) : List Nat :=
  [0 ||| (b0 >>> 4), ((b0 <<< 2) &&& 63) ||| (b1 >>> 6), b1 &&& 63]

/-- Entry of `bit_packer<6, P>::unpack_bits` at `remainder = 2`
(case 2 with the zero-initialised first digit): one byte to two digits. -/
def unpack6_entry2 (b0 : Nat) : List Nat :=
  [0 ||| (b0 >>> 6), b0 &&& 63]

/-- Full rounds of `bit_packer<6, P>::unpack_bits` after the entry. -/
def unpack6_rounds : Nat → List Nat → List Nat
  | 0, _ => []
  | n + 1, b0 :: b1 :: b2 :: rest => unpack6_round b0 b1 b2 ++ unpack6_rounds n rest
  | _ + 1, _ => []

/-- `bit_packer<6, p>::unpack_bits`, dispatching on `remainder = (p*8) % 6`. -/
def unpack_bits6 (p : Nat) (src : List Nat) : List Nat :=
  if p * 8 % 6 = 0 then unpack6_rounds (p * 8 / 24) src
  else if p * 8 % 6 = 4 then
    match src with
    | b0 :: b1 :: rest => unpack6_entry4 b0 b1 ++ unpack6_rounds (p * 8 / 24) rest
    | _ => []
  else
    match src with
    | b0 :: rest => unpack6_entry2 b0 ++ unpack6_rounds (p * 8 / 24) rest
    | _ => []

/-! ### B = 7 -/

/-- One full round of `bit_packer<7, P>::pack_bits` (cases 0,6,5,4,3,2,1):
eight digits to seven bytes. -/
def pack7_round (d0 d1 d2 d3 d4 d5 d6 d7 : Nat) : List Nat :=
  [(((d0 <<< 1) % 256) ||| (d1 >>> 6)) % 256,
   (((d1 <<< 2) % 256) ||| (d2 >>> 5)) % 256,
   (((d2 <<< 3) % 256) ||| (d3 >>> 4)) % 256,
   (((d3 <<< 4) % 256) ||| (d4 >>> 3)) % 256,
   (((d4 <<< 5) % 256) ||| (d5 >>> 2)) % 256,
   (((d5 <<< 6) % 256) ||| (d6 >>> 1)) % 256,
   (((d6 <<< 7) % 256) ||| d7) % 256]

/-- Entry of `bit_packer<7, P>::pack_bits` at `remainder = 1` (case 1). -/
def pack7_entry1 (d0 d1 : Nat) : List Nat :=
  [(((d0 <<< 7) % 256) ||| d1) % 256]

/-- Entry of `bit_packer<7, P>::pack_bits` at `remainder = 2` (cases 2,1). -/
def pack7_entry2 (d0 d1 d2 : Nat) : List Nat :=
  [(((d0 <<< 6) % 256) ||| (d1 >>> 1)) % 256,
   (((d1 <<< 7) % 256) ||| d2) % 256]

/-- Entry of `bit_packer<7, P>::pack_bits` at `remainder = 3` (cases 3,2,1). -/
def pack7_entry3 (d0 d1 d2 d3 : Nat) : List Nat :=
  [(((d0 <<< 5) % 256) ||| (d1 >>> 2)) % 256,
   (((d1 <<< 6) % 256) ||| (d2 >>> 1)) % 256,
   (((d2 <<< 7) % 256) ||| d3) % 256]

/-- Entry of `bit_packer<7, P>::pack_bits` at `remainder = 4` (cases 4,3,2,1). -/
def pack7_entry4 (d0 d1 d2 d3 d4 : Nat) : List Nat :=
  [(((d0 <<< 4) % 256) ||| (d1 >>> 3)) % 256,
   (((d1 <<< 5) % 256) ||| (d2 >>> 2)) % 256,
   (((d2 <<< 6) % 256) ||| (d3 >>> 1)) % 256,
   (((d3 <<< 7) % 256) ||| d4) % 256]

/-- Entry of `bit_packer<7, P>::pack_bits` at `remainder = 5` (cases 5,4,3,2,1). -/
def pack7_entry5 (d0 d1 d2 d3 d4 d5 : Nat) : List Nat :=
  [(((d0 <<< 3) % 256) ||| (d1 >>> 4)) % 256,
   (((d1 <<< 4) % 256) ||| (d2 >>> 3)) % 256,
   (((d2 <<< 5) % 256) ||| (d3 >>> 2)) % 256,
   (((d3 <<< 6) % 256) ||| (d4 >>> 1)) % 256,
   (((d4 <<< 7) % 256) ||| d5) % 256]

/-- Entry of `bit_packer<7, P>::pack_bits` at `remainder = 6` (cases 6,5,4,3,2,1). -/
def pack7_entry6 (d0 d1 d2 d3 d4 d5 d6 : Nat) : List Nat :=
  [(((d0 <<< 2) % 256) ||| (d1 >>> 5)) % 256,
   (((d1 <<< 3) % 256) ||| (d2 >>> 4)) % 256,
   (((d2 <<< 4) % 256) ||| (d3 >>> 3)) % 256,
   (((d3 <<< 5) % 256) ||| (d4 >>> 2)) % 256,
   (((d4 <<< 6) % 256) ||| (d5 >>> 1)) % 256,
   (((d5 <<< 7) % 256) ||| d6) % 256]

/-- Full rounds of `bit_packer<7, P>::pack_bits` after the entry. -/
def pack7_rounds : Nat → List Nat → List Nat
  | 0, _ => []
  | n + 1, d0 :: d1 :: d2 :: d3 :: d4 :: d5 :: d6 :: d7 :: rest =>
      pack7_round d0 d1 d2 d3 d4 d5 d6 d7 ++ pack7_rounds n rest
  | _ + 1, _ => []

/-- `bit_packer<7, p>::pack_bits`, dispatching on `remainder = (p*8) % 7`. -/
def pack_bits7 (p : Nat) (src : List Nat) : List Nat :=
  if p * 8 % 7 = 0 then pack7_rounds (p * 8 / 56) src
  else if p * 8 % 7 = 1 then
    match src with
    | d0 :: d1 :: rest => pack7_entry1 d0 d1 ++ pack7_rounds (p * 8 / 56) rest
    | _ => []
  else if p * 8 % 7 = 2 then
    match src with
    | d0 :: d1 :: d2 :: rest => pack7_entry2 d0 d1 d2 ++ pack7_rounds (p * 8 / 56) rest
    | _ => []
  else if p * 8 % 7 = 3 then
    match src with
    | d0 :: d1 :: d2 :: d3 :: rest => pack7_entry3 d0 d1 d2 d3 ++ pack7_rounds (p * 8 / 56) rest
    | _ => []
  else if p * 8 % 7 = 4 then
    match src with
    | d0 :: d1 :: d2 :: d3 :: d4 :: rest =>
        pack7_entry4 d0 d1 d2 d3 d4 ++ pack7_rounds (p * 8 / 56) rest
    | _ => []
  else if p * 8 % 7 = 5 then
    match src with
    | d0 :: d1 :: d2 :: d3 :: d4 :: d5 :: rest =>
        pack7_entry5 d0 d1 d2 d3 d4 d5 ++ pack7_rounds (p * 8 / 56) rest
    | _ => []
  else
    match src with
    | d0 :: d1 :: d2 :: d3 :: d4 :: d5 :: d6 :: rest =>
        pack7_entry6 d0 d1 d2 d3 d4 d5 d6 ++ pack7_rounds (p * 8 / 56) rest
    | _ => []

/-- One full round of `bit_packer<7, P>::unpack_bits` (cases 0,6,5,4,3,2,1):
seven bytes to eight digits. -/
def unpack7_round (b0 b1 b2 b3 b4 b5 b6 : Nat) : List Nat :=
  [b0 >>> 1,
   ((b0 <<< 6) &&& 127) ||| (b1 >>> 2),
   ((b1 <<< 5) &&& 127) ||| (b2 >>> 3),
   ((b2 <<< 4) &&& 127) ||| (b3 >>> 4),
   ((b3 <<< 3) &&& 127) ||| (b4 >>> 5),
   ((b4 <<< 2) &&& 127) ||| (b5 >>> 6),
   ((b5 <<< 1) &&& 127) ||| (b6 >>> 7),
   b6 &&& 127]

/-- Entry of `bit_packer<7, P>::unpack_bits` at `remainder = 1` (case 1
with the zero-initialised first digit). -/
def unpack7_entry1 (b0 : Nat) : List Nat :=
  [0 ||| (b0 >>> 7), b0 &&& 127]

/-- Entry of `bit_packer<7, P>::unpack_bits` at `remainder = 2` (cases 2,1). -/
def unpack7_entry2 (b0 b1 : Nat) : List Nat :=
  [0 ||| (b0 >>> 6), ((b0 <<< 1) &&& 127) ||| (b1 >>> 7), b1 &&& 127]

/-- Entry of `bit_packer<7, P>::unpack_bits` at `remainder = 3` (cases 3,2,1). -/
def unpack7_entry3 (b0 b1 b2 : Nat) : List Nat :=
  [0 ||| (b0 >>> 5), ((b0 <<< 2) &&& 127) ||| (b1 >>> 6),
   ((b1 <<< 1) &&& 127) ||| (b2 >>> 7), b2 &&& 127]

/-- Entry of `bit_packer<7, P>::unpack_bits` at `remainder = 4` (cases 4,3,2,1). -/
def unpack7_entry4 (b0 b1 b2 b3 : Nat) : List Nat :=
  [0 ||| (b0 >>> 4), ((b0 <<< 3) &&& 127) ||| (b1 >>> 5),
   ((b1 <<< 2) &&& 127) ||| (b2 >>> 6), ((b2 <<< 1) &&& 127) ||| (b3 >>> 7), b3 &&& 127]

/-- Entry of `bit_packer<7, P>::unpack_bits` at `remainder = 5` (cases 5,4,3,2,1). -/
def unpack7_entry5 (b0 b1 b2 b3 b4 : Nat) : List Nat :=
  [0 ||| (b0 >>> 3), ((b0 <<< 4) &&& 127) ||| (b1 >>> 4),
   ((b1 <<< 3) &&& 127) ||| (b2 >>> 5), ((b2 <<< 2) &&& 127) ||| (b3 >>> 6),
   ((b3 <<< 1) &&& 127) ||| (b4 >>> 7), b4 &&& 127]

/-- Entry of `bit_packer<7, P>::unpack_bits` at `remainder = 6` (cases 6,5,4,3,2,1). -/
def unpack7_entry6 (b0 b1 b2 b3 b4 b5 : Nat) : List Nat :=
  [0 ||| (b0 >>> 2), ((b0 <<< 5) &&& 127) ||| (b1 >>> 3),
   ((b1 <<< 4) &&& 127) ||| (b2 >>> 4), ((b2 <<< 3) &&& 127) ||| (b3 >>> 5),
   ((b3 <<< 2) &&& 127) ||| (b4 >>> 6), ((b4 <<< 1) &&& 127) ||| (b5 >>> 7), b5 &&& 127]

/-- Full rounds of `bit_packer<7, P>::unpack_bits` after the entry. -/
def unpack7_rounds : Nat → List Nat → List Nat
  | 0, _ => []
  | n + 1, b0 :: b1 :: b2 :: b3 :: b4 :: b5 :: b6 :: rest =>
      unpack7_round b0 b1 b2 b3 b4 b5 b6 ++ unpack7_rounds n rest
  | _ + 1, _ => []

/-- `bit_packer<7, p>::unpack_bits`, dispatching on `remainder = (p*8) % 7`. -/
def unpack_bits7 (p : Nat) (src : List Nat) : List Nat :=
  if p * 8 % 7 = 0 then unpack7_rounds (p * 8 / 56) src
  else if p * 8 % 7 = 1 then
    match src with
    | b0 :: rest => unpack7_entry1 b0 ++ unpack7_rounds (p * 8 / 56) rest
    | _ => []
  else if p * 8 % 7 = 2 then
    match src with
    | b0 :: b1 :: rest => unpack7_entry2 b0 b1 ++ unpack7_rounds (p * 8 / 56) rest
    | _ => []
  else if p * 8 % 7 = 3 then
    match src with
    | b0 :: b1 :: b2 :: rest => unpack7_entry3 b0 b1 b2 ++ unpack7_rounds (p * 8 / 56) rest
    | _ => []
  else if p * 8 % 7 = 4 then
    match src with
    | b0 :: b1 :: b2 :: b3 :: rest =>
        unpack7_entry4 b0 b1 b2 b3 ++ unpack7_rounds (p * 8 / 56) rest
    | _ => []
  else if p * 8 % 7 = 5 then
    match src with
    | b0 :: b1 :: b2 :: b3 :: b4 :: rest =>
        unpack7_entry5 b0 b1 b2 b3 b4 ++ unpack7_rounds (p * 8 / 56) rest
    | _ => []
  else
    match src with
    | b0 :: b1 :: b2 :: b3 :: b4 :: b5 :: rest =>
        unpack7_entry6 b0 b1 b2 b3 b4 b5 ++ unpack7_rounds (p * 8 / 56) rest
    | _ => []

/-! ### Round-trip proofs for B = 5 -/

theorem unpack_bits5_eq0 (p : Nat) (h : p * 8 % 5 = 0) (src : List Nat) :
    unpack_bits5 p src = unpack5_rounds (p * 8 / 40) src := by
  unfold unpack_bits5
  rw [if_pos h]

theorem unpack_bits5_eq3 (p : Nat) (h : p * 8 % 5 = 3) (b0 : Nat) (rest : List Nat) :
    unpack_bits5 p (b0 :: rest) = unpack5_entry3 b0 ++ unpack5_rounds (p * 8 / 40) rest := by
  unfold unpack_bits5
  rw [if_neg (by omega), if_pos h]

theorem unpack_bits5_eq1 (p : Nat) (h : p * 8 % 5 = 1) (b0 b1 : Nat) (rest : List Nat) :
    unpack_bits5 p (b0 :: b1 :: rest) =
      unpack5_entry1 b0 b1 ++ unpack5_rounds (p * 8 / 40) rest := by
  unfold unpack_bits5
  rw [if_neg (by omega), if_neg (by omega), if_pos h]

theorem unpack_bits5_eq4 (p : Nat) (h : p * 8 % 5 = 4) (b0 b1 b2 : Nat) (rest : List Nat) :
    unpack_bits5 p (b0 :: b1 :: b2 :: rest) =
      unpack5_entry4 b0 b1 b2 ++ unpack5_rounds (p * 8 / 40) rest := by
  unfold unpack_bits5
  rw [if_neg (by omega), if_neg (by omega), if_neg (by omega), if_pos h]

theorem unpack_bits5_eq2 (p : Nat) (h : p * 8 % 5 = 2) (b0 b1 b2 b3 : Nat) (rest : List Nat) :
    unpack_bits5 p (b0 :: b1 :: b2 :: b3 :: rest) =
      unpack5_entry2 b0 b1 b2 b3 ++ unpack5_rounds (p * 8 / 40) rest := by
  unfold unpack_bits5
  rw [if_neg (by omega), if_neg (by omega), if_neg (by omega), if_neg (by omega)]

theorem pack_bits5_eq0 (p : Nat) (h : p * 8 % 5 = 0) (src : List Nat) :
    pack_bits5 p src = pack5_rounds (p * 8 / 40) src := by
  unfold pack_bits5
  rw [if_pos h]

theorem pack_bits5_eq3 (p : Nat) (h : p * 8 % 5 = 3) (d0 d1 : Nat) (rest : List Nat) :
    pack_bits5 p (d0 :: d1 :: rest) = pack5_entry3 d0 d1 ++ pack5_rounds (p * 8 / 40) rest := by
  unfold pack_bits5
  rw [if_neg (by omega), if_pos h]

theorem pack_bits5_eq1 (p : Nat) (h : p * 8 % 5 = 1) (d0 d1 d2 d3 : Nat) (rest : List Nat) :
    pack_bits5 p (d0 :: d1 :: d2 :: d3 :: rest) =
      pack5_entry1 d0 d1 d2 d3 ++ pack5_rounds (p * 8 / 40) rest := by
  unfold pack_bits5
  rw [if_neg (by omega), if_neg (by omega), if_pos h]

theorem pack_bits5_eq4 (p : Nat) (h : p * 8 % 5 = 4) (d0 d1 d2 d3 d4 : Nat) (rest : List Nat) :
    pack_bits5 p (d0 :: d1 :: d2 :: d3 :: d4 :: rest) =
      pack5_entry4 d0 d1 d2 d3 d4 ++ pack5_rounds (p * 8 / 40) rest := by
  unfold pack_bits5
  rw [if_neg (by omega), if_neg (by omega), if_neg (by omega), if_pos h]

theorem pack_bits5_eq2 (p : Nat) (h : p * 8 % 5 = 2) (d0 d1 d2 d3 d4 d5 d6 : Nat)
    (rest : List Nat) :
    pack_bits5 p (d0 :: d1 :: d2 :: d3 :: d4 :: d5 :: d6 :: rest) =
      pack5_entry2 d0 d1 d2 d3 d4 d5 d6 ++ pack5_rounds (p * 8 / 40) rest := by
  unfold pack_bits5
  rw [if_neg (by omega), if_neg (by omega), if_neg (by omega), if_neg (by omega)]

theorem pack5_rounds_unpack : ∀ (n : Nat) (l : List Nat), l.length = 5 * n →
    (∀ x ∈ l, x < 256) → pack5_rounds n (unpack5_rounds n l) = l := by
  intro n
  induction n with
  | zero =>
    intro l hlen _
    rcases l with _ | ⟨b0, t⟩
    · rfl
    · simp at hlen
  | succ n ih =>
    intro l hlen hb
    rcases l with _ | ⟨b0, _ | ⟨b1, _ | ⟨b2, _ | ⟨b3, _ | ⟨b4, rest⟩⟩⟩⟩⟩ <;>
      simp only [List.length_cons, List.length_nil] at hlen <;> try omega
    have hrest : rest.length = 5 * n := by omega
    have hb' : ∀ x ∈ rest, x < 256 := by
      intro x hx; exact hb x (by simp [hx])
    have h0 : b0 < 256 := hb b0 (by simp)
    have h1 : b1 < 256 := hb b1 (by simp)
    have h2 : b2 < 256 := hb b2 (by simp)
    have h3 : b3 < 256 := hb b3 (by simp)
    have h4 : b4 < 256 := hb b4 (by simp)
    simp only [unpack5_rounds, unpack5_round, List.cons_append, List.nil_append]
    simp only [pack5_rounds, pack5_round]
    rw [ih rest hrest hb']
    simp (disch := omega) only [shl1, shl2, shl3, shl4, shl5, shl6, shl7,
      shr1, shr2, shr3, shr4, shr5, shr6, shr7, andE31, lorD1, lorD2, lorD3, lorD4, lorD5,
      lorD6, lorD7, lorD8, List.cons_append, List.nil_append, List.cons.injEq, and_true]
    omega

theorem unpack5_rounds_pack : ∀ (n : Nat) (l : List Nat), l.length = 8 * n →
    (∀ x ∈ l, x < 32) → unpack5_rounds n (pack5_rounds n l) = l := by
  intro n
  induction n with
  | zero =>
    intro l hlen _
    rcases l with _ | ⟨d0, t⟩
    · rfl
    · simp at hlen
  | succ n ih =>
    intro l hlen hb
    rcases l with _ | ⟨d0, _ | ⟨d1, _ | ⟨d2, _ | ⟨d3, _ | ⟨d4, _ | ⟨d5, _ | ⟨d6, _ | ⟨d7, rest⟩⟩⟩⟩⟩⟩⟩⟩ <;>
      simp only [List.length_cons, List.length_nil] at hlen <;> try omega
    have hrest : rest.length = 8 * n := by omega
    have hb' : ∀ x ∈ rest, x < 32 := by
      intro x hx; exact hb x (by simp [hx])
    have h0 : d0 < 32 := hb d0 (by simp)
    have h1 : d1 < 32 := hb d1 (by simp)
    have h2 : d2 < 32 := hb d2 (by simp)
    have h3 : d3 < 32 := hb d3 (by simp)
    have h4 : d4 < 32 := hb d4 (by simp)
    have h5 : d5 < 32 := hb d5 (by simp)
    have h6 : d6 < 32 := hb d6 (by simp)
    have h7 : d7 < 32 := hb d7 (by simp)
    simp only [pack5_rounds, pack5_round, List.cons_append, List.nil_append]
    simp only [unpack5_rounds, unpack5_round]
    rw [ih rest hrest hb']
    simp (disch := omega) only [shl1, shl2, shl3, shl4, shl5, shl6, shl7,
      shr1, shr2, shr3, shr4, shr5, shr6, shr7, andE31, lorD1, lorD2, lorD3, lorD4, lorD5,
      lorD6, lorD7, lorD8, List.cons_append, List.nil_append, List.cons.injEq, and_true]
    omega

theorem pack5_entry3_unpack (b0 : Nat) (h0 : b0 < 256) :
    pack5_entry3 (0 ||| (b0 >>> 5)) (b0 &&& 31) = [b0] := by
  simp (disch := omega) only [pack5_entry3, shl1, shl2, shl3, shl4, shl5, shl6, shl7,
    shr1, shr2, shr3, shr4, shr5, shr6, shr7, andE31, lorD1, lorD2, lorD3, lorD4, lorD5,
    lorD6, lorD7, lorD8, List.cons.injEq, and_true]
  omega

theorem pack5_entry1_unpack (b0 b1 : Nat) (h0 : b0 < 256) (h1 : b1 < 256) :
    pack5_entry1 (0 ||| (b0 >>> 7)) ((b0 >>> 2) &&& 31) (((b0 <<< 3) &&& 31) ||| (b1 >>> 5))
      (b1 &&& 31) = [b0, b1] := by
  simp (disch := omega) only [pack5_entry1, shl1, shl2, shl3, shl4, shl5, shl6, shl7,
    shr1, shr2, shr3, shr4, shr5, shr6, shr7, andE31, lorD1, lorD2, lorD3, lorD4, lorD5,
    lorD6, lorD7, lorD8, List.cons.injEq, and_true]
  omega

theorem pack5_entry4_unpack (b0 b1 b2 : Nat) (h0 : b0 < 256) (h1 : b1 < 256) (h2 : b2 < 256) :
    pack5_entry4 (0 ||| (b0 >>> 4)) (((b0 <<< 1) &&& 31) ||| (b1 >>> 7)) ((b1 >>> 2) &&& 31)
      (((b1 <<< 3) &&& 31) ||| (b2 >>> 5)) (b2 &&& 31) = [b0, b1, b2] := by
  simp (disch := omega) only [pack5_entry4, shl1, shl2, shl3, shl4, shl5, shl6, shl7,
    shr1, shr2, shr3, shr4, shr5, shr6, shr7, andE31, lorD1, lorD2, lorD3, lorD4, lorD5,
    lorD6, lorD7, lorD8, List.cons.injEq, and_true]
  omega

theorem pack5_entry2_unpack (b0 b1 b2 b3 : Nat) (h0 : b0 < 256) (h1 : b1 < 256)
    (h2 : b2 < 256) (h3 : b3 < 256) :
    pack5_entry2 (0 ||| (b0 >>> 6)) ((b0 >>> 1) &&& 31) (((b0 <<< 4) &&& 31) ||| (b1 >>> 4))
      (((b1 <<< 1) &&& 31) ||| (b2 >>> 7)) ((b2 >>> 2) &&& 31)
      (((b2 <<< 3) &&& 31) ||| (b3 >>> 5)) (b3 &&& 31) = [b0, b1, b2, b3] := by
  simp (disch := omega) only [pack5_entry2, shl1, shl2, shl3, shl4, shl5, shl6, shl7,
    shr1, shr2, shr3, shr4, shr5, shr6, shr7, andE31, lorD1, lorD2, lorD3, lorD4, lorD5,
    lorD6, lorD7, lorD8, List.cons.injEq, and_true]
  omega

theorem unpack5_entry3_pack (d0 d1 : Nat) (h0 : d0 < 8) (h1 : d1 < 32) :
    unpack5_entry3 ((((d0 <<< 5) % 256) ||| d1) % 256) = [d0, d1] := by
  simp (disch := omega) only [unpack5_entry3, shl1, shl2, shl3, shl4, shl5, shl6, shl7,
    shr1, shr2, shr3, shr4, shr5, shr6, shr7, andE31, lorD1, lorD2, lorD3, lorD4, lorD5,
    lorD6, lorD7, lorD8, List.cons.injEq, and_true]
  omega

theorem unpack5_entry1_pack (d0 d1 d2 d3 : Nat) (h0 : d0 < 2) (h1 : d1 < 32) (h2 : d2 < 32)
    (h3 : d3 < 32) :
    unpack5_entry1 ((((((d0 <<< 7) % 256) ||| (d1 <<< 2)) % 256) ||| (d2 >>> 3)) % 256)
      ((((d2 <<< 5) % 256) ||| d3) % 256) = [d0, d1, d2, d3] := by
  simp (disch := omega) only [unpack5_entry1, shl1, shl2, shl3, shl4, shl5, shl6, shl7,
    shr1, shr2, shr3, shr4, shr5, shr6, shr7, andE31, lorD1, lorD2, lorD3, lorD4, lorD5,
    lorD6, lorD7, lorD8, List.cons.injEq, and_true]
  omega

theorem unpack5_entry4_pack (d0 d1 d2 d3 d4 : Nat) (h0 : d0 < 16) (h1 : d1 < 32) (h2 : d2 < 32)
    (h3 : d3 < 32) (h4 : d4 < 32) :
    unpack5_entry4 ((((d0 <<< 4) % 256) ||| (d1 >>> 1)) % 256)
      ((((((d1 <<< 7) % 256) ||| (d2 <<< 2)) % 256) ||| (d3 >>> 3)) % 256)
      ((((d3 <<< 5) % 256) ||| d4) % 256) = [d0, d1, d2, d3, d4] := by
  simp (disch := omega) only [unpack5_entry4, shl1, shl2, shl3, shl4, shl5, shl6, shl7,
    shr1, shr2, shr3, shr4, shr5, shr6, shr7, andE31, lorD1, lorD2, lorD3, lorD4, lorD5,
    lorD6, lorD7, lorD8, List.cons.injEq, and_true]
  omega

theorem unpack5_entry2_pack (d0 d1 d2 d3 d4 d5 d6 : Nat) (h0 : d0 < 4) (h1 : d1 < 32)
    (h2 : d2 < 32) (h3 : d3 < 32) (h4 : d4 < 32) (h5 : d5 < 32) (h6 : d6 < 32) :
    unpack5_entry2 ((((((d0 <<< 6) % 256) ||| (d1 <<< 1)) % 256) ||| (d2 >>> 4)) % 256)
      ((((d2 <<< 4) % 256) ||| (d3 >>> 1)) % 256)
      ((((((d3 <<< 7) % 256) ||| (d4 <<< 2)) % 256) ||| (d5 >>> 3)) % 256)
      ((((d5 <<< 5) % 256) ||| d6) % 256) = [d0, d1, d2, d3, d4, d5, d6] := by
  simp (disch := omega) only [unpack5_entry2, shl1, shl2, shl3, shl4, shl5, shl6, shl7,
    shr1, shr2, shr3, shr4, shr5, shr6, shr7, andE31, lorD1, lorD2, lorD3, lorD4, lorD5,
    lorD6, lorD7, lorD8, List.cons.injEq, and_true]
  omega

theorem pack_unpack_bits5_full (p : Nat) (src : List Nat) (hlen : src.length = p)
    (hb : ∀ x ∈ src, x < 256) : pack_bits5 p (unpack_bits5 p src) = src := by
  have hr : p * 8 % 5 = 0 ∨ p * 8 % 5 = 3 ∨ p * 8 % 5 = 1 ∨ p * 8 % 5 = 4 ∨ p * 8 % 5 = 2 := by
    omega
  rcases hr with h | h | h | h | h
  · have hlen' : src.length = 5 * (p * 8 / 40) := by omega
    rw [unpack_bits5_eq0 p h, pack_bits5_eq0 p h]
    exact pack5_rounds_unpack _ src hlen' hb
  · rcases src with _ | ⟨b0, rest⟩ <;>
      simp only [List.length_nil, List.length_cons] at hlen <;> try omega
    have h0 : b0 < 256 := hb b0 (by simp)
    have hrest : rest.length = 5 * (p * 8 / 40) := by omega
    have hb' : ∀ x ∈ rest, x < 256 := fun x hx => hb x (by simp [hx])
    rw [unpack_bits5_eq3 p h]
    simp only [unpack5_entry3, List.cons_append, List.nil_append]
    rw [pack_bits5_eq3 p h, pack5_rounds_unpack _ rest hrest hb', pack5_entry3_unpack b0 h0]
    rfl
  · rcases src with _ | ⟨b0, _ | ⟨b1, rest⟩⟩ <;>
      simp only [List.length_nil, List.length_cons] at hlen <;> try omega
    have h0 : b0 < 256 := hb b0 (by simp)
    have h1 : b1 < 256 := hb b1 (by simp)
    have hrest : rest.length = 5 * (p * 8 / 40) := by omega
    have hb' : ∀ x ∈ rest, x < 256 := fun x hx => hb x (by simp [hx])
    rw [unpack_bits5_eq1 p h]
    simp only [unpack5_entry1, List.cons_append, List.nil_append]
    rw [pack_bits5_eq1 p h, pack5_rounds_unpack _ rest hrest hb',
      pack5_entry1_unpack b0 b1 h0 h1]
    rfl
  · rcases src with _ | ⟨b0, _ | ⟨b1, _ | ⟨b2, rest⟩⟩⟩ <;>
      simp only [List.length_nil, List.length_cons] at hlen <;> try omega
    have h0 : b0 < 256 := hb b0 (by simp)
    have h1 : b1 < 256 := hb b1 (by simp)
    have h2 : b2 < 256 := hb b2 (by simp)
    have hrest : rest.length = 5 * (p * 8 / 40) := by omega
    have hb' : ∀ x ∈ rest, x < 256 := fun x hx => hb x (by simp [hx])
    rw [unpack_bits5_eq4 p h]
    simp only [unpack5_entry4, List.cons_append, List.nil_append]
    rw [pack_bits5_eq4 p h, pack5_rounds_unpack _ rest hrest hb',
      pack5_entry4_unpack b0 b1 b2 h0 h1 h2]
    rfl
  · rcases src with _ | ⟨b0, _ | ⟨b1, _ | ⟨b2, _ | ⟨b3, rest⟩⟩⟩⟩ <;>
      simp only [List.length_nil, List.length_cons] at hlen <;> try omega
    have h0 : b0 < 256 := hb b0 (by simp)
    have h1 : b1 < 256 := hb b1 (by simp)
    have h2 : b2 < 256 := hb b2 (by simp)
    have h3 : b3 < 256 := hb b3 (by simp)
    have hrest : rest.length = 5 * (p * 8 / 40) := by omega
    have hb' : ∀ x ∈ rest, x < 256 := fun x hx => hb x (by simp [hx])
    rw [unpack_bits5_eq2 p h]
    simp only [unpack5_entry2, List.cons_append, List.nil_append]
    rw [pack_bits5_eq2 p h, pack5_rounds_unpack _ rest hrest hb',
      pack5_entry2_unpack b0 b1 b2 b3 h0 h1 h2 h3]
    rfl

theorem unpack_pack_bits5_full (p : Nat) (src : List Nat)
    (hlen : src.length = bit_packer_unpacked_bytes 5 p)
    (hd : ∀ x ∈ src, x < 32)
    (hfirst : p * 8 % 5 = 0 ∨ src.headD 0 < 2 ^ (p * 8 % 5)) :
    unpack_bits5 p (pack_bits5 p src) = src := by
  rw [bit_packer_unpacked_bytes] at hlen
  have hr : p * 8 % 5 = 0 ∨ p * 8 % 5 = 3 ∨ p * 8 % 5 = 1 ∨ p * 8 % 5 = 4 ∨ p * 8 % 5 = 2 := by
    omega
  rcases hr with h | h | h | h | h
  · have hlen' : src.length = 8 * (p * 8 / 40) := by rw [hlen, h]; norm_num; omega
    rw [pack_bits5_eq0 p h, unpack_bits5_eq0 p h]
    exact unpack5_rounds_pack _ src hlen' hd
  · have hcount : src.length = 8 * (p * 8 / 40) + 2 := by rw [hlen, h]; norm_num; omega
    rcases src with _ | ⟨d0, _ | ⟨d1, rest⟩⟩ <;>
      simp only [List.length_nil, List.length_cons] at hcount <;> try omega
    have h1 : d1 < 32 := hd d1 (by simp)
    have hf : d0 < 8 := by
      rcases hfirst with hf | hf
      · omega
      · rw [h] at hf; simp only [List.headD] at hf; omega
    have hrest : rest.length = 8 * (p * 8 / 40) := by omega
    have hd' : ∀ x ∈ rest, x < 32 := fun x hx => hd x (by simp [hx])
    rw [pack_bits5_eq3 p h]
    simp only [pack5_entry3, List.cons_append, List.nil_append]
    rw [unpack_bits5_eq3 p h, unpack5_rounds_pack _ rest hrest hd',
      unpack5_entry3_pack d0 d1 hf h1]
    rfl
  · have hcount : src.length = 8 * (p * 8 / 40) + 4 := by rw [hlen, h]; norm_num; omega
    rcases src with _ | ⟨d0, _ | ⟨d1, _ | ⟨d2, _ | ⟨d3, rest⟩⟩⟩⟩ <;>
      simp only [List.length_nil, List.length_cons] at hcount <;> try omega
    have h1 : d1 < 32 := hd d1 (by simp)
    have h2 : d2 < 32 := hd d2 (by simp)
    have h3 : d3 < 32 := hd d3 (by simp)
    have hf : d0 < 2 := by
      rcases hfirst with hf | hf
      · omega
      · rw [h] at hf; simp only [List.headD] at hf; omega
    have hrest : rest.length = 8 * (p * 8 / 40) := by omega
    have hd' : ∀ x ∈ rest, x < 32 := fun x hx => hd x (by simp [hx])
    rw [pack_bits5_eq1 p h]
    simp only [pack5_entry1, List.cons_append, List.nil_append]
    rw [unpack_bits5_eq1 p h, unpack5_rounds_pack _ rest hrest hd',
      unpack5_entry1_pack d0 d1 d2 d3 hf h1 h2 h3]
    rfl
  · have hcount : src.length = 8 * (p * 8 / 40) + 5 := by rw [hlen, h]; norm_num; omega
    rcases src with _ | ⟨d0, _ | ⟨d1, _ | ⟨d2, _ | ⟨d3, _ | ⟨d4, rest⟩⟩⟩⟩⟩ <;>
      simp only [List.length_nil, List.length_cons] at hcount <;> try omega
    have h1 : d1 < 32 := hd d1 (by simp)
    have h2 : d2 < 32 := hd d2 (by simp)
    have h3 : d3 < 32 := hd d3 (by simp)
    have h4 : d4 < 32 := hd d4 (by simp)
    have hf : d0 < 16 := by
      rcases hfirst with hf | hf
      · omega
      · rw [h] at hf; simp only [List.headD] at hf; omega
    have hrest : rest.length = 8 * (p * 8 / 40) := by omega
    have hd' : ∀ x ∈ rest, x < 32 := fun x hx => hd x (by simp [hx])
    rw [pack_bits5_eq4 p h]
    simp only [pack5_entry4, List.cons_append, List.nil_append]
    rw [unpack_bits5_eq4 p h, unpack5_rounds_pack _ rest hrest hd',
      unpack5_entry4_pack d0 d1 d2 d3 d4 hf h1 h2 h3 h4]
    rfl
  · have hcount : src.length = 8 * (p * 8 / 40) + 7 := by rw [hlen, h]; norm_num; omega
    rcases src with _ | ⟨d0, _ | ⟨d1, _ | ⟨d2, _ | ⟨d3, _ | ⟨d4, _ | ⟨d5, _ | ⟨d6, rest⟩⟩⟩⟩⟩⟩⟩ <;>
      simp only [List.length_nil, List.length_cons] at hcount <;> try omega
    have h1 : d1 < 32 := hd d1 (by simp)
    have h2 : d2 < 32 := hd d2 (by simp)
    have h3 : d3 < 32 := hd d3 (by simp)
    have h4 : d4 < 32 := hd d4 (by simp)
    have h5 : d5 < 32 := hd d5 (by simp)
    have h6 : d6 < 32 := hd d6 (by simp)
    have hf : d0 < 4 := by
      rcases hfirst with hf | hf
      · omega
      · rw [h] at hf; simp only [List.headD] at hf; omega
    have hrest : rest.length = 8 * (p * 8 / 40) := by omega
    have hd' : ∀ x ∈ rest, x < 32 := fun x hx => hd x (by simp [hx])
    rw [pack_bits5_eq2 p h]
    simp only [pack5_entry2, List.cons_append, List.nil_append]
    rw [unpack_bits5_eq2 p h, unpack5_rounds_pack _ rest hrest hd',
      unpack5_entry2_pack d0 d1 d2 d3 d4 d5 d6 hf h1 h2 h3 h4 h5 h6]
    rfl

/-! ### Round-trip proofs for B = 3 -/

theorem unpack_bits3_eq0 (p : Nat) (h : p * 8 % 3 = 0) (src : List Nat) :
    unpack_bits3 p src = unpack3_rounds (p * 8 / 24) src := by
  unfold unpack_bits3
  rw [if_pos h]

theorem pack_bits3_eq0 (p : Nat) (h : p * 8 % 3 = 0) (src : List Nat) :
    pack_bits3 p src = pack3_rounds (p * 8 / 24) src := by
  unfold pack_bits3
  rw [if_pos h]

theorem unpack_bits3_eq1 (p : Nat) (h : p * 8 % 3 = 1) (b0 b1 : Nat) (rest : List Nat) :
    unpack_bits3 p (b0 :: b1 :: rest) =
      unpack3_entry1 b0 b1 ++ unpack3_rounds (p * 8 / 24) rest := by
  unfold unpack_bits3
  rw [if_neg (by omega), if_pos h]

theorem pack_bits3_eq1 (p : Nat) (h : p * 8 % 3 = 1) (d0 d1 d2 d3 d4 d5 : Nat) (rest : List Nat) :
    pack_bits3 p (d0 :: d1 :: d2 :: d3 :: d4 :: d5 :: rest) =
      pack3_entry1 d0 d1 d2 d3 d4 d5 ++ pack3_rounds (p * 8 / 24) rest := by
  unfold pack_bits3
  rw [if_neg (by omega), if_pos h]

theorem unpack_bits3_eq2 (p : Nat) (h : p * 8 % 3 = 2) (b0 : Nat) (rest : List Nat) :
    unpack_bits3 p (b0 :: rest) =
      unpack3_entry2 b0 ++ unpack3_rounds (p * 8 / 24) rest := by
  unfold unpack_bits3
  rw [if_neg (by omega), if_neg (by omega)]

theorem pack_bits3_eq2 (p : Nat) (h : p * 8 % 3 = 2) (d0 d1 d2 : Nat) (rest : List Nat) :
    pack_bits3 p (d0 :: d1 :: d2 :: rest) =
      pack3_entry2 d0 d1 d2 ++ pack3_rounds (p * 8 / 24) rest := by
  unfold pack_bits3
  rw [if_neg (by omega), if_neg (by omega)]

theorem pack3_rounds_unpack : ∀ (n : Nat) (l : List Nat), l.length = 3 * n →
    (∀ x ∈ l, x < 256) → pack3_rounds n (unpack3_rounds n l) = l := by
  intro n
  induction n with
  | zero =>
    intro l hlen _
    rcases l with _ | ⟨b0, t⟩
    · rfl
    · simp at hlen
  | succ n ih =>
    intro l hlen hb
    rcases l with _ | ⟨b0, _ | ⟨b1, _ | ⟨b2, rest⟩⟩⟩ <;>
      simp only [List.length_cons, List.length_nil] at hlen <;> try omega
    have hrest : rest.length = 3 * n := by omega
    have hb' : ∀ x ∈ rest, x < 256 := by
      intro x hx; exact hb x (by simp [hx])
    have h0 : b0 < 256 := hb b0 (by simp)
    have h1 : b1 < 256 := hb b1 (by simp)
    have h2 : b2 < 256 := hb b2 (by simp)
    simp only [unpack3_rounds, unpack3_round, List.cons_append, List.nil_append]
    simp only [pack3_rounds, pack3_round]
    rw [ih rest hrest hb']
    simp (disch := omega) only [shl1, shl2, shl3, shl4, shl5, shl6, shl7, shr1, shr2, shr3, shr4, shr5, shr6, shr7, andE7, lorD1, lorD2, lorD3, lorD4, lorD5, lorD6, lorD7, lorD8, List.cons_append, List.nil_append, List.cons.injEq, and_true]
    omega

theorem unpack3_rounds_pack : ∀ (n : Nat) (l : List Nat), l.length = 8 * n →
    (∀ x ∈ l, x < 8) → unpack3_rounds n (pack3_rounds n l) = l := by
  intro n
  induction n with
  | zero =>
    intro l hlen _
    rcases l with _ | ⟨d0, t⟩
    · rfl
    · simp at hlen
  | succ n ih =>
    intro l hlen hb
    rcases l with _ | ⟨d0, _ | ⟨d1, _ | ⟨d2, _ | ⟨d3, _ | ⟨d4, _ | ⟨d5, _ | ⟨d6, _ | ⟨d7, rest⟩⟩⟩⟩⟩⟩⟩⟩ <;>
      simp only [List.length_cons, List.length_nil] at hlen <;> try omega
    have hrest : rest.length = 8 * n := by omega
    have hb' : ∀ x ∈ rest, x < 8 := by
      intro x hx; exact hb x (by simp [hx])
    have h0 : d0 < 8 := hb d0 (by simp)
    have h1 : d1 < 8 := hb d1 (by simp)
    have h2 : d2 < 8 := hb d2 (by simp)
    have h3 : d3 < 8 := hb d3 (by simp)
    have h4 : d4 < 8 := hb d4 (by simp)
    have h5 : d5 < 8 := hb d5 (by simp)
    have h6 : d6 < 8 := hb d6 (by simp)
    have h7 : d7 < 8 := hb d7 (by simp)
    simp only [pack3_rounds, pack3_round, List.cons_append, List.nil_append]
    simp only [unpack3_rounds, unpack3_round]
    rw [ih rest hrest hb']
    simp (disch := omega) only [shl1, shl2, shl3, shl4, shl5, shl6, shl7, shr1, shr2, shr3, shr4, shr5, shr6, shr7, andE7, lorD1, lorD2, lorD3, lorD4, lorD5, lorD6, lorD7, lorD8, List.cons_append, List.nil_append, List.cons.injEq, and_true]
    omega

theorem pack3_entry1_unpack (b0 b1 : Nat) (h0 : b0 < 256) (h1 : b1 < 256) :
    pack3_entry1 (0 ||| (b0 >>> 7)) ((b0 >>> 4) &&& 7) ((b0 >>> 1) &&& 7) ((((b0 <<< 2) &&& 7) ||| (b1 >>> 6))) ((b1 >>> 3) &&& 7) (b1 &&& 7) = [b0, b1] := by
  simp (disch := omega) only [pack3_entry1, shl1, shl2, shl3, shl4, shl5, shl6, shl7, shr1, shr2, shr3, shr4, shr5, shr6, shr7, andE7, lorD1, lorD2, lorD3, lorD4, lorD5, lorD6, lorD7, lorD8, List.cons_append, List.nil_append, List.cons.injEq, and_true]
  omega

theorem unpack3_entry1_pack (d0 d1 d2 d3 d4 d5 : Nat) (hf : d0 < 2) (h1 : d1 < 8) (h2 : d2 < 8) (h3 : d3 < 8) (h4 : d4 < 8) (h5 : d5 < 8):
    unpack3_entry1 ((((((((d0 <<< 7) % 256) ||| (d1 <<< 4)) % 256) ||| (d2 <<< 1)) % 256 ||| (d3 >>> 2)) % 256)) ((((((d3 <<< 6) % 256) ||| (d4 <<< 3)) % 256 ||| d5) % 256)) = [d0, d1, d2, d3, d4, d5] := by
  simp (disch := omega) only [unpack3_entry1, shl1, shl2, shl3, shl4, shl5, shl6, shl7, shr1, shr2, shr3, shr4, shr5, shr6, shr7, andE7, lorD1, lorD2, lorD3, lorD4, lorD5, lorD6, lorD7, lorD8, List.cons_append, List.nil_append, List.cons.injEq, and_true]
  omega

theorem pack3_entry2_unpack (b0 : Nat) (h0 : b0 < 256) :
    pack3_entry2 (0 ||| (b0 >>> 6)) ((b0 >>> 3) &&& 7) (b0 &&& 7) = [b0] := by
  simp (disch := omega) only [pack3_entry2, shl1, shl2, shl3, shl4, shl5, shl6, shl7, shr1, shr2, shr3, shr4, shr5, shr6, shr7, andE7, lorD1, lorD2, lorD3, lorD4, lorD5, lorD6, lorD7, lorD8, List.cons_append, List.nil_append, List.cons.injEq, and_true]
  omega

theorem unpack3_entry2_pack (d0 d1 d2 : Nat) (hf : d0 < 4) (h1 : d1 < 8) (h2 : d2 < 8):
    unpack3_entry2 ((((((d0 <<< 6) % 256) ||| (d1 <<< 3)) % 256 ||| d2) % 256)) = [d0, d1, d2] := by
  simp (disch := omega) only [unpack3_entry2, shl1, shl2, shl3, shl4, shl5, shl6, shl7, shr1, shr2, shr3, shr4, shr5, shr6, shr7, andE7, lorD1, lorD2, lorD3, lorD4, lorD5, lorD6, lorD7, lorD8, List.cons_append, List.nil_append, List.cons.injEq, and_true]
  omega

theorem pack_unpack_bits3_full (p : Nat) (src : List Nat) (hlen : src.length = p)
    (hb : ∀ x ∈ src, x < 256) : pack_bits3 p (unpack_bits3 p src) = src := by
  have hr : p * 8 % 3 = 0 ∨ p * 8 % 3 = 1 ∨ p * 8 % 3 = 2 := by omega
  rcases hr with h | h | h
  · have hlen' : src.length = 3 * (p * 8 / 24) := by omega
    rw [unpack_bits3_eq0 p h, pack_bits3_eq0 p h]
    exact pack3_rounds_unpack _ src hlen' hb
  · rcases src with _ | ⟨b0, _ | ⟨b1, rest⟩⟩ <;>
      simp only [List.length_nil, List.length_cons] at hlen <;> try omega
    have h0 : b0 < 256 := hb b0 (by simp)
    have h1 : b1 < 256 := hb b1 (by simp)
    have hrest : rest.length = 3 * (p * 8 / 24) := by omega
    have hb' : ∀ x ∈ rest, x < 256 := fun x hx => hb x (by simp [hx])
    rw [unpack_bits3_eq1 p h]
    simp only [unpack3_entry1, List.cons_append, List.nil_append]
    rw [pack_bits3_eq1 p h, pack3_rounds_unpack _ rest hrest hb',
      pack3_entry1_unpack b0 b1 h0 h1]
    rfl
  · rcases src with _ | ⟨b0, rest⟩ <;>
      simp only [List.length_nil, List.length_cons] at hlen <;> try omega
    have h0 : b0 < 256 := hb b0 (by simp)
    have hrest : rest.length = 3 * (p * 8 / 24) := by omega
    have hb' : ∀ x ∈ rest, x < 256 := fun x hx => hb x (by simp [hx])
    rw [unpack_bits3_eq2 p h]
    simp only [unpack3_entry2, List.cons_append, List.nil_append]
    rw [pack_bits3_eq2 p h, pack3_rounds_unpack _ rest hrest hb',
      pack3_entry2_unpack b0 h0]
    rfl

theorem unpack_pack_bits3_full (p : Nat) (src : List Nat)
    (hlen : src.length = bit_packer_unpacked_bytes 3 p)
    (hd : ∀ x ∈ src, x < 8)
    (hfirst : p * 8 % 3 = 0 ∨ src.headD 0 < 2 ^ (p * 8 % 3)) :
    unpack_bits3 p (pack_bits3 p src) = src := by
  rw [bit_packer_unpacked_bytes] at hlen
  have hr : p * 8 % 3 = 0 ∨ p * 8 % 3 = 1 ∨ p * 8 % 3 = 2 := by omega
  rcases hr with h | h | h
  · have hlen' : src.length = 8 * (p * 8 / 24) := by rw [hlen, h]; norm_num; omega
    rw [pack_bits3_eq0 p h, unpack_bits3_eq0 p h]
    exact unpack3_rounds_pack _ src hlen' hd
  · have hcount : src.length = 8 * (p * 8 / 24) + 6 := by rw [hlen, h]; norm_num; omega
    rcases src with _ | ⟨d0, _ | ⟨d1, _ | ⟨d2, _ | ⟨d3, _ | ⟨d4, _ | ⟨d5, rest⟩⟩⟩⟩⟩⟩ <;>
      simp only [List.length_nil, List.length_cons] at hcount <;> try omega
    have h1 : d1 < 8 := hd d1 (by simp)
    have h2 : d2 < 8 := hd d2 (by simp)
    have h3 : d3 < 8 := hd d3 (by simp)
    have h4 : d4 < 8 := hd d4 (by simp)
    have h5 : d5 < 8 := hd d5 (by simp)
    have hf : d0 < 2 := by
      rcases hfirst with hf | hf
      · omega
      · rw [h] at hf; simp only [List.headD] at hf; omega
    have hrest : rest.length = 8 * (p * 8 / 24) := by omega
    have hd' : ∀ x ∈ rest, x < 8 := fun x hx => hd x (by simp [hx])
    rw [pack_bits3_eq1 p h]
    simp only [pack3_entry1, List.cons_append, List.nil_append]
    rw [unpack_bits3_eq1 p h, unpack3_rounds_pack _ rest hrest hd',
      unpack3_entry1_pack d0 d1 d2 d3 d4 d5 hf h1 h2 h3 h4 h5]
    rfl
  · have hcount : src.length = 8 * (p * 8 / 24) + 3 := by rw [hlen, h]; norm_num; omega
    rcases src with _ | ⟨d0, _ | ⟨d1, _ | ⟨d2, rest⟩⟩⟩ <;>
      simp only [List.length_nil, List.length_cons] at hcount <;> try omega
    have h1 : d1 < 8 := hd d1 (by simp)
    have h2 : d2 < 8 := hd d2 (by simp)
    have hf : d0 < 4 := by
      rcases hfirst with hf | hf
      · omega
      · rw [h] at hf; simp only [List.headD] at hf; omega
    have hrest : rest.length = 8 * (p * 8 / 24) := by omega
    have hd' : ∀ x ∈ rest, x < 8 := fun x hx => hd x (by simp [hx])
    rw [pack_bits3_eq2 p h]
    simp only [pack3_entry2, List.cons_append, List.nil_append]
    rw [unpack_bits3_eq2 p h, unpack3_rounds_pack _ rest hrest hd',
      unpack3_entry2_pack d0 d1 d2 hf h1 h2]
    rfl

/-! ### Round-trip proofs for B = 6 -/

theorem unpack_bits6_eq0 (p : Nat) (h : p * 8 % 6 = 0) (src : List Nat) :
    unpack_bits6 p src = unpack6_rounds (p * 8 / 24) src := by
  unfold unpack_bits6
  rw [if_pos h]

theorem pack_bits6_eq0 (p : Nat) (h : p * 8 % 6 = 0) (src : List Nat) :
    pack_bits6 p src = pack6_rounds (p * 8 / 24) src := by
  unfold pack_bits6
  rw [if_pos h]

theorem unpack_bits6_eq4 (p : Nat) (h : p * 8 % 6 = 4) (b0 b1 : Nat) (rest : List Nat) :
    unpack_bits6 p (b0 :: b1 :: rest) =
      unpack6_entry4 b0 b1 ++ unpack6_rounds (p * 8 / 24) rest := by
  unfold unpack_bits6
  rw [if_neg (by omega), if_pos h]

theorem pack_bits6_eq4 (p : Nat) (h : p * 8 % 6 = 4) (d0 d1 d2 : Nat) (rest : List Nat) :
    pack_bits6 p (d0 :: d1 :: d2 :: rest) =
      pack6_entry4 d0 d1 d2 ++ pack6_rounds (p * 8 / 24) rest := by
  unfold pack_bits6
  rw [if_neg (by omega), if_pos h]

theorem unpack_bits6_eq2 (p : Nat) (h : p * 8 % 6 = 2) (b0 : Nat) (rest : List Nat) :
    unpack_bits6 p (b0 :: rest) =
      unpack6_entry2 b0 ++ unpack6_rounds (p * 8 / 24) rest := by
  unfold unpack_bits6
  rw [if_neg (by omega), if_neg (by omega)]

theorem pack_bits6_eq2 (p : Nat) (h : p * 8 % 6 = 2) (d0 d1 : Nat) (rest : List Nat) :
    pack_bits6 p (d0 :: d1 :: rest) =
      pack6_entry2 d0 d1 ++ pack6_rounds (p * 8 / 24) rest := by
  unfold pack_bits6
  rw [if_neg (by omega), if_neg (by omega)]

theorem pack6_rounds_unpack : ∀ (n : Nat) (l : List Nat), l.length = 3 * n →
    (∀ x ∈ l, x < 256) → pack6_rounds n (unpack6_rounds n l) = l := by
  intro n
  induction n with
  | zero =>
    intro l hlen _
    rcases l with _ | ⟨b0, t⟩
    · rfl
    · simp at hlen
  | succ n ih =>
    intro l hlen hb
    rcases l with _ | ⟨b0, _ | ⟨b1, _ | ⟨b2, rest⟩⟩⟩ <;>
      simp only [List.length_cons, List.length_nil] at hlen <;> try omega
    have hrest : rest.length = 3 * n := by omega
    have hb' : ∀ x ∈ rest, x < 256 := by
      intro x hx; exact hb x (by simp [hx])
    have h0 : b0 < 256 := hb b0 (by simp)
    have h1 : b1 < 256 := hb b1 (by simp)
    have h2 : b2 < 256 := hb b2 (by simp)
    simp only [unpack6_rounds, unpack6_round, List.cons_append, List.nil_append]
    simp only [pack6_rounds, pack6_round]
    rw [ih rest hrest hb']
    simp (disch := omega) only [shl1, shl2, shl3, shl4, shl5, shl6, shl7, shr1, shr2, shr3, shr4, shr5, shr6, shr7, andE63, lorD1, lorD2, lorD3, lorD4, lorD5, lorD6, lorD7, lorD8, List.cons_append, List.nil_append, List.cons.injEq, and_true]
    omega

theorem unpack6_rounds_pack : ∀ (n : Nat) (l : List Nat), l.length = 4 * n →
    (∀ x ∈ l, x < 64) → unpack6_rounds n (pack6_rounds n l) = l := by
  intro n
  induction n with
  | zero =>
    intro l hlen _
    rcases l with _ | ⟨d0, t⟩
    · rfl
    · simp at hlen
  | succ n ih =>
    intro l hlen hb
    rcases l with _ | ⟨d0, _ | ⟨d1, _ | ⟨d2, _ | ⟨d3, rest⟩⟩⟩⟩ <;>
      simp only [List.length_cons, List.length_nil] at hlen <;> try omega
    have hrest : rest.length = 4 * n := by omega
    have hb' : ∀ x ∈ rest, x < 64 := by
      intro x hx; exact hb x (by simp [hx])
    have h0 : d0 < 64 := hb d0 (by simp)
    have h1 : d1 < 64 := hb d1 (by simp)
    have h2 : d2 < 64 := hb d2 (by simp)
    have h3 : d3 < 64 := hb d3 (by simp)
    simp only [pack6_rounds, pack6_round, List.cons_append, List.nil_append]
    simp only [unpack6_rounds, unpack6_round]
    rw [ih rest hrest hb']
    simp (disch := omega) only [shl1, shl2, shl3, shl4, shl5, shl6, shl7, shr1, shr2, shr3, shr4, shr5, shr6, shr7, andE63, lorD1, lorD2, lorD3, lorD4, lorD5, lorD6, lorD7, lorD8, List.cons_append, List.nil_append, List.cons.injEq, and_true]
    omega

theorem pack6_entry4_unpack (b0 b1 : Nat) (h0 : b0 < 256) (h1 : b1 < 256) :
    pack6_entry4 (0 ||| (b0 >>> 4)) (((b0 <<< 2) &&& 63) ||| (b1 >>> 6)) (b1 &&& 63) = [b0, b1] := by
  simp (disch := omega) only [pack6_entry4, shl1, shl2, shl3, shl4, shl5, shl6, shl7, shr1, shr2, shr3, shr4, shr5, shr6, shr7, andE63, lorD1, lorD2, lorD3, lorD4, lorD5, lorD6, lorD7, lorD8, List.cons_append, List.nil_append, List.cons.injEq, and_true]
  omega

theorem unpack6_entry4_pack (d0 d1 d2 : Nat) (hf : d0 < 16) (h1 : d1 < 64) (h2 : d2 < 64):
    unpack6_entry4 ((((d0 <<< 4) % 256) ||| (d1 >>> 2)) % 256) ((((d1 <<< 6) % 256) ||| d2) % 256) = [d0, d1, d2] := by
  simp (disch := omega) only [unpack6_entry4, shl1, shl2, shl3, shl4, shl5, shl6, shl7, shr1, shr2, shr3, shr4, shr5, shr6, shr7, andE63, lorD1, lorD2, lorD3, lorD4, lorD5, lorD6, lorD7, lorD8, List.cons_append, List.nil_append, List.cons.injEq, and_true]
  omega

theorem pack6_entry2_unpack (b0 : Nat) (h0 : b0 < 256) :
    pack6_entry2 (0 ||| (b0 >>> 6)) (b0 &&& 63) = [b0] := by
  simp (disch := omega) only [pack6_entry2, shl1, shl2, shl3, shl4, shl5, shl6, shl7, shr1, shr2, shr3, shr4, shr5, shr6, shr7, andE63, lorD1, lorD2, lorD3, lorD4, lorD5, lorD6, lorD7, lorD8, List.cons_append, List.nil_append, List.cons.injEq, and_true]
  omega

theorem unpack6_entry2_pack (d0 d1 : Nat) (hf : d0 < 4) (h1 : d1 < 64):
    unpack6_entry2 ((((d0 <<< 6) % 256) ||| d1) % 256) = [d0, d1] := by
  simp (disch := omega) only [unpack6_entry2, shl1, shl2, shl3, shl4, shl5, shl6, shl7, shr1, shr2, shr3, shr4, shr5, shr6, shr7, andE63, lorD1, lorD2, lorD3, lorD4, lorD5, lorD6, lorD7, lorD8, List.cons_append, List.nil_append, List.cons.injEq, and_true]
  omega

theorem pack_unpack_bits6_full (p : Nat) (src : List Nat) (hlen : src.length = p)
    (hb : ∀ x ∈ src, x < 256) : pack_bits6 p (unpack_bits6 p src) = src := by
  have hr : p * 8 % 6 = 0 ∨ p * 8 % 6 = 4 ∨ p * 8 % 6 = 2 := by omega
  rcases hr with h | h | h
  · have hlen' : src.length = 3 * (p * 8 / 24) := by omega
    rw [unpack_bits6_eq0 p h, pack_bits6_eq0 p h]
    exact pack6_rounds_unpack _ src hlen' hb
  · rcases src with _ | ⟨b0, _ | ⟨b1, rest⟩⟩ <;>
      simp only [List.length_nil, List.length_cons] at hlen <;> try omega
    have h0 : b0 < 256 := hb b0 (by simp)
    have h1 : b1 < 256 := hb b1 (by simp)
    have hrest : rest.length = 3 * (p * 8 / 24) := by omega
    have hb' : ∀ x ∈ rest, x < 256 := fun x hx => hb x (by simp [hx])
    rw [unpack_bits6_eq4 p h]
    simp only [unpack6_entry4, List.cons_append, List.nil_append]
    rw [pack_bits6_eq4 p h, pack6_rounds_unpack _ rest hrest hb',
      pack6_entry4_unpack b0 b1 h0 h1]
    rfl
  · rcases src with _ | ⟨b0, rest⟩ <;>
      simp only [List.length_nil, List.length_cons] at hlen <;> try omega
    have h0 : b0 < 256 := hb b0 (by simp)
    have hrest : rest.length = 3 * (p * 8 / 24) := by omega
    have hb' : ∀ x ∈ rest, x < 256 := fun x hx => hb x (by simp [hx])
    rw [unpack_bits6_eq2 p h]
    simp only [unpack6_entry2, List.cons_append, List.nil_append]
    rw [pack_bits6_eq2 p h, pack6_rounds_unpack _ rest hrest hb',
      pack6_entry2_unpack b0 h0]
    rfl

theorem unpack_pack_bits6_full (p : Nat) (src : List Nat)
    (hlen : src.length = bit_packer_unpacked_bytes 6 p)
    (hd : ∀ x ∈ src, x < 64)
    (hfirst : p * 8 % 6 = 0 ∨ src.headD 0 < 2 ^ (p * 8 % 6)) :
    unpack_bits6 p (pack_bits6 p src) = src := by
  rw [bit_packer_unpacked_bytes] at hlen
  have hr : p * 8 % 6 = 0 ∨ p * 8 % 6 = 4 ∨ p * 8 % 6 = 2 := by omega
  rcases hr with h | h | h
  · have hlen' : src.length = 4 * (p * 8 / 24) := by rw [hlen, h]; norm_num; omega
    rw [pack_bits6_eq0 p h, unpack_bits6_eq0 p h]
    exact unpack6_rounds_pack _ src hlen' hd
  · have hcount : src.length = 4 * (p * 8 / 24) + 3 := by rw [hlen, h]; norm_num; omega
    rcases src with _ | ⟨d0, _ | ⟨d1, _ | ⟨d2, rest⟩⟩⟩ <;>
      simp only [List.length_nil, List.length_cons] at hcount <;> try omega
    have h1 : d1 < 64 := hd d1 (by simp)
    have h2 : d2 < 64 := hd d2 (by simp)
    have hf : d0 < 16 := by
      rcases hfirst with hf | hf
      · omega
      · rw [h] at hf; simp only [List.headD] at hf; omega
    have hrest : rest.length = 4 * (p * 8 / 24) := by omega
    have hd' : ∀ x ∈ rest, x < 64 := fun x hx => hd x (by simp [hx])
    rw [pack_bits6_eq4 p h]
    simp only [pack6_entry4, List.cons_append, List.nil_append]
    rw [unpack_bits6_eq4 p h, unpack6_rounds_pack _ rest hrest hd',
      unpack6_entry4_pack d0 d1 d2 hf h1 h2]
    rfl
  · have hcount : src.length = 4 * (p * 8 / 24) + 2 := by rw [hlen, h]; norm_num; omega
    rcases src with _ | ⟨d0, _ | ⟨d1, rest⟩⟩ <;>
      simp only [List.length_nil, List.length_cons] at hcount <;> try omega
    have h1 : d1 < 64 := hd d1 (by simp)
    have hf : d0 < 4 := by
      rcases hfirst with hf | hf
      · omega
      · rw [h] at hf; simp only [List.headD] at hf; omega
    have hrest : rest.length = 4 * (p * 8 / 24) := by omega
    have hd' : ∀ x ∈ rest, x < 64 := fun x hx => hd x (by simp [hx])
    rw [pack_bits6_eq2 p h]
    simp only [pack6_entry2, List.cons_append, List.nil_append]
    rw [unpack_bits6_eq2 p h, unpack6_rounds_pack _ rest hrest hd',
      unpack6_entry2_pack d0 d1 hf h1]
    rfl

/-! ### Round-trip proofs for B = 7 -/

theorem unpack_bits7_eq0 (p : Nat) (h : p * 8 % 7 = 0) (src : List Nat) :
    unpack_bits7 p src = unpack7_rounds (p * 8 / 56) src := by
  unfold unpack_bits7
  rw [if_pos h]

theorem pack_bits7_eq0 (p : Nat) (h : p * 8 % 7 = 0) (src : List Nat) :
    pack_bits7 p src = pack7_rounds (p * 8 / 56) src := by
  unfold pack_bits7
  rw [if_pos h]

theorem unpack_bits7_eq1 (p : Nat) (h : p * 8 % 7 = 1) (b0 : Nat) (rest : List Nat) :
    unpack_bits7 p (b0 :: rest) =
      unpack7_entry1 b0 ++ unpack7_rounds (p * 8 / 56) rest := by
  unfold unpack_bits7
  rw [if_neg (by omega), if_pos h]

theorem pack_bits7_eq1 (p : Nat) (h : p * 8 % 7 = 1) (d0 d1 : Nat) (rest : List Nat) :
    pack_bits7 p (d0 :: d1 :: rest) =
      pack7_entry1 d0 d1 ++ pack7_rounds (p * 8 / 56) rest := by
  unfold pack_bits7
  rw [if_neg (by omega), if_pos h]

theorem unpack_bits7_eq2 (p : Nat) (h : p * 8 % 7 = 2) (b0 b1 : Nat) (rest : List Nat) :
    unpack_bits7 p (b0 :: b1 :: rest) =
      unpack7_entry2 b0 b1 ++ unpack7_rounds (p * 8 / 56) rest := by
  unfold unpack_bits7
  rw [if_neg (by omega), if_neg (by omega), if_pos h]

theorem pack_bits7_eq2 (p : Nat) (h : p * 8 % 7 = 2) (d0 d1 d2 : Nat) (rest : List Nat) :
    pack_bits7 p (d0 :: d1 :: d2 :: rest) =
      pack7_entry2 d0 d1 d2 ++ pack7_rounds (p * 8 / 56) rest := by
  unfold pack_bits7
  rw [if_neg (by omega), if_neg (by omega), if_pos h]

theorem unpack_bits7_eq3 (p : Nat) (h : p * 8 % 7 = 3) (b0 b1 b2 : Nat) (rest : List Nat) :
    unpack_bits7 p (b0 :: b1 :: b2 :: rest) =
      unpack7_entry3 b0 b1 b2 ++ unpack7_rounds (p * 8 / 56) rest := by
  unfold unpack_bits7
  rw [if_neg (by omega), if_neg (by omega), if_neg (by omega), if_pos h]

theorem pack_bits7_eq3 (p : Nat) (h : p * 8 % 7 = 3) (d0 d1 d2 d3 : Nat) (rest : List Nat) :
    pack_bits7 p (d0 :: d1 :: d2 :: d3 :: rest) =
      pack7_entry3 d0 d1 d2 d3 ++ pack7_rounds (p * 8 / 56) rest := by
  unfold pack_bits7
  rw [if_neg (by omega), if_neg (by omega), if_neg (by omega), if_pos h]

theorem unpack_bits7_eq4 (p : Nat) (h : p * 8 % 7 = 4) (b0 b1 b2 b3 : Nat) (rest : List Nat) :
    unpack_bits7 p (b0 :: b1 :: b2 :: b3 :: rest) =
      unpack7_entry4 b0 b1 b2 b3 ++ unpack7_rounds (p * 8 / 56) rest := by
  unfold unpack_bits7
  rw [if_neg (by omega), if_neg (by omega), if_neg (by omega), if_neg (by omega), if_pos h]

theorem pack_bits7_eq4 (p : Nat) (h : p * 8 % 7 = 4) (d0 d1 d2 d3 d4 : Nat) (rest : List Nat) :
    pack_bits7 p (d0 :: d1 :: d2 :: d3 :: d4 :: rest) =
      pack7_entry4 d0 d1 d2 d3 d4 ++ pack7_rounds (p * 8 / 56) rest := by
  unfold pack_bits7
  rw [if_neg (by omega), if_neg (by omega), if_neg (by omega), if_neg (by omega), if_pos h]

theorem unpack_bits7_eq5 (p : Nat) (h : p * 8 % 7 = 5) (b0 b1 b2 b3 b4 : Nat) (rest : List Nat) :
    unpack_bits7 p (b0 :: b1 :: b2 :: b3 :: b4 :: rest) =
      unpack7_entry5 b0 b1 b2 b3 b4 ++ unpack7_rounds (p * 8 / 56) rest := by
  unfold unpack_bits7
  rw [if_neg (by omega), if_neg (by omega), if_neg (by omega), if_neg (by omega), if_neg (by omega), if_pos h]

theorem pack_bits7_eq5 (p : Nat) (h : p * 8 % 7 = 5) (d0 d1 d2 d3 d4 d5 : Nat) (rest : List Nat) :
    pack_bits7 p (d0 :: d1 :: d2 :: d3 :: d4 :: d5 :: rest) =
      pack7_entry5 d0 d1 d2 d3 d4 d5 ++ pack7_rounds (p * 8 / 56) rest := by
  unfold pack_bits7
  rw [if_neg (by omega), if_neg (by omega), if_neg (by omega), if_neg (by omega), if_neg (by omega), if_pos h]

theorem unpack_bits7_eq6 (p : Nat) (h : p * 8 % 7 = 6) (b0 b1 b2 b3 b4 b5 : Nat) (rest : List Nat) :
    unpack_bits7 p (b0 :: b1 :: b2 :: b3 :: b4 :: b5 :: rest) =
      unpack7_entry6 b0 b1 b2 b3 b4 b5 ++ unpack7_rounds (p * 8 / 56) rest := by
  unfold unpack_bits7
  rw [if_neg (by omega), if_neg (by omega), if_neg (by omega), if_neg (by omega), if_neg (by omega), if_neg (by omega)]

theorem pack_bits7_eq6 (p : Nat) (h : p * 8 % 7 = 6) (d0 d1 d2 d3 d4 d5 d6 : Nat) (rest : List Nat) :
    pack_bits7 p (d0 :: d1 :: d2 :: d3 :: d4 :: d5 :: d6 :: rest) =
      pack7_entry6 d0 d1 d2 d3 d4 d5 d6 ++ pack7_rounds (p * 8 / 56) rest := by
  unfold pack_bits7
  rw [if_neg (by omega), if_neg (by omega), if_neg (by omega), if_neg (by omega), if_neg (by omega), if_neg (by omega)]

theorem pack7_rounds_unpack : ∀ (n : Nat) (l : List Nat), l.length = 7 * n →
    (∀ x ∈ l, x < 256) → pack7_rounds n (unpack7_rounds n l) = l := by
  intro n
  induction n with
  | zero =>
    intro l hlen _
    rcases l with _ | ⟨b0, t⟩
    · rfl
    · simp at hlen
  | succ n ih =>
    intro l hlen hb
    rcases l with _ | ⟨b0, _ | ⟨b1, _ | ⟨b2, _ | ⟨b3, _ | ⟨b4, _ | ⟨b5, _ | ⟨b6, rest⟩⟩⟩⟩⟩⟩⟩ <;>
      simp only [List.length_cons, List.length_nil] at hlen <;> try omega
    have hrest : rest.length = 7 * n := by omega
    have hb' : ∀ x ∈ rest, x < 256 := by
      intro x hx; exact hb x (by simp [hx])
    have h0 : b0 < 256 := hb b0 (by simp)
    have h1 : b1 < 256 := hb b1 (by simp)
    have h2 : b2 < 256 := hb b2 (by simp)
    have h3 : b3 < 256 := hb b3 (by simp)
    have h4 : b4 < 256 := hb b4 (by simp)
    have h5 : b5 < 256 := hb b5 (by simp)
    have h6 : b6 < 256 := hb b6 (by simp)
    simp only [unpack7_rounds, unpack7_round, List.cons_append, List.nil_append]
    simp only [pack7_rounds, pack7_round]
    rw [ih rest hrest hb']
    simp (disch := omega) only [shl1, shl2, shl3, shl4, shl5, shl6, shl7, shr1, shr2, shr3, shr4, shr5, shr6, shr7, andE127, lorD1, lorD2, lorD3, lorD4, lorD5, lorD6, lorD7, lorD8, List.cons_append, List.nil_append, List.cons.injEq, and_true]
    omega

theorem unpack7_rounds_pack : ∀ (n : Nat) (l : List Nat), l.length = 8 * n →
    (∀ x ∈ l, x < 128) → unpack7_rounds n (pack7_rounds n l) = l := by
  intro n
  induction n with
  | zero =>
    intro l hlen _
    rcases l with _ | ⟨d0, t⟩
    · rfl
    · simp at hlen
  | succ n ih =>
    intro l hlen hb
    rcases l with _ | ⟨d0, _ | ⟨d1, _ | ⟨d2, _ | ⟨d3, _ | ⟨d4, _ | ⟨d5, _ | ⟨d6, _ | ⟨d7, rest⟩⟩⟩⟩⟩⟩⟩⟩ <;>
      simp only [List.length_cons, List.length_nil] at hlen <;> try omega
    have hrest : rest.length = 8 * n := by omega
    have hb' : ∀ x ∈ rest, x < 128 := by
      intro x hx; exact hb x (by simp [hx])
    have h0 : d0 < 128 := hb d0 (by simp)
    have h1 : d1 < 128 := hb d1 (by simp)
    have h2 : d2 < 128 := hb d2 (by simp)
    have h3 : d3 < 128 := hb d3 (by simp)
    have h4 : d4 < 128 := hb d4 (by simp)
    have h5 : d5 < 128 := hb d5 (by simp)
    have h6 : d6 < 128 := hb d6 (by simp)
    have h7 : d7 < 128 := hb d7 (by simp)
    simp only [pack7_rounds, pack7_round, List.cons_append, List.nil_append]
    simp only [unpack7_rounds, unpack7_round]
    rw [ih rest hrest hb']
    simp (disch := omega) only [shl1, shl2, shl3, shl4, shl5, shl6, shl7, shr1, shr2, shr3, shr4, shr5, shr6, shr7, andE127, lorD1, lorD2, lorD3, lorD4, lorD5, lorD6, lorD7, lorD8, List.cons_append, List.nil_append, List.cons.injEq, and_true]
    omega

theorem pack7_entry1_unpack (b0 : Nat) (h0 : b0 < 256) :
    pack7_entry1 (0 ||| (b0 >>> 7)) (b0 &&& 127) = [b0] := by
  simp (disch := omega) only [pack7_entry1, shl1, shl2, shl3, shl4, shl5, shl6, shl7, shr1, shr2, shr3, shr4, shr5, shr6, shr7, andE127, lorD1, lorD2, lorD3, lorD4, lorD5, lorD6, lorD7, lorD8, List.cons_append, List.nil_append, List.cons.injEq, and_true]
  omega

theorem unpack7_entry1_pack (d0 d1 : Nat) (hf : d0 < 2) (h1 : d1 < 128):
    unpack7_entry1 ((((d0 <<< 7) % 256) ||| d1) % 256) = [d0, d1] := by
  simp (disch := omega) only [unpack7_entry1, shl1, shl2, shl3, shl4, shl5, shl6, shl7, shr1, shr2, shr3, shr4, shr5, shr6, shr7, andE127, lorD1, lorD2, lorD3, lorD4, lorD5, lorD6, lorD7, lorD8, List.cons_append, List.nil_append, List.cons.injEq, and_true]
  omega

theorem pack7_entry2_unpack (b0 b1 : Nat) (h0 : b0 < 256) (h1 : b1 < 256) :
    pack7_entry2 (0 ||| (b0 >>> 6)) (((b0 <<< 1) &&& 127) ||| (b1 >>> 7)) (b1 &&& 127) = [b0, b1] := by
  simp (disch := omega) only [pack7_entry2, shl1, shl2, shl3, shl4, shl5, shl6, shl7, shr1, shr2, shr3, shr4, shr5, shr6, shr7, andE127, lorD1, lorD2, lorD3, lorD4, lorD5, lorD6, lorD7, lorD8, List.cons_append, List.nil_append, List.cons.injEq, and_true]
  omega

theorem unpack7_entry2_pack (d0 d1 d2 : Nat) (hf : d0 < 4) (h1 : d1 < 128) (h2 : d2 < 128):
    unpack7_entry2 ((((d0 <<< 6) % 256) ||| (d1 >>> 1)) % 256) ((((d1 <<< 7) % 256) ||| d2) % 256) = [d0, d1, d2] := by
  simp (disch := omega) only [unpack7_entry2, shl1, shl2, shl3, shl4, shl5, shl6, shl7, shr1, shr2, shr3, shr4, shr5, shr6, shr7, andE127, lorD1, lorD2, lorD3, lorD4, lorD5, lorD6, lorD7, lorD8, List.cons_append, List.nil_append, List.cons.injEq, and_true]
  omega

theorem pack7_entry3_unpack (b0 b1 b2 : Nat) (h0 : b0 < 256) (h1 : b1 < 256) (h2 : b2 < 256) :
    pack7_entry3 (0 ||| (b0 >>> 5)) (((b0 <<< 2) &&& 127) ||| (b1 >>> 6)) (((b1 <<< 1) &&& 127) ||| (b2 >>> 7)) (b2 &&& 127) = [b0, b1, b2] := by
  simp (disch := omega) only [pack7_entry3, shl1, shl2, shl3, shl4, shl5, shl6, shl7, shr1, shr2, shr3, shr4, shr5, shr6, shr7, andE127, lorD1, lorD2, lorD3, lorD4, lorD5, lorD6, lorD7, lorD8, List.cons_append, List.nil_append, List.cons.injEq, and_true]
  omega

theorem unpack7_entry3_pack (d0 d1 d2 d3 : Nat) (hf : d0 < 8) (h1 : d1 < 128) (h2 : d2 < 128) (h3 : d3 < 128):
    unpack7_entry3 ((((d0 <<< 5) % 256) ||| (d1 >>> 2)) % 256) ((((d1 <<< 6) % 256) ||| (d2 >>> 1)) % 256) ((((d2 <<< 7) % 256) ||| d3) % 256) = [d0, d1, d2, d3] := by
  simp (disch := omega) only [unpack7_entry3, shl1, shl2, shl3, shl4, shl5, shl6, shl7, shr1, shr2, shr3, shr4, shr5, shr6, shr7, andE127, lorD1, lorD2, lorD3, lorD4, lorD5, lorD6, lorD7, lorD8, List.cons_append, List.nil_append, List.cons.injEq, and_true]
  omega

theorem pack7_entry4_unpack (b0 b1 b2 b3 : Nat) (h0 : b0 < 256) (h1 : b1 < 256) (h2 : b2 < 256) (h3 : b3 < 256) :
    pack7_entry4 (0 ||| (b0 >>> 4)) (((b0 <<< 3) &&& 127) ||| (b1 >>> 5)) (((b1 <<< 2) &&& 127) ||| (b2 >>> 6)) (((b2 <<< 1) &&& 127) ||| (b3 >>> 7)) (b3 &&& 127) = [b0, b1, b2, b3] := by
  simp (disch := omega) only [pack7_entry4, shl1, shl2, shl3, shl4, shl5, shl6, shl7, shr1, shr2, shr3, shr4, shr5, shr6, shr7, andE127, lorD1, lorD2, lorD3, lorD4, lorD5, lorD6, lorD7, lorD8, List.cons_append, List.nil_append, List.cons.injEq, and_true]
  omega

theorem unpack7_entry4_pack (d0 d1 d2 d3 d4 : Nat) (hf : d0 < 16) (h1 : d1 < 128) (h2 : d2 < 128) (h3 : d3 < 128) (h4 : d4 < 128):
    unpack7_entry4 ((((d0 <<< 4) % 256) ||| (d1 >>> 3)) % 256) ((((d1 <<< 5) % 256) ||| (d2 >>> 2)) % 256) ((((d2 <<< 6) % 256) ||| (d3 >>> 1)) % 256) ((((d3 <<< 7) % 256) ||| d4) % 256) = [d0, d1, d2, d3, d4] := by
  simp (disch := omega) only [unpack7_entry4, shl1, shl2, shl3, shl4, shl5, shl6, shl7, shr1, shr2, shr3, shr4, shr5, shr6, shr7, andE127, lorD1, lorD2, lorD3, lorD4, lorD5, lorD6, lorD7, lorD8, List.cons_append, List.nil_append, List.cons.injEq, and_true]
  omega

theorem pack7_entry5_unpack (b0 b1 b2 b3 b4 : Nat) (h0 : b0 < 256) (h1 : b1 < 256) (h2 : b2 < 256) (h3 : b3 < 256) (h4 : b4 < 256) :
    pack7_entry5 (0 ||| (b0 >>> 3)) (((b0 <<< 4) &&& 127) ||| (b1 >>> 4)) (((b1 <<< 3) &&& 127) ||| (b2 >>> 5)) (((b2 <<< 2) &&& 127) ||| (b3 >>> 6)) (((b3 <<< 1) &&& 127) ||| (b4 >>> 7)) (b4 &&& 127) = [b0, b1, b2, b3, b4] := by
  simp (disch := omega) only [pack7_entry5, shl1, shl2, shl3, shl4, shl5, shl6, shl7, shr1, shr2, shr3, shr4, shr5, shr6, shr7, andE127, lorD1, lorD2, lorD3, lorD4, lorD5, lorD6, lorD7, lorD8, List.cons_append, List.nil_append, List.cons.injEq, and_true]
  omega

theorem unpack7_entry5_pack (d0 d1 d2 d3 d4 d5 : Nat) (hf : d0 < 32) (h1 : d1 < 128) (h2 : d2 < 128) (h3 : d3 < 128) (h4 : d4 < 128) (h5 : d5 < 128):
    unpack7_entry5 ((((d0 <<< 3) % 256) ||| (d1 >>> 4)) % 256) ((((d1 <<< 4) % 256) ||| (d2 >>> 3)) % 256) ((((d2 <<< 5) % 256) ||| (d3 >>> 2)) % 256) ((((d3 <<< 6) % 256) ||| (d4 >>> 1)) % 256) ((((d4 <<< 7) % 256) ||| d5) % 256) = [d0, d1, d2, d3, d4, d5] := by
  simp (disch := omega) only [unpack7_entry5, shl1, shl2, shl3, shl4, shl5, shl6, shl7, shr1, shr2, shr3, shr4, shr5, shr6, shr7, andE127, lorD1, lorD2, lorD3, lorD4, lorD5, lorD6, lorD7, lorD8, List.cons_append, List.nil_append, List.cons.injEq, and_true]
  omega

theorem pack7_entry6_unpack (b0 b1 b2 b3 b4 b5 : Nat) (h0 : b0 < 256) (h1 : b1 < 256) (h2 : b2 < 256) (h3 : b3 < 256) (h4 : b4 < 256) (h5 : b5 < 256) :
    pack7_entry6 (0 ||| (b0 >>> 2)) (((b0 <<< 5) &&& 127) ||| (b1 >>> 3)) (((b1 <<< 4) &&& 127) ||| (b2 >>> 4)) (((b2 <<< 3) &&& 127) ||| (b3 >>> 5)) (((b3 <<< 2) &&& 127) ||| (b4 >>> 6)) (((b4 <<< 1) &&& 127) ||| (b5 >>> 7)) (b5 &&& 127) = [b0, b1, b2, b3, b4, b5] := by
  simp (disch := omega) only [pack7_entry6, shl1, shl2, shl3, shl4, shl5, shl6, shl7, shr1, shr2, shr3, shr4, shr5, shr6, shr7, andE127, lorD1, lorD2, lorD3, lorD4, lorD5, lorD6, lorD7, lorD8, List.cons_append, List.nil_append, List.cons.injEq, and_true]
  omega

theorem unpack7_entry6_pack (d0 d1 d2 d3 d4 d5 d6 : Nat) (hf : d0 < 64) (h1 : d1 < 128) (h2 : d2 < 128) (h3 : d3 < 128) (h4 : d4 < 128) (h5 : d5 < 128) (h6 : d6 < 128):
    unpack7_entry6 ((((d0 <<< 2) % 256) ||| (d1 >>> 5)) % 256) ((((d1 <<< 3) % 256) ||| (d2 >>> 4)) % 256) ((((d2 <<< 4) % 256) ||| (d3 >>> 3)) % 256) ((((d3 <<< 5) % 256) ||| (d4 >>> 2)) % 256) ((((d4 <<< 6) % 256) ||| (d5 >>> 1)) % 256) ((((d5 <<< 7) % 256) ||| d6) % 256) = [d0, d1, d2, d3, d4, d5, d6] := by
  simp (disch := omega) only [unpack7_entry6, shl1, shl2, shl3, shl4, shl5, shl6, shl7, shr1, shr2, shr3, shr4, shr5, shr6, shr7, andE127, lorD1, lorD2, lorD3, lorD4, lorD5, lorD6, lorD7, lorD8, List.cons_append, List.nil_append, List.cons.injEq, and_true]
  omega

theorem pack_unpack_bits7_full (p : Nat) (src : List Nat) (hlen : src.length = p)
    (hb : ∀ x ∈ src, x < 256) : pack_bits7 p (unpack_bits7 p src) = src := by
  have hr : p * 8 % 7 = 0 ∨ p * 8 % 7 = 1 ∨ p * 8 % 7 = 2 ∨ p * 8 % 7 = 3 ∨ p * 8 % 7 = 4 ∨ p * 8 % 7 = 5 ∨ p * 8 % 7 = 6 := by omega
  rcases hr with h | h | h | h | h | h | h
  · have hlen' : src.length = 7 * (p * 8 / 56) := by omega
    rw [unpack_bits7_eq0 p h, pack_bits7_eq0 p h]
    exact pack7_rounds_unpack _ src hlen' hb
  · rcases src with _ | ⟨b0, rest⟩ <;>
      simp only [List.length_nil, List.length_cons] at hlen <;> try omega
    have h0 : b0 < 256 := hb b0 (by simp)
    have hrest : rest.length = 7 * (p * 8 / 56) := by omega
    have hb' : ∀ x ∈ rest, x < 256 := fun x hx => hb x (by simp [hx])
    rw [unpack_bits7_eq1 p h]
    simp only [unpack7_entry1, List.cons_append, List.nil_append]
    rw [pack_bits7_eq1 p h, pack7_rounds_unpack _ rest hrest hb',
      pack7_entry1_unpack b0 h0]
    rfl
  · rcases src with _ | ⟨b0, _ | ⟨b1, rest⟩⟩ <;>
      simp only [List.length_nil, List.length_cons] at hlen <;> try omega
    have h0 : b0 < 256 := hb b0 (by simp)
    have h1 : b1 < 256 := hb b1 (by simp)
    have hrest : rest.length = 7 * (p * 8 / 56) := by omega
    have hb' : ∀ x ∈ rest, x < 256 := fun x hx => hb x (by simp [hx])
    rw [unpack_bits7_eq2 p h]
    simp only [unpack7_entry2, List.cons_append, List.nil_append]
    rw [pack_bits7_eq2 p h, pack7_rounds_unpack _ rest hrest hb',
      pack7_entry2_unpack b0 b1 h0 h1]
    rfl
  · rcases src with _ | ⟨b0, _ | ⟨b1, _ | ⟨b2, rest⟩⟩⟩ <;>
      simp only [List.length_nil, List.length_cons] at hlen <;> try omega
    have h0 : b0 < 256 := hb b0 (by simp)
    have h1 : b1 < 256 := hb b1 (by simp)
    have h2 : b2 < 256 := hb b2 (by simp)
    have hrest : rest.length = 7 * (p * 8 / 56) := by omega
    have hb' : ∀ x ∈ rest, x < 256 := fun x hx => hb x (by simp [hx])
    rw [unpack_bits7_eq3 p h]
    simp only [unpack7_entry3, List.cons_append, List.nil_append]
    rw [pack_bits7_eq3 p h, pack7_rounds_unpack _ rest hrest hb',
      pack7_entry3_unpack b0 b1 b2 h0 h1 h2]
    rfl
  · rcases src with _ | ⟨b0, _ | ⟨b1, _ | ⟨b2, _ | ⟨b3, rest⟩⟩⟩⟩ <;>
      simp only [List.length_nil, List.length_cons] at hlen <;> try omega
    have h0 : b0 < 256 := hb b0 (by simp)
    have h1 : b1 < 256 := hb b1 (by simp)
    have h2 : b2 < 256 := hb b2 (by simp)
    have h3 : b3 < 256 := hb b3 (by simp)
    have hrest : rest.length = 7 * (p * 8 / 56) := by omega
    have hb' : ∀ x ∈ rest, x < 256 := fun x hx => hb x (by simp [hx])
    rw [unpack_bits7_eq4 p h]
    simp only [unpack7_entry4, List.cons_append, List.nil_append]
    rw [pack_bits7_eq4 p h, pack7_rounds_unpack _ rest hrest hb',
      pack7_entry4_unpack b0 b1 b2 b3 h0 h1 h2 h3]
    rfl
  · rcases src with _ | ⟨b0, _ | ⟨b1, _ | ⟨b2, _ | ⟨b3, _ | ⟨b4, rest⟩⟩⟩⟩⟩ <;>
      simp only [List.length_nil, List.length_cons] at hlen <;> try omega
    have h0 : b0 < 256 := hb b0 (by simp)
    have h1 : b1 < 256 := hb b1 (by simp)
    have h2 : b2 < 256 := hb b2 (by simp)
    have h3 : b3 < 256 := hb b3 (by simp)
    have h4 : b4 < 256 := hb b4 (by simp)
    have hrest : rest.length = 7 * (p * 8 / 56) := by omega
    have hb' : ∀ x ∈ rest, x < 256 := fun x hx => hb x (by simp [hx])
    rw [unpack_bits7_eq5 p h]
    simp only [unpack7_entry5, List.cons_append, List.nil_append]
    rw [pack_bits7_eq5 p h, pack7_rounds_unpack _ rest hrest hb',
      pack7_entry5_unpack b0 b1 b2 b3 b4 h0 h1 h2 h3 h4]
    rfl
  · rcases src with _ | ⟨b0, _ | ⟨b1, _ | ⟨b2, _ | ⟨b3, _ | ⟨b4, _ | ⟨b5, rest⟩⟩⟩⟩⟩⟩ <;>
      simp only [List.length_nil, List.length_cons] at hlen <;> try omega
    have h0 : b0 < 256 := hb b0 (by simp)
    have h1 : b1 < 256 := hb b1 (by simp)
    have h2 : b2 < 256 := hb b2 (by simp)
    have h3 : b3 < 256 := hb b3 (by simp)
    have h4 : b4 < 256 := hb b4 (by simp)
    have h5 : b5 < 256 := hb b5 (by simp)
    have hrest : rest.length = 7 * (p * 8 / 56) := by omega
    have hb' : ∀ x ∈ rest, x < 256 := fun x hx => hb x (by simp [hx])
    rw [unpack_bits7_eq6 p h]
    simp only [unpack7_entry6, List.cons_append, List.nil_append]
    rw [pack_bits7_eq6 p h, pack7_rounds_unpack _ rest hrest hb',
      pack7_entry6_unpack b0 b1 b2 b3 b4 b5 h0 h1 h2 h3 h4 h5]
    rfl

theorem unpack_pack_bits7_full (p : Nat) (src : List Nat)
    (hlen : src.length = bit_packer_unpacked_bytes 7 p)
    (hd : ∀ x ∈ src, x < 128)
    (hfirst : p * 8 % 7 = 0 ∨ src.headD 0 < 2 ^ (p * 8 % 7)) :
    unpack_bits7 p (pack_bits7 p src) = src := by
  rw [bit_packer_unpacked_bytes] at hlen
  have hr : p * 8 % 7 = 0 ∨ p * 8 % 7 = 1 ∨ p * 8 % 7 = 2 ∨ p * 8 % 7 = 3 ∨ p * 8 % 7 = 4 ∨ p * 8 % 7 = 5 ∨ p * 8 % 7 = 6 := by omega
  rcases hr with h | h | h | h | h | h | h
  · have hlen' : src.length = 8 * (p * 8 / 56) := by rw [hlen, h]; norm_num; omega
    rw [pack_bits7_eq0 p h, unpack_bits7_eq0 p h]
    exact unpack7_rounds_pack _ src hlen' hd
  · have hcount : src.length = 8 * (p * 8 / 56) + 2 := by rw [hlen, h]; norm_num; omega
    rcases src with _ | ⟨d0, _ | ⟨d1, rest⟩⟩ <;>
      simp only [List.length_nil, List.length_cons] at hcount <;> try omega
    have h1 : d1 < 128 := hd d1 (by simp)
    have hf : d0 < 2 := by
      rcases hfirst with hf | hf
      · omega
      · rw [h] at hf; simp only [List.headD] at hf; omega
    have hrest : rest.length = 8 * (p * 8 / 56) := by omega
    have hd' : ∀ x ∈ rest, x < 128 := fun x hx => hd x (by simp [hx])
    rw [pack_bits7_eq1 p h]
    simp only [pack7_entry1, List.cons_append, List.nil_append]
    rw [unpack_bits7_eq1 p h, unpack7_rounds_pack _ rest hrest hd',
      unpack7_entry1_pack d0 d1 hf h1]
    rfl
  · have hcount : src.length = 8 * (p * 8 / 56) + 3 := by rw [hlen, h]; norm_num; omega
    rcases src with _ | ⟨d0, _ | ⟨d1, _ | ⟨d2, rest⟩⟩⟩ <;>
      simp only [List.length_nil, List.length_cons] at hcount <;> try omega
    have h1 : d1 < 128 := hd d1 (by simp)
    have h2 : d2 < 128 := hd d2 (by simp)
    have hf : d0 < 4 := by
      rcases hfirst with hf | hf
      · omega
      · rw [h] at hf; simp only [List.headD] at hf; omega
    have hrest : rest.length = 8 * (p * 8 / 56) := by omega
    have hd' : ∀ x ∈ rest, x < 128 := fun x hx => hd x (by simp [hx])
    rw [pack_bits7_eq2 p h]
    simp only [pack7_entry2, List.cons_append, List.nil_append]
    rw [unpack_bits7_eq2 p h, unpack7_rounds_pack _ rest hrest hd',
      unpack7_entry2_pack d0 d1 d2 hf h1 h2]
    rfl
  · have hcount : src.length = 8 * (p * 8 / 56) + 4 := by rw [hlen, h]; norm_num; omega
    rcases src with _ | ⟨d0, _ | ⟨d1, _ | ⟨d2, _ | ⟨d3, rest⟩⟩⟩⟩ <;>
      simp only [List.length_nil, List.length_cons] at hcount <;> try omega
    have h1 : d1 < 128 := hd d1 (by simp)
    have h2 : d2 < 128 := hd d2 (by simp)
    have h3 : d3 < 128 := hd d3 (by simp)
    have hf : d0 < 8 := by
      rcases hfirst with hf | hf
      · omega
      · rw [h] at hf; simp only [List.headD] at hf; omega
    have hrest : rest.length = 8 * (p * 8 / 56) := by omega
    have hd' : ∀ x ∈ rest, x < 128 := fun x hx => hd x (by simp [hx])
    rw [pack_bits7_eq3 p h]
    simp only [pack7_entry3, List.cons_append, List.nil_append]
    rw [unpack_bits7_eq3 p h, unpack7_rounds_pack _ rest hrest hd',
      unpack7_entry3_pack d0 d1 d2 d3 hf h1 h2 h3]
    rfl
  · have hcount : src.length = 8 * (p * 8 / 56) + 5 := by rw [hlen, h]; norm_num; omega
    rcases src with _ | ⟨d0, _ | ⟨d1, _ | ⟨d2, _ | ⟨d3, _ | ⟨d4, rest⟩⟩⟩⟩⟩ <;>
      simp only [List.length_nil, List.length_cons] at hcount <;> try omega
    have h1 : d1 < 128 := hd d1 (by simp)
    have h2 : d2 < 128 := hd d2 (by simp)
    have h3 : d3 < 128 := hd d3 (by simp)
    have h4 : d4 < 128 := hd d4 (by simp)
    have hf : d0 < 16 := by
      rcases hfirst with hf | hf
      · omega
      · rw [h] at hf; simp only [List.headD] at hf; omega
    have hrest : rest.length = 8 * (p * 8 / 56) := by omega
    have hd' : ∀ x ∈ rest, x < 128 := fun x hx => hd x (by simp [hx])
    rw [pack_bits7_eq4 p h]
    simp only [pack7_entry4, List.cons_append, List.nil_append]
    rw [unpack_bits7_eq4 p h, unpack7_rounds_pack _ rest hrest hd',
      unpack7_entry4_pack d0 d1 d2 d3 d4 hf h1 h2 h3 h4]
    rfl
  · have hcount : src.length = 8 * (p * 8 / 56) + 6 := by rw [hlen, h]; norm_num; omega
    rcases src with _ | ⟨d0, _ | ⟨d1, _ | ⟨d2, _ | ⟨d3, _ | ⟨d4, _ | ⟨d5, rest⟩⟩⟩⟩⟩⟩ <;>
      simp only [List.length_nil, List.length_cons] at hcount <;> try omega
    have h1 : d1 < 128 := hd d1 (by simp)
    have h2 : d2 < 128 := hd d2 (by simp)
    have h3 : d3 < 128 := hd d3 (by simp)
    have h4 : d4 < 128 := hd d4 (by simp)
    have h5 : d5 < 128 := hd d5 (by simp)
    have hf : d0 < 32 := by
      rcases hfirst with hf | hf
      · omega
      · rw [h] at hf; simp only [List.headD] at hf; omega
    have hrest : rest.length = 8 * (p * 8 / 56) := by omega
    have hd' : ∀ x ∈ rest, x < 128 := fun x hx => hd x (by simp [hx])
    rw [pack_bits7_eq5 p h]
    simp only [pack7_entry5, List.cons_append, List.nil_append]
    rw [unpack_bits7_eq5 p h, unpack7_rounds_pack _ rest hrest hd',
      unpack7_entry5_pack d0 d1 d2 d3 d4 d5 hf h1 h2 h3 h4 h5]
    rfl
  · have hcount : src.length = 8 * (p * 8 / 56) + 7 := by rw [hlen, h]; norm_num; omega
    rcases src with _ | ⟨d0, _ | ⟨d1, _ | ⟨d2, _ | ⟨d3, _ | ⟨d4, _ | ⟨d5, _ | ⟨d6, rest⟩⟩⟩⟩⟩⟩⟩ <;>
      simp only [List.length_nil, List.length_cons] at hcount <;> try omega
    have h1 : d1 < 128 := hd d1 (by simp)
    have h2 : d2 < 128 := hd d2 (by simp)
    have h3 : d3 < 128 := hd d3 (by simp)
    have h4 : d4 < 128 := hd d4 (by simp)
    have h5 : d5 < 128 := hd d5 (by simp)
    have h6 : d6 < 128 := hd d6 (by simp)
    have hf : d0 < 64 := by
      rcases hfirst with hf | hf
      · omega
      · rw [h] at hf; simp only [List.headD] at hf; omega
    have hrest : rest.length = 8 * (p * 8 / 56) := by omega
    have hd' : ∀ x ∈ rest, x < 128 := fun x hx => hd x (by simp [hx])
    rw [pack_bits7_eq6 p h]
    simp only [pack7_entry6, List.cons_append, List.nil_append]
    rw [unpack_bits7_eq6 p h, unpack7_rounds_pack _ rest hrest hd',
      unpack7_entry6_pack d0 d1 d2 d3 d4 d5 d6 hf h1 h2 h3 h4 h5 h6]
    rfl

/-! ### Round-trip proofs for B = 2 and B = 4 -/

theorem pack_unpack_bits2_full : ∀ (src : List Nat), (∀ x ∈ src, x < 256) →
    pack_bits2 (unpack_bits2 src) = src := by
  intro src
  induction src with
  | nil => intro _; rfl
  | cons b rest ih =>
    intro hb
    have h0 : b < 256 := hb b (by simp)
    have hb' : ∀ x ∈ rest, x < 256 := fun x hx => hb x (by simp [hx])
    simp only [unpack_bits2, pack_bits2]
    rw [ih hb']
    simp (disch := omega) only [shl1, shl2, shl3, shl4, shl5, shl6, shl7,
      shr1, shr2, shr3, shr4, shr5, shr6, shr7, andE3,
      lorD1, lorD2, lorD3, lorD4, lorD5, lorD6, lorD7, lorD8, List.cons.injEq, and_true]
    omega

theorem unpack2_of_pack : ∀ (n : Nat) (l : List Nat), l.length = 4 * n →
    (∀ x ∈ l, x < 4) → unpack_bits2 (pack_bits2 l) = l := by
  intro n
  induction n with
  | zero =>
    intro l hlen _
    rcases l with _ | ⟨d0, t⟩
    · rfl
    · simp at hlen
  | succ n ih =>
    intro l hlen hb
    rcases l with _ | ⟨d0, _ | ⟨d1, _ | ⟨d2, _ | ⟨d3, rest⟩⟩⟩⟩ <;>
      simp only [List.length_cons, List.length_nil] at hlen <;> try omega
    have hrest : rest.length = 4 * n := by omega
    have hb' : ∀ x ∈ rest, x < 4 := fun x hx => hb x (by simp [hx])
    have h0 : d0 < 4 := hb d0 (by simp)
    have h1 : d1 < 4 := hb d1 (by simp)
    have h2 : d2 < 4 := hb d2 (by simp)
    have h3 : d3 < 4 := hb d3 (by simp)
    simp only [pack_bits2, unpack_bits2]
    rw [ih rest hrest hb']
    simp (disch := omega) only [shl1, shl2, shl3, shl4, shl5, shl6, shl7,
      shr1, shr2, shr3, shr4, shr5, shr6, shr7, andE3,
      lorD1, lorD2, lorD3, lorD4, lorD5, lorD6, lorD7, lorD8, List.cons.injEq, and_true]
    omega

theorem pack_unpack_bits4_full : ∀ (src : List Nat), (∀ x ∈ src, x < 256) →
    pack_bits4 (unpack_bits4 src) = src := by
  intro src
  induction src with
  | nil => intro _; rfl
  | cons b rest ih =>
    intro hb
    have h0 : b < 256 := hb b (by simp)
    have hb' : ∀ x ∈ rest, x < 256 := fun x hx => hb x (by simp [hx])
    simp only [unpack_bits4, pack_bits4]
    rw [ih hb']
    simp (disch := omega) only [shl1, shl2, shl3, shl4, shl5, shl6, shl7,
      shr1, shr2, shr3, shr4, shr5, shr6, shr7, andE15,
      lorD1, lorD2, lorD3, lorD4, lorD5, lorD6, lorD7, lorD8, List.cons.injEq, and_true]
    omega

theorem unpack4_of_pack : ∀ (n : Nat) (l : List Nat), l.length = 2 * n →
    (∀ x ∈ l, x < 16) → unpack_bits4 (pack_bits4 l) = l := by
  intro n
  induction n with
  | zero =>
    intro l hlen _
    rcases l with _ | ⟨d0, t⟩
    · rfl
    · simp at hlen
  | succ n ih =>
    intro l hlen hb
    rcases l with _ | ⟨d0, _ | ⟨d1, rest⟩⟩ <;>
      simp only [List.length_cons, List.length_nil] at hlen <;> try omega
    have hrest : rest.length = 2 * n := by omega
    have hb' : ∀ x ∈ rest, x < 16 := fun x hx => hb x (by simp [hx])
    have h0 : d0 < 16 := hb d0 (by simp)
    have h1 : d1 < 16 := hb d1 (by simp)
    simp only [pack_bits4, unpack_bits4]
    rw [ih rest hrest hb']
    simp (disch := omega) only [shl1, shl2, shl3, shl4, shl5, shl6, shl7,
      shr1, shr2, shr3, shr4, shr5, shr6, shr7, andE15,
      lorD1, lorD2, lorD3, lorD4, lorD5, lorD6, lorD7, lorD8, List.cons.injEq, and_true]
    omega


/-! ### Digit bounds produced by unpack (for each B) -/

theorem unpack3_rounds_lt : ∀ (n : Nat) (l : List Nat), (∀ x ∈ l, x < 256) →
    ∀ d ∈ unpack3_rounds n l, d < 8 := by
  intro n
  induction n with
  | zero => intro l _ d hd; simp [unpack3_rounds] at hd
  | succ n ih =>
    intro l hb d hd
    rcases l with _ | ⟨b0, _ | ⟨b1, _ | ⟨b2, rest⟩⟩⟩
    · simp [unpack3_rounds] at hd
    · simp [unpack3_rounds] at hd
    · simp [unpack3_rounds] at hd
    · have hrest : ∀ x ∈ rest, x < 256 := fun x hx => hb x (by simp [hx])
      have h0 : b0 < 256 := hb b0 (by simp)
      have h1 : b1 < 256 := hb b1 (by simp)
      have h2 : b2 < 256 := hb b2 (by simp)
      simp only [unpack3_rounds, unpack3_round, List.cons_append, List.nil_append,
        List.mem_cons] at hd
      rcases hd with rfl | rfl | rfl | rfl | rfl | rfl | rfl | rfl | hd
      · simp (disch := omega) only [shl1, shl2, shl3, shl4, shl5, shl6, shl7, shr1, shr2, shr3, shr4, shr5, shr6, shr7, andE7, lorD1, lorD2, lorD3, lorD4, lorD5, lorD6, lorD7, lorD8]
        omega
      · simp (disch := omega) only [shl1, shl2, shl3, shl4, shl5, shl6, shl7, shr1, shr2, shr3, shr4, shr5, shr6, shr7, andE7, lorD1, lorD2, lorD3, lorD4, lorD5, lorD6, lorD7, lorD8]
        omega
      · simp (disch := omega) only [shl1, shl2, shl3, shl4, shl5, shl6, shl7, shr1, shr2, shr3, shr4, shr5, shr6, shr7, andE7, lorD1, lorD2, lorD3, lorD4, lorD5, lorD6, lorD7, lorD8]
        omega
      · simp (disch := omega) only [shl1, shl2, shl3, shl4, shl5, shl6, shl7, shr1, shr2, shr3, shr4, shr5, shr6, shr7, andE7, lorD1, lorD2, lorD3, lorD4, lorD5, lorD6, lorD7, lorD8]
        omega
      · simp (disch := omega) only [shl1, shl2, shl3, shl4, shl5, shl6, shl7, shr1, shr2, shr3, shr4, shr5, shr6, shr7, andE7, lorD1, lorD2, lorD3, lorD4, lorD5, lorD6, lorD7, lorD8]
        omega
      · simp (disch := omega) only [shl1, shl2, shl3, shl4, shl5, shl6, shl7, shr1, shr2, shr3, shr4, shr5, shr6, shr7, andE7, lorD1, lorD2, lorD3, lorD4, lorD5, lorD6, lorD7, lorD8]
        omega
      · simp (disch := omega) only [shl1, shl2, shl3, shl4, shl5, shl6, shl7, shr1, shr2, shr3, shr4, shr5, shr6, shr7, andE7, lorD1, lorD2, lorD3, lorD4, lorD5, lorD6, lorD7, lorD8]
        omega
      · simp (disch := omega) only [shl1, shl2, shl3, shl4, shl5, shl6, shl7, shr1, shr2, shr3, shr4, shr5, shr6, shr7, andE7, lorD1, lorD2, lorD3, lorD4, lorD5, lorD6, lorD7, lorD8]
        omega
      · exact ih rest hrest d hd

theorem unpack_bits3_lt (p : Nat) (src : List Nat) (hb : ∀ x ∈ src, x < 256) :
    ∀ d ∈ unpack_bits3 p src, d < 8 := by
  intro d hd
  have hr : p * 8 % 3 = 0 ∨ p * 8 % 3 = 1 ∨ p * 8 % 3 = 2 := by omega
  rcases hr with h | h | h
  · rw [unpack_bits3_eq0 p h] at hd
    exact unpack3_rounds_lt _ src hb d hd
  · rcases src with _ | ⟨b0, _ | ⟨b1, rest⟩⟩
    · unfold unpack_bits3 at hd
      rw [if_neg (by omega)] at hd <;> try rw [if_neg (by omega)] at hd
      simp [h] at hd
    · unfold unpack_bits3 at hd
      rw [if_neg (by omega)] at hd <;> try rw [if_neg (by omega)] at hd
      simp [h] at hd
    · have hrest : ∀ x ∈ rest, x < 256 := fun x hx => hb x (by simp [hx])
      have h0 : b0 < 256 := hb b0 (by simp)
      have h1 : b1 < 256 := hb b1 (by simp)
      rw [unpack_bits3_eq1 p h] at hd
      simp only [unpack3_entry1, List.cons_append, List.nil_append,
        List.mem_cons] at hd
      rcases hd with rfl | rfl | rfl | rfl | rfl | rfl | hd
      · simp (disch := omega) only [shl1, shl2, shl3, shl4, shl5, shl6, shl7, shr1, shr2, shr3, shr4, shr5, shr6, shr7, andE7, lorD1, lorD2, lorD3, lorD4, lorD5, lorD6, lorD7, lorD8]
        omega
      · simp (disch := omega) only [shl1, shl2, shl3, shl4, shl5, shl6, shl7, shr1, shr2, shr3, shr4, shr5, shr6, shr7, andE7, lorD1, lorD2, lorD3, lorD4, lorD5, lorD6, lorD7, lorD8]
        omega
      · simp (disch := omega) only [shl1, shl2, shl3, shl4, shl5, shl6, shl7, shr1, shr2, shr3, shr4, shr5, shr6, shr7, andE7, lorD1, lorD2, lorD3, lorD4, lorD5, lorD6, lorD7, lorD8]
        omega
      · simp (disch := omega) only [shl1, shl2, shl3, shl4, shl5, shl6, shl7, shr1, shr2, shr3, shr4, shr5, shr6, shr7, andE7, lorD1, lorD2, lorD3, lorD4, lorD5, lorD6, lorD7, lorD8]
        omega
      · simp (disch := omega) only [shl1, shl2, shl3, shl4, shl5, shl6, shl7, shr1, shr2, shr3, shr4, shr5, shr6, shr7, andE7, lorD1, lorD2, lorD3, lorD4, lorD5, lorD6, lorD7, lorD8]
        omega
      · simp (disch := omega) only [shl1, shl2, shl3, shl4, shl5, shl6, shl7, shr1, shr2, shr3, shr4, shr5, shr6, shr7, andE7, lorD1, lorD2, lorD3, lorD4, lorD5, lorD6, lorD7, lorD8]
        omega
      · exact unpack3_rounds_lt _ rest hrest d hd
  · rcases src with _ | ⟨b0, rest⟩
    · unfold unpack_bits3 at hd
      rw [if_neg (by omega)] at hd <;> try rw [if_neg (by omega)] at hd
      simp [h] at hd
    · have hrest : ∀ x ∈ rest, x < 256 := fun x hx => hb x (by simp [hx])
      have h0 : b0 < 256 := hb b0 (by simp)
      rw [unpack_bits3_eq2 p h] at hd
      simp only [unpack3_entry2, List.cons_append, List.nil_append,
        List.mem_cons] at hd
      rcases hd with rfl | rfl | rfl | hd
      · simp (disch := omega) only [shl1, shl2, shl3, shl4, shl5, shl6, shl7, shr1, shr2, shr3, shr4, shr5, shr6, shr7, andE7, lorD1, lorD2, lorD3, lorD4, lorD5, lorD6, lorD7, lorD8]
        omega
      · simp (disch := omega) only [shl1, shl2, shl3, shl4, shl5, shl6, shl7, shr1, shr2, shr3, shr4, shr5, shr6, shr7, andE7, lorD1, lorD2, lorD3, lorD4, lorD5, lorD6, lorD7, lorD8]
        omega
      · simp (disch := omega) only [shl1, shl2, shl3, shl4, shl5, shl6, shl7, shr1, shr2, shr3, shr4, shr5, shr6, shr7, andE7, lorD1, lorD2, lorD3, lorD4, lorD5, lorD6, lorD7, lorD8]
        omega
      · exact unpack3_rounds_lt _ rest hrest d hd

theorem unpack_bits3_head (p : Nat) (src : List Nat) (hb : ∀ x ∈ src, x < 256)
    (h0 : p * 8 % 3 ≠ 0) : (unpack_bits3 p src).headD 0 < 2 ^ (p * 8 % 3) := by
  have hr : p * 8 % 3 = 1 ∨ p * 8 % 3 = 2 := by omega
  rcases hr with h | h
  · rw [h]
    rcases src with _ | ⟨b0, _ | ⟨b1, rest⟩⟩
    · simp [unpack_bits3, h]
    · simp [unpack_bits3, h]
    · have hB0 : b0 < 256 := hb b0 (by simp)
      rw [unpack_bits3_eq1 p h]
      simp only [unpack3_entry1, List.cons_append, List.nil_append, List.headD]
      simp (disch := omega) only [shl1, shl2, shl3, shl4, shl5, shl6, shl7, shr1, shr2, shr3, shr4, shr5, shr6, shr7, andE7, lorD1, lorD2, lorD3, lorD4, lorD5, lorD6, lorD7, lorD8]
      omega
  · rw [h]
    rcases src with _ | ⟨b0, rest⟩
    · simp [unpack_bits3, h]
    · have hB0 : b0 < 256 := hb b0 (by simp)
      rw [unpack_bits3_eq2 p h]
      simp only [unpack3_entry2, List.cons_append, List.nil_append, List.headD]
      simp (disch := omega) only [shl1, shl2, shl3, shl4, shl5, shl6, shl7, shr1, shr2, shr3, shr4, shr5, shr6, shr7, andE7, lorD1, lorD2, lorD3, lorD4, lorD5, lorD6, lorD7, lorD8]
      omega

theorem unpack5_rounds_lt : ∀ (n : Nat) (l : List Nat), (∀ x ∈ l, x < 256) →
    ∀ d ∈ unpack5_rounds n l, d < 32 := by
  intro n
  induction n with
  | zero => intro l _ d hd; simp [unpack5_rounds] at hd
  | succ n ih =>
    intro l hb d hd
    rcases l with _ | ⟨b0, _ | ⟨b1, _ | ⟨b2, _ | ⟨b3, _ | ⟨b4, rest⟩⟩⟩⟩⟩
    · simp [unpack5_rounds] at hd
    · simp [unpack5_rounds] at hd
    · simp [unpack5_rounds] at hd
    · simp [unpack5_rounds] at hd
    · simp [unpack5_rounds] at hd
    · have hrest : ∀ x ∈ rest, x < 256 := fun x hx => hb x (by simp [hx])
      have h0 : b0 < 256 := hb b0 (by simp)
      have h1 : b1 < 256 := hb b1 (by simp)
      have h2 : b2 < 256 := hb b2 (by simp)
      have h3 : b3 < 256 := hb b3 (by simp)
      have h4 : b4 < 256 := hb b4 (by simp)
      simp only [unpack5_rounds, unpack5_round, List.cons_append, List.nil_append,
        List.mem_cons] at hd
      rcases hd with rfl | rfl | rfl | rfl | rfl | rfl | rfl | rfl | hd
      · simp (disch := omega) only [shl1, shl2, shl3, shl4, shl5, shl6, shl7, shr1, shr2, shr3, shr4, shr5, shr6, shr7, andE31, lorD1, lorD2, lorD3, lorD4, lorD5, lorD6, lorD7, lorD8]
        omega
      · simp (disch := omega) only [shl1, shl2, shl3, shl4, shl5, shl6, shl7, shr1, shr2, shr3, shr4, shr5, shr6, shr7, andE31, lorD1, lorD2, lorD3, lorD4, lorD5, lorD6, lorD7, lorD8]
        omega
      · simp (disch := omega) only [shl1, shl2, shl3, shl4, shl5, shl6, shl7, shr1, shr2, shr3, shr4, shr5, shr6, shr7, andE31, lorD1, lorD2, lorD3, lorD4, lorD5, lorD6, lorD7, lorD8]
        omega
      · simp (disch := omega) only [shl1, shl2, shl3, shl4, shl5, shl6, shl7, shr1, shr2, shr3, shr4, shr5, shr6, shr7, andE31, lorD1, lorD2, lorD3, lorD4, lorD5, lorD6, lorD7, lorD8]
        omega
      · simp (disch := omega) only [shl1, shl2, shl3, shl4, shl5, shl6, shl7, shr1, shr2, shr3, shr4, shr5, shr6, shr7, andE31, lorD1, lorD2, lorD3, lorD4, lorD5, lorD6, lorD7, lorD8]
        omega
      · simp (disch := omega) only [shl1, shl2, shl3, shl4, shl5, shl6, shl7, shr1, shr2, shr3, shr4, shr5, shr6, shr7, andE31, lorD1, lorD2, lorD3, lorD4, lorD5, lorD6, lorD7, lorD8]
        omega
      · simp (disch := omega) only [shl1, shl2, shl3, shl4, shl5, shl6, shl7, shr1, shr2, shr3, shr4, shr5, shr6, shr7, andE31, lorD1, lorD2, lorD3, lorD4, lorD5, lorD6, lorD7, lorD8]
        omega
      · simp (disch := omega) only [shl1, shl2, shl3, shl4, shl5, shl6, shl7, shr1, shr2, shr3, shr4, shr5, shr6, shr7, andE31, lorD1, lorD2, lorD3, lorD4, lorD5, lorD6, lorD7, lorD8]
        omega
      · exact ih rest hrest d hd

theorem unpack_bits5_lt (p : Nat) (src : List Nat) (hb : ∀ x ∈ src, x < 256) :
    ∀ d ∈ unpack_bits5 p src, d < 32 := by
  intro d hd
  have hr : p * 8 % 5 = 0 ∨ p * 8 % 5 = 3 ∨ p * 8 % 5 = 1 ∨ p * 8 % 5 = 4 ∨ p * 8 % 5 = 2 := by omega
  rcases hr with h | h | h | h | h
  · rw [unpack_bits5_eq0 p h] at hd
    exact unpack5_rounds_lt _ src hb d hd
  · rcases src with _ | ⟨b0, rest⟩
    · unfold unpack_bits5 at hd
      rw [if_neg (by omega)] at hd <;> try rw [if_neg (by omega)] at hd
      simp [h] at hd
    · have hrest : ∀ x ∈ rest, x < 256 := fun x hx => hb x (by simp [hx])
      have h0 : b0 < 256 := hb b0 (by simp)
      rw [unpack_bits5_eq3 p h] at hd
      simp only [unpack5_entry3, List.cons_append, List.nil_append,
        List.mem_cons] at hd
      rcases hd with rfl | rfl | hd
      · simp (disch := omega) only [shl1, shl2, shl3, shl4, shl5, shl6, shl7, shr1, shr2, shr3, shr4, shr5, shr6, shr7, andE31, lorD1, lorD2, lorD3, lorD4, lorD5, lorD6, lorD7, lorD8]
        omega
      · simp (disch := omega) only [shl1, shl2, shl3, shl4, shl5, shl6, shl7, shr1, shr2, shr3, shr4, shr5, shr6, shr7, andE31, lorD1, lorD2, lorD3, lorD4, lorD5, lorD6, lorD7, lorD8]
        omega
      · exact unpack5_rounds_lt _ rest hrest d hd
  · rcases src with _ | ⟨b0, _ | ⟨b1, rest⟩⟩
    · unfold unpack_bits5 at hd
      rw [if_neg (by omega)] at hd <;> try rw [if_neg (by omega)] at hd
      simp [h] at hd
    · unfold unpack_bits5 at hd
      rw [if_neg (by omega)] at hd <;> try rw [if_neg (by omega)] at hd
      simp [h] at hd
    · have hrest : ∀ x ∈ rest, x < 256 := fun x hx => hb x (by simp [hx])
      have h0 : b0 < 256 := hb b0 (by simp)
      have h1 : b1 < 256 := hb b1 (by simp)
      rw [unpack_bits5_eq1 p h] at hd
      simp only [unpack5_entry1, List.cons_append, List.nil_append,
        List.mem_cons] at hd
      rcases hd with rfl | rfl | rfl | rfl | hd
      · simp (disch := omega) only [shl1, shl2, shl3, shl4, shl5, shl6, shl7, shr1, shr2, shr3, shr4, shr5, shr6, shr7, andE31, lorD1, lorD2, lorD3, lorD4, lorD5, lorD6, lorD7, lorD8]
        omega
      · simp (disch := omega) only [shl1, shl2, shl3, shl4, shl5, shl6, shl7, shr1, shr2, shr3, shr4, shr5, shr6, shr7, andE31, lorD1, lorD2, lorD3, lorD4, lorD5, lorD6, lorD7, lorD8]
        omega
      · simp (disch := omega) only [shl1, shl2, shl3, shl4, shl5, shl6, shl7, shr1, shr2, shr3, shr4, shr5, shr6, shr7, andE31, lorD1, lorD2, lorD3, lorD4, lorD5, lorD6, lorD7, lorD8]
        omega
      · simp (disch := omega) only [shl1, shl2, shl3, shl4, shl5, shl6, shl7, shr1, shr2, shr3, shr4, shr5, shr6, shr7, andE31, lorD1, lorD2, lorD3, lorD4, lorD5, lorD6, lorD7, lorD8]
        omega
      · exact unpack5_rounds_lt _ rest hrest d hd
  · rcases src with _ | ⟨b0, _ | ⟨b1, _ | ⟨b2, rest⟩⟩⟩
    · unfold unpack_bits5 at hd
      rw [if_neg (by omega)] at hd <;> try rw [if_neg (by omega)] at hd
      simp [h] at hd
    · unfold unpack_bits5 at hd
      rw [if_neg (by omega)] at hd <;> try rw [if_neg (by omega)] at hd
      simp [h] at hd
    · unfold unpack_bits5 at hd
      rw [if_neg (by omega)] at hd <;> try rw [if_neg (by omega)] at hd
      simp [h] at hd
    · have hrest : ∀ x ∈ rest, x < 256 := fun x hx => hb x (by simp [hx])
      have h0 : b0 < 256 := hb b0 (by simp)
      have h1 : b1 < 256 := hb b1 (by simp)
      have h2 : b2 < 256 := hb b2 (by simp)
      rw [unpack_bits5_eq4 p h] at hd
      simp only [unpack5_entry4, List.cons_append, List.nil_append,
        List.mem_cons] at hd
      rcases hd with rfl | rfl | rfl | rfl | rfl | hd
      · simp (disch := omega) only [shl1, shl2, shl3, shl4, shl5, shl6, shl7, shr1, shr2, shr3, shr4, shr5, shr6, shr7, andE31, lorD1, lorD2, lorD3, lorD4, lorD5, lorD6, lorD7, lorD8]
        omega
      · simp (disch := omega) only [shl1, shl2, shl3, shl4, shl5, shl6, shl7, shr1, shr2, shr3, shr4, shr5, shr6, shr7, andE31, lorD1, lorD2, lorD3, lorD4, lorD5, lorD6, lorD7, lorD8]
        omega
      · simp (disch := omega) only [shl1, shl2, shl3, shl4, shl5, shl6, shl7, shr1, shr2, shr3, shr4, shr5, shr6, shr7, andE31, lorD1, lorD2, lorD3, lorD4, lorD5, lorD6, lorD7, lorD8]
        omega
      · simp (disch := omega) only [shl1, shl2, shl3, shl4, shl5, shl6, shl7, shr1, shr2, shr3, shr4, shr5, shr6, shr7, andE31, lorD1, lorD2, lorD3, lorD4, lorD5, lorD6, lorD7, lorD8]
        omega
      · simp (disch := omega) only [shl1, shl2, shl3, shl4, shl5, shl6, shl7, shr1, shr2, shr3, shr4, shr5, shr6, shr7, andE31, lorD1, lorD2, lorD3, lorD4, lorD5, lorD6, lorD7, lorD8]
        omega
      · exact unpack5_rounds_lt _ rest hrest d hd
  · rcases src with _ | ⟨b0, _ | ⟨b1, _ | ⟨b2, _ | ⟨b3, rest⟩⟩⟩⟩
    · unfold unpack_bits5 at hd
      rw [if_neg (by omega)] at hd <;> try rw [if_neg (by omega)] at hd
      simp [h] at hd
    · unfold unpack_bits5 at hd
      rw [if_neg (by omega)] at hd <;> try rw [if_neg (by omega)] at hd
      simp [h] at hd
    · unfold unpack_bits5 at hd
      rw [if_neg (by omega)] at hd <;> try rw [if_neg (by omega)] at hd
      simp [h] at hd
    · unfold unpack_bits5 at hd
      rw [if_neg (by omega)] at hd <;> try rw [if_neg (by omega)] at hd
      simp [h] at hd
    · have hrest : ∀ x ∈ rest, x < 256 := fun x hx => hb x (by simp [hx])
      have h0 : b0 < 256 := hb b0 (by simp)
      have h1 : b1 < 256 := hb b1 (by simp)
      have h2 : b2 < 256 := hb b2 (by simp)
      have h3 : b3 < 256 := hb b3 (by simp)
      rw [unpack_bits5_eq2 p h] at hd
      simp only [unpack5_entry2, List.cons_append, List.nil_append,
        List.mem_cons] at hd
      rcases hd with rfl | rfl | rfl | rfl | rfl | rfl | rfl | hd
      · simp (disch := omega) only [shl1, shl2, shl3, shl4, shl5, shl6, shl7, shr1, shr2, shr3, shr4, shr5, shr6, shr7, andE31, lorD1, lorD2, lorD3, lorD4, lorD5, lorD6, lorD7, lorD8]
        omega
      · simp (disch := omega) only [shl1, shl2, shl3, shl4, shl5, shl6, shl7, shr1, shr2, shr3, shr4, shr5, shr6, shr7, andE31, lorD1, lorD2, lorD3, lorD4, lorD5, lorD6, lorD7, lorD8]
        omega
      · simp (disch := omega) only [shl1, shl2, shl3, shl4, shl5, shl6, shl7, shr1, shr2, shr3, shr4, shr5, shr6, shr7, andE31, lorD1, lorD2, lorD3, lorD4, lorD5, lorD6, lorD7, lorD8]
        omega
      · simp (disch := omega) only [shl1, shl2, shl3, shl4, shl5, shl6, shl7, shr1, shr2, shr3, shr4, shr5, shr6, shr7, andE31, lorD1, lorD2, lorD3, lorD4, lorD5, lorD6, lorD7, lorD8]
        omega
      · simp (disch := omega) only [shl1, shl2, shl3, shl4, shl5, shl6, shl7, shr1, shr2, shr3, shr4, shr5, shr6, shr7, andE31, lorD1, lorD2, lorD3, lorD4, lorD5, lorD6, lorD7, lorD8]
        omega
      · simp (disch := omega) only [shl1, shl2, shl3, shl4, shl5, shl6, shl7, shr1, shr2, shr3, shr4, shr5, shr6, shr7, andE31, lorD1, lorD2, lorD3, lorD4, lorD5, lorD6, lorD7, lorD8]
        omega
      · simp (disch := omega) only [shl1, shl2, shl3, shl4, shl5, shl6, shl7, shr1, shr2, shr3, shr4, shr5, shr6, shr7, andE31, lorD1, lorD2, lorD3, lorD4, lorD5, lorD6, lorD7, lorD8]
        omega
      · exact unpack5_rounds_lt _ rest hrest d hd

theorem unpack_bits5_head (p : Nat) (src : List Nat) (hb : ∀ x ∈ src, x < 256)
    (h0 : p * 8 % 5 ≠ 0) : (unpack_bits5 p src).headD 0 < 2 ^ (p * 8 % 5) := by
  have hr : p * 8 % 5 = 3 ∨ p * 8 % 5 = 1 ∨ p * 8 % 5 = 4 ∨ p * 8 % 5 = 2 := by omega
  rcases hr with h | h | h | h
  · rw [h]
    rcases src with _ | ⟨b0, rest⟩
    · simp [unpack_bits5, h]
    · have hB0 : b0 < 256 := hb b0 (by simp)
      rw [unpack_bits5_eq3 p h]
      simp only [unpack5_entry3, List.cons_append, List.nil_append, List.headD]
      simp (disch := omega) only [shl1, shl2, shl3, shl4, shl5, shl6, shl7, shr1, shr2, shr3, shr4, shr5, shr6, shr7, andE31, lorD1, lorD2, lorD3, lorD4, lorD5, lorD6, lorD7, lorD8]
      omega
  · rw [h]
    rcases src with _ | ⟨b0, _ | ⟨b1, rest⟩⟩
    · simp [unpack_bits5, h]
    · simp [unpack_bits5, h]
    · have hB0 : b0 < 256 := hb b0 (by simp)
      rw [unpack_bits5_eq1 p h]
      simp only [unpack5_entry1, List.cons_append, List.nil_append, List.headD]
      simp (disch := omega) only [shl1, shl2, shl3, shl4, shl5, shl6, shl7, shr1, shr2, shr3, shr4, shr5, shr6, shr7, andE31, lorD1, lorD2, lorD3, lorD4, lorD5, lorD6, lorD7, lorD8]
      omega
  · rw [h]
    rcases src with _ | ⟨b0, _ | ⟨b1, _ | ⟨b2, rest⟩⟩⟩
    · simp [unpack_bits5, h]
    · simp [unpack_bits5, h]
    · simp [unpack_bits5, h]
    · have hB0 : b0 < 256 := hb b0 (by simp)
      rw [unpack_bits5_eq4 p h]
      simp only [unpack5_entry4, List.cons_append, List.nil_append, List.headD]
      simp (disch := omega) only [shl1, shl2, shl3, shl4, shl5, shl6, shl7, shr1, shr2, shr3, shr4, shr5, shr6, shr7, andE31, lorD1, lorD2, lorD3, lorD4, lorD5, lorD6, lorD7, lorD8]
      omega
  · rw [h]
    rcases src with _ | ⟨b0, _ | ⟨b1, _ | ⟨b2, _ | ⟨b3, rest⟩⟩⟩⟩
    · simp [unpack_bits5, h]
    · simp [unpack_bits5, h]
    · simp [unpack_bits5, h]
    · simp [unpack_bits5, h]
    · have hB0 : b0 < 256 := hb b0 (by simp)
      rw [unpack_bits5_eq2 p h]
      simp only [unpack5_entry2, List.cons_append, List.nil_append, List.headD]
      simp (disch := omega) only [shl1, shl2, shl3, shl4, shl5, shl6, shl7, shr1, shr2, shr3, shr4, shr5, shr6, shr7, andE31, lorD1, lorD2, lorD3, lorD4, lorD5, lorD6, lorD7, lorD8]
      omega

theorem unpack6_rounds_lt : ∀ (n : Nat) (l : List Nat), (∀ x ∈ l, x < 256) →
    ∀ d ∈ unpack6_rounds n l, d < 64 := by
  intro n
  induction n with
  | zero => intro l _ d hd; simp [unpack6_rounds] at hd
  | succ n ih =>
    intro l hb d hd
    rcases l with _ | ⟨b0, _ | ⟨b1, _ | ⟨b2, rest⟩⟩⟩
    · simp [unpack6_rounds] at hd
    · simp [unpack6_rounds] at hd
    · simp [unpack6_rounds] at hd
    · have hrest : ∀ x ∈ rest, x < 256 := fun x hx => hb x (by simp [hx])
      have h0 : b0 < 256 := hb b0 (by simp)
      have h1 : b1 < 256 := hb b1 (by simp)
      have h2 : b2 < 256 := hb b2 (by simp)
      simp only [unpack6_rounds, unpack6_round, List.cons_append, List.nil_append,
        List.mem_cons] at hd
      rcases hd with rfl | rfl | rfl | rfl | hd
      · simp (disch := omega) only [shl1, shl2, shl3, shl4, shl5, shl6, shl7, shr1, shr2, shr3, shr4, shr5, shr6, shr7, andE63, lorD1, lorD2, lorD3, lorD4, lorD5, lorD6, lorD7, lorD8]
        omega
      · simp (disch := omega) only [shl1, shl2, shl3, shl4, shl5, shl6, shl7, shr1, shr2, shr3, shr4, shr5, shr6, shr7, andE63, lorD1, lorD2, lorD3, lorD4, lorD5, lorD6, lorD7, lorD8]
        omega
      · simp (disch := omega) only [shl1, shl2, shl3, shl4, shl5, shl6, shl7, shr1, shr2, shr3, shr4, shr5, shr6, shr7, andE63, lorD1, lorD2, lorD3, lorD4, lorD5, lorD6, lorD7, lorD8]
        omega
      · simp (disch := omega) only [shl1, shl2, shl3, shl4, shl5, shl6, shl7, shr1, shr2, shr3, shr4, shr5, shr6, shr7, andE63, lorD1, lorD2, lorD3, lorD4, lorD5, lorD6, lorD7, lorD8]
        omega
      · exact ih rest hrest d hd

theorem unpack_bits6_lt (p : Nat) (src : List Nat) (hb : ∀ x ∈ src, x < 256) :
    ∀ d ∈ unpack_bits6 p src, d < 64 := by
  intro d hd
  have hr : p * 8 % 6 = 0 ∨ p * 8 % 6 = 4 ∨ p * 8 % 6 = 2 := by omega
  rcases hr with h | h | h
  · rw [unpack_bits6_eq0 p h] at hd
    exact unpack6_rounds_lt _ src hb d hd
  · rcases src with _ | ⟨b0, _ | ⟨b1, rest⟩⟩
    · unfold unpack_bits6 at hd
      rw [if_neg (by omega)] at hd <;> try rw [if_neg (by omega)] at hd
      simp [h] at hd
    · unfold unpack_bits6 at hd
      rw [if_neg (by omega)] at hd <;> try rw [if_neg (by omega)] at hd
      simp [h] at hd
    · have hrest : ∀ x ∈ rest, x < 256 := fun x hx => hb x (by simp [hx])
      have h0 : b0 < 256 := hb b0 (by simp)
      have h1 : b1 < 256 := hb b1 (by simp)
      rw [unpack_bits6_eq4 p h] at hd
      simp only [unpack6_entry4, List.cons_append, List.nil_append,
        List.mem_cons] at hd
      rcases hd with rfl | rfl | rfl | hd
      · simp (disch := omega) only [shl1, shl2, shl3, shl4, shl5, shl6, shl7, shr1, shr2, shr3, shr4, shr5, shr6, shr7, andE63, lorD1, lorD2, lorD3, lorD4, lorD5, lorD6, lorD7, lorD8]
        omega
      · simp (disch := omega) only [shl1, shl2, shl3, shl4, shl5, shl6, shl7, shr1, shr2, shr3, shr4, shr5, shr6, shr7, andE63, lorD1, lorD2, lorD3, lorD4, lorD5, lorD6, lorD7, lorD8]
        omega
      · simp (disch := omega) only [shl1, shl2, shl3, shl4, shl5, shl6, shl7, shr1, shr2, shr3, shr4, shr5, shr6, shr7, andE63, lorD1, lorD2, lorD3, lorD4, lorD5, lorD6, lorD7, lorD8]
        omega
      · exact unpack6_rounds_lt _ rest hrest d hd
  · rcases src with _ | ⟨b0, rest⟩
    · unfold unpack_bits6 at hd
      rw [if_neg (by omega)] at hd <;> try rw [if_neg (by omega)] at hd
      simp [h] at hd
    · have hrest : ∀ x ∈ rest, x < 256 := fun x hx => hb x (by simp [hx])
      have h0 : b0 < 256 := hb b0 (by simp)
      rw [unpack_bits6_eq2 p h] at hd
      simp only [unpack6_entry2, List.cons_append, List.nil_append,
        List.mem_cons] at hd
      rcases hd with rfl | rfl | hd
      · simp (disch := omega) only [shl1, shl2, shl3, shl4, shl5, shl6, shl7, shr1, shr2, shr3, shr4, shr5, shr6, shr7, andE63, lorD1, lorD2, lorD3, lorD4, lorD5, lorD6, lorD7, lorD8]
        omega
      · simp (disch := omega) only [shl1, shl2, shl3, shl4, shl5, shl6, shl7, shr1, shr2, shr3, shr4, shr5, shr6, shr7, andE63, lorD1, lorD2, lorD3, lorD4, lorD5, lorD6, lorD7, lorD8]
        omega
      · exact unpack6_rounds_lt _ rest hrest d hd

theorem unpack_bits6_head (p : Nat) (src : List Nat) (hb : ∀ x ∈ src, x < 256)
    (h0 : p * 8 % 6 ≠ 0) : (unpack_bits6 p src).headD 0 < 2 ^ (p * 8 % 6) := by
  have hr : p * 8 % 6 = 4 ∨ p * 8 % 6 = 2 := by omega
  rcases hr with h | h
  · rw [h]
    rcases src with _ | ⟨b0, _ | ⟨b1, rest⟩⟩
    · simp [unpack_bits6, h]
    · simp [unpack_bits6, h]
    · have hB0 : b0 < 256 := hb b0 (by simp)
      rw [unpack_bits6_eq4 p h]
      simp only [unpack6_entry4, List.cons_append, List.nil_append, List.headD]
      simp (disch := omega) only [shl1, shl2, shl3, shl4, shl5, shl6, shl7, shr1, shr2, shr3, shr4, shr5, shr6, shr7, andE63, lorD1, lorD2, lorD3, lorD4, lorD5, lorD6, lorD7, lorD8]
      omega
  · rw [h]
    rcases src with _ | ⟨b0, rest⟩
    · simp [unpack_bits6, h]
    · have hB0 : b0 < 256 := hb b0 (by simp)
      rw [unpack_bits6_eq2 p h]
      simp only [unpack6_entry2, List.cons_append, List.nil_append, List.headD]
      simp (disch := omega) only [shl1, shl2, shl3, shl4, shl5, shl6, shl7, shr1, shr2, shr3, shr4, shr5, shr6, shr7, andE63, lorD1, lorD2, lorD3, lorD4, lorD5, lorD6, lorD7, lorD8]
      omega

theorem unpack7_rounds_lt : ∀ (n : Nat) (l : List Nat), (∀ x ∈ l, x < 256) →
    ∀ d ∈ unpack7_rounds n l, d < 128 := by
  intro n
  induction n with
  | zero => intro l _ d hd; simp [unpack7_rounds] at hd
  | succ n ih =>
    intro l hb d hd
    rcases l with _ | ⟨b0, _ | ⟨b1, _ | ⟨b2, _ | ⟨b3, _ | ⟨b4, _ | ⟨b5, _ | ⟨b6, rest⟩⟩⟩⟩⟩⟩⟩
    · simp [unpack7_rounds] at hd
    · simp [unpack7_rounds] at hd
    · simp [unpack7_rounds] at hd
    · simp [unpack7_rounds] at hd
    · simp [unpack7_rounds] at hd
    · simp [unpack7_rounds] at hd
    · simp [unpack7_rounds] at hd
    · have hrest : ∀ x ∈ rest, x < 256 := fun x hx => hb x (by simp [hx])
      have h0 : b0 < 256 := hb b0 (by simp)
      have h1 : b1 < 256 := hb b1 (by simp)
      have h2 : b2 < 256 := hb b2 (by simp)
      have h3 : b3 < 256 := hb b3 (by simp)
      have h4 : b4 < 256 := hb b4 (by simp)
      have h5 : b5 < 256 := hb b5 (by simp)
      have h6 : b6 < 256 := hb b6 (by simp)
      simp only [unpack7_rounds, unpack7_round, List.cons_append, List.nil_append,
        List.mem_cons] at hd
      rcases hd with rfl | rfl | rfl | rfl | rfl | rfl | rfl | rfl | hd
      · simp (disch := omega) only [shl1, shl2, shl3, shl4, shl5, shl6, shl7, shr1, shr2, shr3, shr4, shr5, shr6, shr7, andE127, lorD1, lorD2, lorD3, lorD4, lorD5, lorD6, lorD7, lorD8]
        omega
      · simp (disch := omega) only [shl1, shl2, shl3, shl4, shl5, shl6, shl7, shr1, shr2, shr3, shr4, shr5, shr6, shr7, andE127, lorD1, lorD2, lorD3, lorD4, lorD5, lorD6, lorD7, lorD8]
        omega
      · simp (disch := omega) only [shl1, shl2, shl3, shl4, shl5, shl6, shl7, shr1, shr2, shr3, shr4, shr5, shr6, shr7, andE127, lorD1, lorD2, lorD3, lorD4, lorD5, lorD6, lorD7, lorD8]
        omega
      · simp (disch := omega) only [shl1, shl2, shl3, shl4, shl5, shl6, shl7, shr1, shr2, shr3, shr4, shr5, shr6, shr7, andE127, lorD1, lorD2, lorD3, lorD4, lorD5, lorD6, lorD7, lorD8]
        omega
      · simp (disch := omega) only [shl1, shl2, shl3, shl4, shl5, shl6, shl7, shr1, shr2, shr3, shr4, shr5, shr6, shr7, andE127, lorD1, lorD2, lorD3, lorD4, lorD5, lorD6, lorD7, lorD8]
        omega
      · simp (disch := omega) only [shl1, shl2, shl3, shl4, shl5, shl6, shl7, shr1, shr2, shr3, shr4, shr5, shr6, shr7, andE127, lorD1, lorD2, lorD3, lorD4, lorD5, lorD6, lorD7, lorD8]
        omega
      · simp (disch := omega) only [shl1, shl2, shl3, shl4, shl5, shl6, shl7, shr1, shr2, shr3, shr4, shr5, shr6, shr7, andE127, lorD1, lorD2, lorD3, lorD4, lorD5, lorD6, lorD7, lorD8]
        omega
      · simp (disch := omega) only [shl1, shl2, shl3, shl4, shl5, shl6, shl7, shr1, shr2, shr3, shr4, shr5, shr6, shr7, andE127, lorD1, lorD2, lorD3, lorD4, lorD5, lorD6, lorD7, lorD8]
        omega
      · exact ih rest hrest d hd

theorem unpack_bits7_lt (p : Nat) (src : List Nat) (hb : ∀ x ∈ src, x < 256) :
    ∀ d ∈ unpack_bits7 p src, d < 128 := by
  intro d hd
  have hr : p * 8 % 7 = 0 ∨ p * 8 % 7 = 1 ∨ p * 8 % 7 = 2 ∨ p * 8 % 7 = 3 ∨ p * 8 % 7 = 4 ∨ p * 8 % 7 = 5 ∨ p * 8 % 7 = 6 := by omega
  rcases hr with h | h | h | h | h | h | h
  · rw [unpack_bits7_eq0 p h] at hd
    exact unpack7_rounds_lt _ src hb d hd
  · rcases src with _ | ⟨b0, rest⟩
    · unfold unpack_bits7 at hd
      rw [if_neg (by omega)] at hd <;> try rw [if_neg (by omega)] at hd
      simp [h] at hd
    · have hrest : ∀ x ∈ rest, x < 256 := fun x hx => hb x (by simp [hx])
      have h0 : b0 < 256 := hb b0 (by simp)
      rw [unpack_bits7_eq1 p h] at hd
      simp only [unpack7_entry1, List.cons_append, List.nil_append,
        List.mem_cons] at hd
      rcases hd with rfl | rfl | hd
      · simp (disch := omega) only [shl1, shl2, shl3, shl4, shl5, shl6, shl7, shr1, shr2, shr3, shr4, shr5, shr6, shr7, andE127, lorD1, lorD2, lorD3, lorD4, lorD5, lorD6, lorD7, lorD8]
        omega
      · simp (disch := omega) only [shl1, shl2, shl3, shl4, shl5, shl6, shl7, shr1, shr2, shr3, shr4, shr5, shr6, shr7, andE127, lorD1, lorD2, lorD3, lorD4, lorD5, lorD6, lorD7, lorD8]
        omega
      · exact unpack7_rounds_lt _ rest hrest d hd
  · rcases src with _ | ⟨b0, _ | ⟨b1, rest⟩⟩
    · unfold unpack_bits7 at hd
      rw [if_neg (by omega)] at hd <;> try rw [if_neg (by omega)] at hd
      simp [h] at hd
    · unfold unpack_bits7 at hd
      rw [if_neg (by omega)] at hd <;> try rw [if_neg (by omega)] at hd
      simp [h] at hd
    · have hrest : ∀ x ∈ rest, x < 256 := fun x hx => hb x (by simp [hx])
      have h0 : b0 < 256 := hb b0 (by simp)
      have h1 : b1 < 256 := hb b1 (by simp)
      rw [unpack_bits7_eq2 p h] at hd
      simp only [unpack7_entry2, List.cons_append, List.nil_append,
        List.mem_cons] at hd
      rcases hd with rfl | rfl | rfl | hd
      · simp (disch := omega) only [shl1, shl2, shl3, shl4, shl5, shl6, shl7, shr1, shr2, shr3, shr4, shr5, shr6, shr7, andE127, lorD1, lorD2, lorD3, lorD4, lorD5, lorD6, lorD7, lorD8]
        omega
      · simp (disch := omega) only [shl1, shl2, shl3, shl4, shl5, shl6, shl7, shr1, shr2, shr3, shr4, shr5, shr6, shr7, andE127, lorD1, lorD2, lorD3, lorD4, lorD5, lorD6, lorD7, lorD8]
        omega
      · simp (disch := omega) only [shl1, shl2, shl3, shl4, shl5, shl6, shl7, shr1, shr2, shr3, shr4, shr5, shr6, shr7, andE127, lorD1, lorD2, lorD3, lorD4, lorD5, lorD6, lorD7, lorD8]
        omega
      · exact unpack7_rounds_lt _ rest hrest d hd
  · rcases src with _ | ⟨b0, _ | ⟨b1, _ | ⟨b2, rest⟩⟩⟩
    · unfold unpack_bits7 at hd
      rw [if_neg (by omega)] at hd <;> try rw [if_neg (by omega)] at hd
      simp [h] at hd
    · unfold unpack_bits7 at hd
      rw [if_neg (by omega)] at hd <;> try rw [if_neg (by omega)] at hd
      simp [h] at hd
    · unfold unpack_bits7 at hd
      rw [if_neg (by omega)] at hd <;> try rw [if_neg (by omega)] at hd
      simp [h] at hd
    · have hrest : ∀ x ∈ rest, x < 256 := fun x hx => hb x (by simp [hx])
      have h0 : b0 < 256 := hb b0 (by simp)
      have h1 : b1 < 256 := hb b1 (by simp)
      have h2 : b2 < 256 := hb b2 (by simp)
      rw [unpack_bits7_eq3 p h] at hd
      simp only [unpack7_entry3, List.cons_append, List.nil_append,
        List.mem_cons] at hd
      rcases hd with rfl | rfl | rfl | rfl | hd
      · simp (disch := omega) only [shl1, shl2, shl3, shl4, shl5, shl6, shl7, shr1, shr2, shr3, shr4, shr5, shr6, shr7, andE127, lorD1, lorD2, lorD3, lorD4, lorD5, lorD6, lorD7, lorD8]
        omega
      · simp (disch := omega) only [shl1, shl2, shl3, shl4, shl5, shl6, shl7, shr1, shr2, shr3, shr4, shr5, shr6, shr7, andE127, lorD1, lorD2, lorD3, lorD4, lorD5, lorD6, lorD7, lorD8]
        omega
      · simp (disch := omega) only [shl1, shl2, shl3, shl4, shl5, shl6, shl7, shr1, shr2, shr3, shr4, shr5, shr6, shr7, andE127, lorD1, lorD2, lorD3, lorD4, lorD5, lorD6, lorD7, lorD8]
        omega
      · simp (disch := omega) only [shl1, shl2, shl3, shl4, shl5, shl6, shl7, shr1, shr2, shr3, shr4, shr5, shr6, shr7, andE127, lorD1, lorD2, lorD3, lorD4, lorD5, lorD6, lorD7, lorD8]
        omega
      · exact unpack7_rounds_lt _ rest hrest d hd
  · rcases src with _ | ⟨b0, _ | ⟨b1, _ | ⟨b2, _ | ⟨b3, rest⟩⟩⟩⟩
    · unfold unpack_bits7 at hd
      rw [if_neg (by omega)] at hd <;> try rw [if_neg (by omega)] at hd
      simp [h] at hd
    · unfold unpack_bits7 at hd
      rw [if_neg (by omega)] at hd <;> try rw [if_neg (by omega)] at hd
      simp [h] at hd
    · unfold unpack_bits7 at hd
      rw [if_neg (by omega)] at hd <;> try rw [if_neg (by omega)] at hd
      simp [h] at hd
    · unfold unpack_bits7 at hd
      rw [if_neg (by omega)] at hd <;> try rw [if_neg (by omega)] at hd
      simp [h] at hd
    · have hrest : ∀ x ∈ rest, x < 256 := fun x hx => hb x (by simp [hx])
      have h0 : b0 < 256 := hb b0 (by simp)
      have h1 : b1 < 256 := hb b1 (by simp)
      have h2 : b2 < 256 := hb b2 (by simp)
      have h3 : b3 < 256 := hb b3 (by simp)
      rw [unpack_bits7_eq4 p h] at hd
      simp only [unpack7_entry4, List.cons_append, List.nil_append,
        List.mem_cons] at hd
      rcases hd with rfl | rfl | rfl | rfl | rfl | hd
      · simp (disch := omega) only [shl1, shl2, shl3, shl4, shl5, shl6, shl7, shr1, shr2, shr3, shr4, shr5, shr6, shr7, andE127, lorD1, lorD2, lorD3, lorD4, lorD5, lorD6, lorD7, lorD8]
        omega
      · simp (disch := omega) only [shl1, shl2, shl3, shl4, shl5, shl6, shl7, shr1, shr2, shr3, shr4, shr5, shr6, shr7, andE127, lorD1, lorD2, lorD3, lorD4, lorD5, lorD6, lorD7, lorD8]
        omega
      · simp (disch := omega) only [shl1, shl2, shl3, shl4, shl5, shl6, shl7, shr1, shr2, shr3, shr4, shr5, shr6, shr7, andE127, lorD1, lorD2, lorD3, lorD4, lorD5, lorD6, lorD7, lorD8]
        omega
      · simp (disch := omega) only [shl1, shl2, shl3, shl4, shl5, shl6, shl7, shr1, shr2, shr3, shr4, shr5, shr6, shr7, andE127, lorD1, lorD2, lorD3, lorD4, lorD5, lorD6, lorD7, lorD8]
        omega
      · simp (disch := omega) only [shl1, shl2, shl3, shl4, shl5, shl6, shl7, shr1, shr2, shr3, shr4, shr5, shr6, shr7, andE127, lorD1, lorD2, lorD3, lorD4, lorD5, lorD6, lorD7, lorD8]
        omega
      · exact unpack7_rounds_lt _ rest hrest d hd
  · rcases src with _ | ⟨b0, _ | ⟨b1, _ | ⟨b2, _ | ⟨b3, _ | ⟨b4, rest⟩⟩⟩⟩⟩
    · unfold unpack_bits7 at hd
      rw [if_neg (by omega)] at hd <;> try rw [if_neg (by omega)] at hd
      simp [h] at hd
    · unfold unpack_bits7 at hd
      rw [if_neg (by omega)] at hd <;> try rw [if_neg (by omega)] at hd
      simp [h] at hd
    · unfold unpack_bits7 at hd
      rw [if_neg (by omega)] at hd <;> try rw [if_neg (by omega)] at hd
      simp [h] at hd
    · unfold unpack_bits7 at hd
      rw [if_neg (by omega)] at hd <;> try rw [if_neg (by omega)] at hd
      simp [h] at hd
    · unfold unpack_bits7 at hd
      rw [if_neg (by omega)] at hd <;> try rw [if_neg (by omega)] at hd
      simp [h] at hd
    · have hrest : ∀ x ∈ rest, x < 256 := fun x hx => hb x (by simp [hx])
      have h0 : b0 < 256 := hb b0 (by simp)
      have h1 : b1 < 256 := hb b1 (by simp)
      have h2 : b2 < 256 := hb b2 (by simp)
      have h3 : b3 < 256 := hb b3 (by simp)
      have h4 : b4 < 256 := hb b4 (by simp)
      rw [unpack_bits7_eq5 p h] at hd
      simp only [unpack7_entry5, List.cons_append, List.nil_append,
        List.mem_cons] at hd
      rcases hd with rfl | rfl | rfl | rfl | rfl | rfl | hd
      · simp (disch := omega) only [shl1, shl2, shl3, shl4, shl5, shl6, shl7, shr1, shr2, shr3, shr4, shr5, shr6, shr7, andE127, lorD1, lorD2, lorD3, lorD4, lorD5, lorD6, lorD7, lorD8]
        omega
      · simp (disch := omega) only [shl1, shl2, shl3, shl4, shl5, shl6, shl7, shr1, shr2, shr3, shr4, shr5, shr6, shr7, andE127, lorD1, lorD2, lorD3, lorD4, lorD5, lorD6, lorD7, lorD8]
        omega
      · simp (disch := omega) only [shl1, shl2, shl3, shl4, shl5, shl6, shl7, shr1, shr2, shr3, shr4, shr5, shr6, shr7, andE127, lorD1, lorD2, lorD3, lorD4, lorD5, lorD6, lorD7, lorD8]
        omega
      · simp (disch := omega) only [shl1, shl2, shl3, shl4, shl5, shl6, shl7, shr1, shr2, shr3, shr4, shr5, shr6, shr7, andE127, lorD1, lorD2, lorD3, lorD4, lorD5, lorD6, lorD7, lorD8]
        omega
      · simp (disch := omega) only [shl1, shl2, shl3, shl4, shl5, shl6, shl7, shr1, shr2, shr3, shr4, shr5, shr6, shr7, andE127, lorD1, lorD2, lorD3, lorD4, lorD5, lorD6, lorD7, lorD8]
        omega
      · simp (disch := omega) only [shl1, shl2, shl3, shl4, shl5, shl6, shl7, shr1, shr2, shr3, shr4, shr5, shr6, shr7, andE127, lorD1, lorD2, lorD3, lorD4, lorD5, lorD6, lorD7, lorD8]
        omega
      · exact unpack7_rounds_lt _ rest hrest d hd
  · rcases src with _ | ⟨b0, _ | ⟨b1, _ | ⟨b2, _ | ⟨b3, _ | ⟨b4, _ | ⟨b5, rest⟩⟩⟩⟩⟩⟩
    · unfold unpack_bits7 at hd
      rw [if_neg (by omega)] at hd <;> try rw [if_neg (by omega)] at hd
      simp [h] at hd
    · unfold unpack_bits7 at hd
      rw [if_neg (by omega)] at hd <;> try rw [if_neg (by omega)] at hd
      simp [h] at hd
    · unfold unpack_bits7 at hd
      rw [if_neg (by omega)] at hd <;> try rw [if_neg (by omega)] at hd
      simp [h] at hd
    · unfold unpack_bits7 at hd
      rw [if_neg (by omega)] at hd <;> try rw [if_neg (by omega)] at hd
      simp [h] at hd
    · unfold unpack_bits7 at hd
      rw [if_neg (by omega)] at hd <;> try rw [if_neg (by omega)] at hd
      simp [h] at hd
    · unfold unpack_bits7 at hd
      rw [if_neg (by omega)] at hd <;> try rw [if_neg (by omega)] at hd
      simp [h] at hd
    · have hrest : ∀ x ∈ rest, x < 256 := fun x hx => hb x (by simp [hx])
      have h0 : b0 < 256 := hb b0 (by simp)
      have h1 : b1 < 256 := hb b1 (by simp)
      have h2 : b2 < 256 := hb b2 (by simp)
      have h3 : b3 < 256 := hb b3 (by simp)
      have h4 : b4 < 256 := hb b4 (by simp)
      have h5 : b5 < 256 := hb b5 (by simp)
      rw [unpack_bits7_eq6 p h] at hd
      simp only [unpack7_entry6, List.cons_append, List.nil_append,
        List.mem_cons] at hd
      rcases hd with rfl | rfl | rfl | rfl | rfl | rfl | rfl | hd
      · simp (disch := omega) only [shl1, shl2, shl3, shl4, shl5, shl6, shl7, shr1, shr2, shr3, shr4, shr5, shr6, shr7, andE127, lorD1, lorD2, lorD3, lorD4, lorD5, lorD6, lorD7, lorD8]
        omega
      · simp (disch := omega) only [shl1, shl2, shl3, shl4, shl5, shl6, shl7, shr1, shr2, shr3, shr4, shr5, shr6, shr7, andE127, lorD1, lorD2, lorD3, lorD4, lorD5, lorD6, lorD7, lorD8]
        omega
      · simp (disch := omega) only [shl1, shl2, shl3, shl4, shl5, shl6, shl7, shr1, shr2, shr3, shr4, shr5, shr6, shr7, andE127, lorD1, lorD2, lorD3, lorD4, lorD5, lorD6, lorD7, lorD8]
        omega
      · simp (disch := omega) only [shl1, shl2, shl3, shl4, shl5, shl6, shl7, shr1, shr2, shr3, shr4, shr5, shr6, shr7, andE127, lorD1, lorD2, lorD3, lorD4, lorD5, lorD6, lorD7, lorD8]
        omega
      · simp (disch := omega) only [shl1, shl2, shl3, shl4, shl5, shl6, shl7, shr1, shr2, shr3, shr4, shr5, shr6, shr7, andE127, lorD1, lorD2, lorD3, lorD4, lorD5, lorD6, lorD7, lorD8]
        omega
      · simp (disch := omega) only [shl1, shl2, shl3, shl4, shl5, shl6, shl7, shr1, shr2, shr3, shr4, shr5, shr6, shr7, andE127, lorD1, lorD2, lorD3, lorD4, lorD5, lorD6, lorD7, lorD8]
        omega
      · simp (disch := omega) only [shl1, shl2, shl3, shl4, shl5, shl6, shl7, shr1, shr2, shr3, shr4, shr5, shr6, shr7, andE127, lorD1, lorD2, lorD3, lorD4, lorD5, lorD6, lorD7, lorD8]
        omega
      · exact unpack7_rounds_lt _ rest hrest d hd

theorem unpack_bits7_head (p : Nat) (src : List Nat) (hb : ∀ x ∈ src, x < 256)
    (h0 : p * 8 % 7 ≠ 0) : (unpack_bits7 p src).headD 0 < 2 ^ (p * 8 % 7) := by
  have hr : p * 8 % 7 = 1 ∨ p * 8 % 7 = 2 ∨ p * 8 % 7 = 3 ∨ p * 8 % 7 = 4 ∨ p * 8 % 7 = 5 ∨ p * 8 % 7 = 6 := by omega
  rcases hr with h | h | h | h | h | h
  · rw [h]
    rcases src with _ | ⟨b0, rest⟩
    · simp [unpack_bits7, h]
    · have hB0 : b0 < 256 := hb b0 (by simp)
      rw [unpack_bits7_eq1 p h]
      simp only [unpack7_entry1, List.cons_append, List.nil_append, List.headD]
      simp (disch := omega) only [shl1, shl2, shl3, shl4, shl5, shl6, shl7, shr1, shr2, shr3, shr4, shr5, shr6, shr7, andE127, lorD1, lorD2, lorD3, lorD4, lorD5, lorD6, lorD7, lorD8]
      omega
  · rw [h]
    rcases src with _ | ⟨b0, _ | ⟨b1, rest⟩⟩
    · simp [unpack_bits7, h]
    · simp [unpack_bits7, h]
    · have hB0 : b0 < 256 := hb b0 (by simp)
      rw [unpack_bits7_eq2 p h]
      simp only [unpack7_entry2, List.cons_append, List.nil_append, List.headD]
      simp (disch := omega) only [shl1, shl2, shl3, shl4, shl5, shl6, shl7, shr1, shr2, shr3, shr4, shr5, shr6, shr7, andE127, lorD1, lorD2, lorD3, lorD4, lorD5, lorD6, lorD7, lorD8]
      omega
  · rw [h]
    rcases src with _ | ⟨b0, _ | ⟨b1, _ | ⟨b2, rest⟩⟩⟩
    · simp [unpack_bits7, h]
    · simp [unpack_bits7, h]
    · simp [unpack_bits7, h]
    · have hB0 : b0 < 256 := hb b0 (by simp)
      rw [unpack_bits7_eq3 p h]
      simp only [unpack7_entry3, List.cons_append, List.nil_append, List.headD]
      simp (disch := omega) only [shl1, shl2, shl3, shl4, shl5, shl6, shl7, shr1, shr2, shr3, shr4, shr5, shr6, shr7, andE127, lorD1, lorD2, lorD3, lorD4, lorD5, lorD6, lorD7, lorD8]
      omega
  · rw [h]
    rcases src with _ | ⟨b0, _ | ⟨b1, _ | ⟨b2, _ | ⟨b3, rest⟩⟩⟩⟩
    · simp [unpack_bits7, h]
    · simp [unpack_bits7, h]
    · simp [unpack_bits7, h]
    · simp [unpack_bits7, h]
    · have hB0 : b0 < 256 := hb b0 (by simp)
      rw [unpack_bits7_eq4 p h]
      simp only [unpack7_entry4, List.cons_append, List.nil_append, List.headD]
      simp (disch := omega) only [shl1, shl2, shl3, shl4, shl5, shl6, shl7, shr1, shr2, shr3, shr4, shr5, shr6, shr7, andE127, lorD1, lorD2, lorD3, lorD4, lorD5, lorD6, lorD7, lorD8]
      omega
  · rw [h]
    rcases src with _ | ⟨b0, _ | ⟨b1, _ | ⟨b2, _ | ⟨b3, _ | ⟨b4, rest⟩⟩⟩⟩⟩
    · simp [unpack_bits7, h]
    · simp [unpack_bits7, h]
    · simp [unpack_bits7, h]
    · simp [unpack_bits7, h]
    · simp [unpack_bits7, h]
    · have hB0 : b0 < 256 := hb b0 (by simp)
      rw [unpack_bits7_eq5 p h]
      simp only [unpack7_entry5, List.cons_append, List.nil_append, List.headD]
      simp (disch := omega) only [shl1, shl2, shl3, shl4, shl5, shl6, shl7, shr1, shr2, shr3, shr4, shr5, shr6, shr7, andE127, lorD1, lorD2, lorD3, lorD4, lorD5, lorD6, lorD7, lorD8]
      omega
  · rw [h]
    rcases src with _ | ⟨b0, _ | ⟨b1, _ | ⟨b2, _ | ⟨b3, _ | ⟨b4, _ | ⟨b5, rest⟩⟩⟩⟩⟩⟩
    · simp [unpack_bits7, h]
    · simp [unpack_bits7, h]
    · simp [unpack_bits7, h]
    · simp [unpack_bits7, h]
    · simp [unpack_bits7, h]
    · simp [unpack_bits7, h]
    · have hB0 : b0 < 256 := hb b0 (by simp)
      rw [unpack_bits7_eq6 p h]
      simp only [unpack7_entry6, List.cons_append, List.nil_append, List.headD]
      simp (disch := omega) only [shl1, shl2, shl3, shl4, shl5, shl6, shl7, shr1, shr2, shr3, shr4, shr5, shr6, shr7, andE127, lorD1, lorD2, lorD3, lorD4, lorD5, lorD6, lorD7, lorD8]
      omega

theorem unpack_bits2_lt : ∀ (src : List Nat), (∀ x ∈ src, x < 256) →
    ∀ d ∈ unpack_bits2 src, d < 4 := by
  intro src
  induction src with
  | nil => intro _ d hd; simp [unpack_bits2] at hd
  | cons b rest ih =>
    intro hb d hd
    have hrest : ∀ x ∈ rest, x < 256 := fun x hx => hb x (by simp [hx])
    have h0 : b < 256 := hb b (by simp)
    simp only [unpack_bits2, List.mem_cons] at hd
    rcases hd with rfl | rfl | rfl | rfl | hd
    · simp (disch := omega) only [shl1, shl2, shl3, shl4, shl5, shl6, shl7, shr1, shr2, shr3, shr4, shr5, shr6, shr7, andE3, lorD1, lorD2, lorD3, lorD4, lorD5, lorD6, lorD7, lorD8]
      omega
    · simp (disch := omega) only [shl1, shl2, shl3, shl4, shl5, shl6, shl7, shr1, shr2, shr3, shr4, shr5, shr6, shr7, andE3, lorD1, lorD2, lorD3, lorD4, lorD5, lorD6, lorD7, lorD8]
      omega
    · simp (disch := omega) only [shl1, shl2, shl3, shl4, shl5, shl6, shl7, shr1, shr2, shr3, shr4, shr5, shr6, shr7, andE3, lorD1, lorD2, lorD3, lorD4, lorD5, lorD6, lorD7, lorD8]
      omega
    · simp (disch := omega) only [shl1, shl2, shl3, shl4, shl5, shl6, shl7, shr1, shr2, shr3, shr4, shr5, shr6, shr7, andE3, lorD1, lorD2, lorD3, lorD4, lorD5, lorD6, lorD7, lorD8]
      omega
    · exact ih hrest d hd

theorem unpack_bits4_lt : ∀ (src : List Nat), (∀ x ∈ src, x < 256) →
    ∀ d ∈ unpack_bits4 src, d < 16 := by
  intro src
  induction src with
  | nil => intro _ d hd; simp [unpack_bits4] at hd
  | cons b rest ih =>
    intro hb d hd
    have hrest : ∀ x ∈ rest, x < 256 := fun x hx => hb x (by simp [hx])
    have h0 : b < 256 := hb b (by simp)
    simp only [unpack_bits4, List.mem_cons] at hd
    rcases hd with rfl | rfl | hd
    · simp (disch := omega) only [shl1, shl2, shl3, shl4, shl5, shl6, shl7, shr1, shr2, shr3, shr4, shr5, shr6, shr7, andE15, lorD1, lorD2, lorD3, lorD4, lorD5, lorD6, lorD7, lorD8]
      omega
    · simp (disch := omega) only [shl1, shl2, shl3, shl4, shl5, shl6, shl7, shr1, shr2, shr3, shr4, shr5, shr6, shr7, andE15, lorD1, lorD2, lorD3, lorD4, lorD5, lorD6, lorD7, lorD8]
      omega
    · exact ih hrest d hd

/-! ### Helper wrappers for the digit-to-byte direction at B = 2 and B = 4 -/

theorem unpack_pack_bits2_full (p : Nat) (src : List Nat)
    (hlen : src.length = bit_packer_unpacked_bytes 2 p) (hd : ∀ x ∈ src, x < 4) :
    unpack_bits2 (pack_bits2 src) = src :=
  unpack2_of_pack p src
    (by rw [hlen, bit_packer_unpacked_bytes, if_neg (by omega)]; omega) hd

theorem unpack_pack_bits4_full (p : Nat) (src : List Nat)
    (hlen : src.length = bit_packer_unpacked_bytes 4 p) (hd : ∀ x ∈ src, x < 16) :
    unpack_bits4 (pack_bits4 src) = src :=
  unpack4_of_pack p src
    (by rw [hlen, bit_packer_unpacked_bytes, if_neg (by omega)]; omega) hd

/-! ### Claim theorems about the bit packer -/

/-- C2: for every bits-per-digit B in [2,7] and every byte array `x` of the
fixed packed size P of the instantiation, packing the digits obtained by
unpacking `x` reproduces `x` exactly: `pack_bits (unpack_bits x) = x`.
Stated for every packed size `p` of each of the six template instantiations
(`bit_packer<2,p>` .. `bit_packer<7,p>`); bytes are arbitrary `uint8_t`
values, i.e. naturals below 256. -/
theorem C2_pack_of_unpack_roundtrip :
    (∀ src : List Nat, (∀ x ∈ src, x < 256) → pack_bits2 (unpack_bits2 src) = src) ∧
    (∀ (p : Nat) (src : List Nat), src.length = p → (∀ x ∈ src, x < 256) →
      pack_bits3 p (unpack_bits3 p src) = src) ∧
    (∀ src : List Nat, (∀ x ∈ src, x < 256) → pack_bits4 (unpack_bits4 src) = src) ∧
    (∀ (p : Nat) (src : List Nat), src.length = p → (∀ x ∈ src, x < 256) →
      pack_bits5 p (unpack_bits5 p src) = src) ∧
    (∀ (p : Nat) (src : List Nat), src.length = p → (∀ x ∈ src, x < 256) →
      pack_bits6 p (unpack_bits6 p src) = src) ∧
    (∀ (p : Nat) (src : List Nat), src.length = p → (∀ x ∈ src, x < 256) →
      pack_bits7 p (unpack_bits7 p src) = src) :=
  ⟨pack_unpack_bits2_full, pack_unpack_bits3_full, pack_unpack_bits4_full,
   pack_unpack_bits5_full, pack_unpack_bits6_full, pack_unpack_bits7_full⟩

/-- C2 witness: the round-trip theorem applied at concrete byte arrays for
each of the six instantiations. -/
theorem C2_pack_of_unpack_roundtrip_witness :
    pack_bits2 (unpack_bits2 [171]) = [171] ∧
    pack_bits3 1 (unpack_bits3 1 [171]) = [171] ∧
    pack_bits4 (unpack_bits4 [171]) = [171] ∧
    pack_bits5 1 (unpack_bits5 1 [171]) = [171] ∧
    pack_bits6 1 (unpack_bits6 1 [171]) = [171] ∧
    pack_bits7 1 (unpack_bits7 1 [171]) = [171] :=
  ⟨C2_pack_of_unpack_roundtrip.1 [171] (by decide),
   C2_pack_of_unpack_roundtrip.2.1 1 [171] rfl (by decide),
   C2_pack_of_unpack_roundtrip.2.2.1 [171] (by decide),
   C2_pack_of_unpack_roundtrip.2.2.2.1 1 [171] rfl (by decide),
   C2_pack_of_unpack_roundtrip.2.2.2.2.1 1 [171] rfl (by decide),
   C2_pack_of_unpack_roundtrip.2.2.2.2.2 1 [171] rfl (by decide)⟩

/-- C7 counterexample: the claim requires only that the LAST digit's padding
bits be zero, but the code pads the FIRST digit (the remainder handling of
`bit_packer_impl` puts the partial digit first).  For `bit_packer<5,1>` the
digit array `[8, 0]` has all digits below 32 and its last digit is zero, yet
`unpack_bits (pack_bits [8, 0]) = [0, 0] ≠ [8, 0]`: the first digit 8 needs
4 bits while `8*1 mod 5 = 3` leaves it only 3, so `pack_bits` drops its top
bit. -/
theorem C7_counterexample :
    (∀ x ∈ [8, 0], x < 32) ∧ ([8, 0] : List Nat).length = bit_packer_unpacked_bytes 5 1 ∧
    unpack_bits5 1 (pack_bits5 1 [8, 0]) = [0, 0] ∧
    unpack_bits5 1 (pack_bits5 1 [8, 0]) ≠ [8, 0] := by decide

/-- C7 (amended): for every bits-per-digit B in [2,7], unpacking the bytes
obtained by packing a digit array reproduces that array, for every digit
array of the fixed unpacked size whose digits are all below 2^B and whose
FIRST digit's padding bits are zero (the first digit is the partial one when
`p*8 mod B ≠ 0`; for B = 2 and B = 4 nothing is partial). -/
theorem C7_unpack_of_pack_roundtrip :
    (∀ (p : Nat) (src : List Nat), src.length = bit_packer_unpacked_bytes 2 p →
      (∀ x ∈ src, x < 4) → unpack_bits2 (pack_bits2 src) = src) ∧
    (∀ (p : Nat) (src : List Nat), src.length = bit_packer_unpacked_bytes 3 p →
      (∀ x ∈ src, x < 8) → (p * 8 % 3 = 0 ∨ src.headD 0 < 2 ^ (p * 8 % 3)) →
      unpack_bits3 p (pack_bits3 p src) = src) ∧
    (∀ (p : Nat) (src : List Nat), src.length = bit_packer_unpacked_bytes 4 p →
      (∀ x ∈ src, x < 16) → unpack_bits4 (pack_bits4 src) = src) ∧
    (∀ (p : Nat) (src : List Nat), src.length = bit_packer_unpacked_bytes 5 p →
      (∀ x ∈ src, x < 32) → (p * 8 % 5 = 0 ∨ src.headD 0 < 2 ^ (p * 8 % 5)) →
      unpack_bits5 p (pack_bits5 p src) = src) ∧
    (∀ (p : Nat) (src : List Nat), src.length = bit_packer_unpacked_bytes 6 p →
      (∀ x ∈ src, x < 64) → (p * 8 % 6 = 0 ∨ src.headD 0 < 2 ^ (p * 8 % 6)) →
      unpack_bits6 p (pack_bits6 p src) = src) ∧
    (∀ (p : Nat) (src : List Nat), src.length = bit_packer_unpacked_bytes 7 p →
      (∀ x ∈ src, x < 128) → (p * 8 % 7 = 0 ∨ src.headD 0 < 2 ^ (p * 8 % 7)) →
      unpack_bits7 p (pack_bits7 p src) = src) :=
  ⟨unpack_pack_bits2_full, unpack_pack_bits3_full, unpack_pack_bits4_full,
   unpack_pack_bits5_full, unpack_pack_bits6_full, unpack_pack_bits7_full⟩

/-- C7 witness: the amended round-trip applied at concrete digit arrays. -/
theorem C7_unpack_of_pack_roundtrip_witness :
    unpack_bits2 (pack_bits2 [3, 2, 1, 0]) = [3, 2, 1, 0] ∧
    unpack_bits3 1 (pack_bits3 1 [1, 7, 5]) = [1, 7, 5] ∧
    unpack_bits4 (pack_bits4 [15, 9]) = [15, 9] ∧
    unpack_bits5 1 (pack_bits5 1 [7, 31]) = [7, 31] ∧
    unpack_bits6 1 (pack_bits6 1 [3, 63]) = [3, 63] ∧
    unpack_bits7 1 (pack_bits7 1 [1, 127]) = [1, 127] :=
  ⟨C7_unpack_of_pack_roundtrip.1 1 [3, 2, 1, 0] (by decide) (by decide),
   C7_unpack_of_pack_roundtrip.2.1 1 [1, 7, 5] (by decide) (by decide) (Or.inr (by decide)),
   C7_unpack_of_pack_roundtrip.2.2.1 1 [15, 9] (by decide) (by decide),
   C7_unpack_of_pack_roundtrip.2.2.2.1 1 [7, 31] (by decide) (by decide) (Or.inr (by decide)),
   C7_unpack_of_pack_roundtrip.2.2.2.2.1 1 [3, 63] (by decide) (by decide) (Or.inr (by decide)),
   C7_unpack_of_pack_roundtrip.2.2.2.2.2 1 [1, 127] (by decide) (by decide) (Or.inr (by decide))⟩

/-- C9: for `bit_packer<5, 16>` (the ULID payload) the unpacked digit count
is 26 = ceil(16*8/5); unpacking 16 zero bytes yields 26 zero digits; and
unpacking 16 bytes of all 1-bits yields first digit 7 (so at most 7, the
documented ULID top-digit constraint) and the remaining 25 digits all 31. -/
theorem C9_ulid_payload_unpack :
    bit_packer_unpacked_bytes 5 16 = 26 ∧
    unpack_bits5 16 (List.replicate 16 0) = List.replicate 26 0 ∧
    unpack_bits5 16 (List.replicate 16 255) = 7 :: List.replicate 25 31 ∧
    (unpack_bits5 16 (List.replicate 16 255)).headD 0 ≤ 7 := by decide

/-- C10: for every bits-per-digit B in [2,7] and every byte-array input,
every digit produced by `unpack_bits` is below 2^B, and when `p*8 mod B` is
nonzero the first digit is below `2 ^ (p*8 mod B)` (its padding bits are
already zero). -/
theorem C10_unpack_digit_bounds :
    (∀ src : List Nat, (∀ x ∈ src, x < 256) → ∀ d ∈ unpack_bits2 src, d < 4) ∧
    (∀ (p : Nat) (src : List Nat), (∀ x ∈ src, x < 256) →
      (∀ d ∈ unpack_bits3 p src, d < 8) ∧
      (p * 8 % 3 ≠ 0 → (unpack_bits3 p src).headD 0 < 2 ^ (p * 8 % 3))) ∧
    (∀ src : List Nat, (∀ x ∈ src, x < 256) → ∀ d ∈ unpack_bits4 src, d < 16) ∧
    (∀ (p : Nat) (src : List Nat), (∀ x ∈ src, x < 256) →
      (∀ d ∈ unpack_bits5 p src, d < 32) ∧
      (p * 8 % 5 ≠ 0 → (unpack_bits5 p src).headD 0 < 2 ^ (p * 8 % 5))) ∧
    (∀ (p : Nat) (src : List Nat), (∀ x ∈ src, x < 256) →
      (∀ d ∈ unpack_bits6 p src, d < 64) ∧
      (p * 8 % 6 ≠ 0 → (unpack_bits6 p src).headD 0 < 2 ^ (p * 8 % 6))) ∧
    (∀ (p : Nat) (src : List Nat), (∀ x ∈ src, x < 256) →
      (∀ d ∈ unpack_bits7 p src, d < 128) ∧
      (p * 8 % 7 ≠ 0 → (unpack_bits7 p src).headD 0 < 2 ^ (p * 8 % 7))) :=
  ⟨unpack_bits2_lt,
   fun p src hb => ⟨unpack_bits3_lt p src hb, fun h => unpack_bits3_head p src hb h⟩,
   unpack_bits4_lt,
   fun p src hb => ⟨unpack_bits5_lt p src hb, fun h => unpack_bits5_head p src hb h⟩,
   fun p src hb => ⟨unpack_bits6_lt p src hb, fun h => unpack_bits6_head p src hb h⟩,
   fun p src hb => ⟨unpack_bits7_lt p src hb, fun h => unpack_bits7_head p src hb h⟩⟩

/-- C10 witness: the digit bounds applied at a concrete input for each B. -/
theorem C10_unpack_digit_bounds_witness :
    (∀ d ∈ unpack_bits2 [255], d < 4) ∧
    (∀ d ∈ unpack_bits3 1 [255], d < 8) ∧
    ((8 : Nat) % 3 ≠ 0 → (unpack_bits3 1 [255]).headD 0 < 2 ^ (8 % 3)) ∧
    (∀ d ∈ unpack_bits4 [255], d < 16) ∧
    (∀ d ∈ unpack_bits5 1 [255], d < 32) ∧
    ((8 : Nat) % 5 ≠ 0 → (unpack_bits5 1 [255]).headD 0 < 2 ^ (8 % 5)) ∧
    (∀ d ∈ unpack_bits6 1 [255], d < 64) ∧
    (∀ d ∈ unpack_bits7 1 [255], d < 128) :=
  ⟨C10_unpack_digit_bounds.1 [255] (by decide),
   (C10_unpack_digit_bounds.2.1 1 [255] (by decide)).1,
   fun h => (C10_unpack_digit_bounds.2.1 1 [255] (by decide)).2 (by omega),
   C10_unpack_digit_bounds.2.2.1 [255] (by decide),
   (C10_unpack_digit_bounds.2.2.2.1 1 [255] (by decide)).1,
   fun h => (C10_unpack_digit_bounds.2.2.2.1 1 [255] (by decide)).2 (by omega),
   (C10_unpack_digit_bounds.2.2.2.2.1 1 [255] (by decide)).1,
   (C10_unpack_digit_bounds.2.2.2.2.2 1 [255] (by decide)).1⟩


/-! ## Clock arbitration model (`src/clocks.cpp`)

The three clock states share the rounding of the raw reading to the
`m_max_adjustment` boundary.  A reading `now` is a tick count of the
variant's `MaxUnitDuration` (the order-preserving
`round<MaxUnitDuration>(system_clock::now())` of the source); all
reachable readings are non-negative, so `Nat` division matches the C++
integer division on duration counts.  `adjust` returning `false` in the
source ("caller must wait and retry") is modelled as `none`.  Where the
source draws from `std::uniform_int_distribution`, the model takes the
drawn value as an explicit oracle argument. -/

/-- Rounding of the quantized reading down to the `m_max_adjustment`
boundary, shared by the three `adjust` members:
`val = (val / m_max_adjustment) * m_max_adjustment` when
`m_max_adjustment != 0`. -/
def round_to_max_adjustment (maxAdj t : Nat) : Nat :=
  if maxAdj ≠ 0 then t / maxAdj * maxAdj else t

/-- Data members of `non_repeatable_clock_state` (with the
`clock_state_base` members it uses): `m_last_time` in max-unit ticks,
`m_adjustment`, the per-process constant `m_max_adjustment`, and the
14-bit `m_clock_seq`. -/
structure NonRepeatableClockState where
  m_last_time : Nat
  m_adjustment : Nat
  m_max_adjustment : Nat
  m_clock_seq : Nat
deriving DecidableEq

/-- `non_repeatable_clock_state::adjust`.  Returns `none` for
`return false` (same tick and the adjustment budget is exhausted), else
the new state together with the returned `adjusted` time and
`clock_seq`. -/
def non_repeatable_adjust (s : NonRepeatableClockState) (now : Nat) :
    Option (NonRepeatableClockState × Nat × Nat) :=
  let adjusted := round_to_max_adjustment s.m_max_adjustment now
  if adjusted < s.m_last_time then
    let s1 : NonRepeatableClockState :=
      { s with m_clock_seq := (s.m_clock_seq + 1) &&& 0x3FFF,
               m_adjustment := 0, m_last_time := adjusted }
    some (s1, adjusted + s1.m_adjustment, s1.m_clock_seq)
  else if adjusted = s.m_last_time then
    if s.m_adjustment ≥ s.m_max_adjustment then none
    else
      let s1 : NonRepeatableClockState := { s with m_adjustment := s.m_adjustment + 1 }
      some (s1, adjusted + s1.m_adjustment, s1.m_clock_seq)
  else
    let s1 : NonRepeatableClockState := { s with m_adjustment := 0, m_last_time := adjusted }
    some (s1, adjusted + s1.m_adjustment, s1.m_clock_seq)

/-- `next_distinct_now(prev)`: spin until the clock returns a reading
different from `prev`.  The busy loop is modelled over the stream of raw
samples the clock will produce; `none` means the (finite) modelled stream
ran out. -/
def next_distinct_now (prev : Nat) : List Nat → Option (Nat × List Nat)
  | [] => none
  | n :: rest => if n ≠ prev then some (n, rest) else next_distinct_now prev rest

theorem next_distinct_now_length (prev : Nat) :
    ∀ (l : List Nat) (n : Nat) (rest : List Nat),
      next_distinct_now prev l = some (n, rest) → rest.length < l.length := by
  intro l
  induction l with
  | nil => intro n rest h; simp [next_distinct_now] at h
  | cons a t ih =>
    intro n rest h
    by_cases ha : a ≠ prev
    · rw [next_distinct_now, if_pos ha] at h
      simp only [Option.some.injEq, Prod.mk.injEq] at h
      rw [← h.2]
      simp
    · rw [next_distinct_now, if_neg ha] at h
      have := ih n rest h
      simp
      omega

/-- The reading delivered by `next_distinct_now` differs from `prev`. -/
theorem next_distinct_now_ne (prev : Nat) :
    ∀ (l : List Nat) (n : Nat) (rest : List Nat),
      next_distinct_now prev l = some (n, rest) → n ≠ prev := by
  intro l
  induction l with
  | nil => intro n rest h; simp [next_distinct_now] at h
  | cons a t ih =>
    intro n rest h
    by_cases ha : a ≠ prev
    · rw [next_distinct_now, if_pos ha] at h
      simp only [Option.some.injEq, Prod.mk.injEq] at h
      rw [← h.1]
      exact ha
    · rw [next_distinct_now, if_neg ha] at h
      exact ih n rest h

/-- `non_repeatable_clock_state::get`: try `adjust` with the current
reading and, while it fails, wait for the next distinct reading and
retry.  `clock` is the stream of raw samples after `now`. -/
def non_repeatable_get (s : NonRepeatableClockState) (now : Nat) (clock : List Nat) :
    Option (NonRepeatableClockState × Nat × Nat) :=
  match non_repeatable_adjust s now with
  | some r => some r
  | none =>
    match h : next_distinct_now now clock with
    | none => none
    | some (n, rest) => non_repeatable_get s n rest
termination_by clock.length
decreasing_by exact next_distinct_now_length now clock n rest h

/-- Data members of `monotonic_clock_state`. -/
structure MonotonicClockState where
  m_last_time : Nat
  m_adjustment : Nat
  m_max_adjustment : Nat
  m_clock_seq : Nat
deriving DecidableEq

/-- `monotonic_clock_state::adjust`.  `rand` is the oracle value that
`clock_seq_distrib(gen)` (uniform on [0, 0x3FFF/2]) would return where
the source draws one; `after_wait` mirrors the flag passed by `get`.
`none` models `return false` (the 14-bit clock sequence wrapped). -/
def monotonic_adjust (s : MonotonicClockState) (now rand : Nat) (after_wait : Bool) :
    Option (MonotonicClockState × Nat × Nat) :=
  let adjusted := round_to_max_adjustment s.m_max_adjustment now
  if adjusted < s.m_last_time then
    let s1 : MonotonicClockState :=
      { s with m_clock_seq := rand, m_adjustment := 0, m_last_time := adjusted }
    some (s1, adjusted + s1.m_adjustment, s1.m_clock_seq)
  else if adjusted = s.m_last_time then
    if s.m_adjustment ≥ s.m_max_adjustment then
      let new_clock_seq := (s.m_clock_seq + 1) &&& 0x3FFF
      if new_clock_seq = 0 then none
      else
        let s1 : MonotonicClockState := { s with m_clock_seq := new_clock_seq }
        some (s1, adjusted + s1.m_adjustment, s1.m_clock_seq)
    else
      let s1 : MonotonicClockState := { s with m_adjustment := s.m_adjustment + 1 }
      some (s1, adjusted + s1.m_adjustment, s1.m_clock_seq)
  else
    let s1 : MonotonicClockState :=
      if after_wait then
        { s with m_adjustment := 0, m_last_time := adjusted, m_clock_seq := rand }
      else { s with m_adjustment := 0, m_last_time := adjusted }
    some (s1, adjusted + s1.m_adjustment, s1.m_clock_seq)

/-- The `do { now = next_distinct_now(now); } while (!adjust(now, true))`
loop of `monotonic_clock_state::get`.  `rands` is the stream of oracle
values for the distribution draws, one consumed per attempt. -/
def monotonic_get_wait (s : MonotonicClockState) (now : Nat) (clock rands : List Nat) :
    Option (MonotonicClockState × Nat × Nat) :=
  match h : next_distinct_now now clock with
  | none => none
  | some (n, rest) =>
    match monotonic_adjust s n (rands.headD 0) true with
    | some r => some r
    | none => monotonic_get_wait s n rest rands.tail
termination_by clock.length
decreasing_by exact next_distinct_now_length now clock n rest h

/-- `monotonic_clock_state::get`: one `adjust(now, false)` attempt, then
the waiting loop on failure. -/
def monotonic_get (s : MonotonicClockState) (now : Nat) (clock rands : List Nat) :
    Option (MonotonicClockState × Nat × Nat) :=
  match monotonic_adjust s now (rands.headD 0) false with
  | some r => some r
  | none => monotonic_get_wait s now clock rands.tail

/-- Data members of `ulid_clock_state`: times in milliseconds, and the
80-bit random tail split as `tail_t` does into a `uint64_t` low part and
a `uint16_t` high part. -/
structure UlidClockState where
  m_last_time : Nat
  m_adjustment : Nat
  m_max_adjustment : Nat
  m_tail_low : Nat
  m_tail_high : Nat
deriving DecidableEq

/-- `tail_t::increment`: `if (++low == 0) ++high;` with `uint64_t` and
`uint16_t` wraparound. -/
def tail_increment (low high : Nat) : Nat × Nat :=
  let low1 := (low + 1) % 2 ^ 64
  if low1 = 0 then (low1, (high + 1) % 2 ^ 16) else (low1, high)

/-- `ulid_clock_state::adjust`.  Total: this variant never asks the
caller to wait.  `randLow`/`randHigh` are the oracle values a
`tail_t::fill_random()` call would store.  Returns the new state and the
adjusted time. -/
def ulid_adjust (s : UlidClockState) (now randLow randHigh : Nat) : UlidClockState × Nat :=
  let adjusted := round_to_max_adjustment s.m_max_adjustment now
  let s1 : UlidClockState :=
    if adjusted < s.m_last_time then
      { s with m_tail_low := randLow, m_tail_high := randHigh,
               m_adjustment := 0, m_last_time := adjusted }
    else if adjusted = s.m_last_time then
      if s.m_adjustment ≥ s.m_max_adjustment then
        { s with m_tail_low := (tail_increment s.m_tail_low s.m_tail_high).1,
                 m_tail_high := (tail_increment s.m_tail_low s.m_tail_high).2 }
      else
        { s with m_adjustment := s.m_adjustment + 1,
                 m_tail_low := randLow, m_tail_high := randHigh }
    else
      { s with m_adjustment := 0, m_last_time := adjusted,
               m_tail_low := randLow, m_tail_high := randHigh }
  (s1, round_to_max_adjustment s.m_max_adjustment now + s1.m_adjustment)

/-- `ulid_clock_state::get` calls `adjust` exactly once: there is no
retry loop, so a ULID `get` never waits for the clock. -/
def ulid_get (s : UlidClockState) (now randLow randHigh : Nat) : UlidClockState × Nat :=
  ulid_adjust s now randLow randHigh

/-! ## Persistence call traces (`clock_state_base`)

`clock_state_base::set_persistence` and `clock_state_base::mutate` are
the only places that call `per_thread::load` and `per_thread::store`
through `persistence_holder`.  The traces below record, for a state
whose per-thread handle is present, which calls one `set_persistence`
followed by `n` `get()` calls performs.  `load_once` is the
`Derived::load_once` constant (`true` for the UUID v1/v6/v7 states,
`false` for `ulid_clock_state`); `load_found` is what the backend's
`load` returns on the initial read. -/

/-- Persistence callback events observable by a backend. -/
inductive PersistenceCall where
  | load : PersistenceCall
  | store : PersistenceCall
deriving DecidableEq

/-- Calls made by one `clock_state_base::mutate` (the body of every
`get()`): for `load_once` states only the final `save`; for the ULID
state a `load` on every call followed by the `save`. -/
def mutate_calls (load_once : Bool) : List PersistenceCall :=
  (if load_once then [] else [PersistenceCall.load]) ++ [PersistenceCall.store]

/-- Calls made by `set_persistence` when a fresh handle is installed: the
`load_once` branch loads once and stores the seeded record if nothing was
found; the other branch (`ulid_clock_state`) performs no persistence
calls ("do not save!"). -/
def set_persistence_calls (load_once handle_changed initialized load_found : Bool) :
    List PersistenceCall :=
  if load_once then
    if handle_changed || !initialized then
      if load_found then [PersistenceCall.load]
      else [PersistenceCall.load, PersistenceCall.store]
    else []
  else []

/-- Full call trace on one per-thread handle: `set_persistence` on a
fresh, uninitialised state followed by `n` `get()` calls. -/
def clock_state_calls (load_once load_found : Bool) (n : Nat) : List PersistenceCall :=
  set_persistence_calls load_once true false load_found ++
    (List.replicate n (mutate_calls load_once)).join




theorem non_repeatable_adjust_lex (s : NonRepeatableClockState) (now : Nat)
    (hq : s.m_last_time ≤ round_to_max_adjustment s.m_max_adjustment now)
    (s' : NonRepeatableClockState) (t q : Nat)
    (h : non_repeatable_adjust s now = some (s', t, q)) :
    s.m_last_time < s'.m_last_time ∨
      (s.m_last_time = s'.m_last_time ∧ s.m_adjustment < s'.m_adjustment) := by
  by_cases h1 : round_to_max_adjustment s.m_max_adjustment now < s.m_last_time
  · omega
  by_cases h2 : round_to_max_adjustment s.m_max_adjustment now = s.m_last_time
  · by_cases h3 : s.m_adjustment ≥ s.m_max_adjustment
    · simp only [non_repeatable_adjust, if_neg h1, if_pos h2, if_pos h3] at h
      exact absurd h (by simp)
    · simp only [non_repeatable_adjust, if_neg h1, if_pos h2, if_neg h3,
        Option.some.injEq, Prod.mk.injEq] at h
      obtain ⟨hs, -, -⟩ := h
      subst hs
      exact Or.inr ⟨rfl, Nat.lt_succ_self _⟩
  · simp only [non_repeatable_adjust, if_neg h1, if_neg h2,
      Option.some.injEq, Prod.mk.injEq] at h
    obtain ⟨hs, -, -⟩ := h
    subst hs
    left
    show s.m_last_time < round_to_max_adjustment s.m_max_adjustment now
    omega

theorem monotonic_adjust_lex (s : MonotonicClockState) (now rand : Nat) (aw : Bool)
    (hq : s.m_last_time ≤ round_to_max_adjustment s.m_max_adjustment now)
    (hseq : s.m_clock_seq ≤ 0x3FFF)
    (s' : MonotonicClockState) (t q : Nat)
    (h : monotonic_adjust s now rand aw = some (s', t, q)) :
    s.m_last_time < s'.m_last_time ∨
      (s.m_last_time = s'.m_last_time ∧ s.m_adjustment < s'.m_adjustment) ∨
      (s.m_last_time = s'.m_last_time ∧ s.m_adjustment = s'.m_adjustment ∧
        s.m_clock_seq < s'.m_clock_seq) := by
  by_cases h1 : round_to_max_adjustment s.m_max_adjustment now < s.m_last_time
  · omega
  by_cases h2 : round_to_max_adjustment s.m_max_adjustment now = s.m_last_time
  · by_cases h3 : s.m_adjustment ≥ s.m_max_adjustment
    · by_cases h4 : (s.m_clock_seq + 1) &&& 0x3FFF = 0
      · simp only [monotonic_adjust, if_neg h1, if_pos h2, if_pos h3, if_pos h4] at h
        exact absurd h (by simp)
      · simp only [monotonic_adjust, if_neg h1, if_pos h2, if_pos h3, if_neg h4,
          Option.some.injEq, Prod.mk.injEq] at h
        obtain ⟨hs, -, -⟩ := h
        subst hs
        refine Or.inr (Or.inr ⟨rfl, rfl, ?_⟩)
        show s.m_clock_seq < (s.m_clock_seq + 1) &&& 0x3FFF
        rw [andE16383] at h4 ⊢
        omega
    · simp only [monotonic_adjust, if_neg h1, if_pos h2, if_neg h3,
        Option.some.injEq, Prod.mk.injEq] at h
      obtain ⟨hs, -, -⟩ := h
      subst hs
      exact Or.inr (Or.inl ⟨rfl, Nat.lt_succ_self _⟩)
  · cases aw <;>
      simp only [monotonic_adjust, if_neg h1, if_neg h2, Bool.false_eq_true, if_neg, if_pos,
        Option.some.injEq, Prod.mk.injEq, ite_true, ite_false] at h <;>
      obtain ⟨hs, -, -⟩ := h <;>
      subst hs <;>
      exact Or.inl (by show s.m_last_time < round_to_max_adjustment s.m_max_adjustment now; omega)

theorem non_repeatable_get_adjust_some (s : NonRepeatableClockState) (now : Nat)
    (clock : List Nat) (r : NonRepeatableClockState × Nat × Nat)
    (h : non_repeatable_adjust s now = some r) :
    non_repeatable_get s now clock = some r := by
  rw [non_repeatable_get, h]

theorem non_repeatable_get_adjust_none_step (s : NonRepeatableClockState) (now : Nat)
    (clock : List Nat) (n : Nat) (rest : List Nat)
    (hadj : non_repeatable_adjust s now = none)
    (hndn : next_distinct_now now clock = some (n, rest)) :
    non_repeatable_get s now clock = non_repeatable_get s n rest := by
  rw [non_repeatable_get, hadj]
  split
  · rename_i heq
    cases heq
  · split
    · rename_i heq
      rw [hndn] at heq
      cases heq
    · rename_i n2 rest2 heq
      rw [hndn] at heq
      simp only [Option.some.injEq, Prod.mk.injEq] at heq
      obtain ⟨ha, hb⟩ := heq
      subst ha
      subst hb
      rfl

theorem non_repeatable_get_adjust_none_end (s : NonRepeatableClockState) (now : Nat)
    (clock : List Nat)
    (hadj : non_repeatable_adjust s now = none)
    (hndn : next_distinct_now now clock = none) :
    non_repeatable_get s now clock = none := by
  rw [non_repeatable_get, hadj]
  split
  · rename_i heq
    cases heq
  · split
    · rfl
    · rename_i n2 rest2 heq
      rw [hndn] at heq
      cases heq

theorem next_distinct_now_mem (prev : Nat) :
    ∀ (l : List Nat) (n : Nat) (rest : List Nat),
      next_distinct_now prev l = some (n, rest) → n ∈ l ∧ ∀ x ∈ rest, x ∈ l := by
  intro l
  induction l with
  | nil => intro n rest h; simp [next_distinct_now] at h
  | cons a t ih =>
    intro n rest h
    by_cases ha : a ≠ prev
    · rw [next_distinct_now, if_pos ha] at h
      simp only [Option.some.injEq, Prod.mk.injEq] at h
      obtain ⟨h1, h2⟩ := h
      subst h1
      subst h2
      exact ⟨by simp, fun x hx => by simp [hx]⟩
    · rw [next_distinct_now, if_neg ha] at h
      obtain ⟨h1, h2⟩ := ih n rest h
      exact ⟨by simp [h1], fun x hx => by simp [h2 x hx]⟩

theorem monotonic_get_wait_end (s : MonotonicClockState) (now : Nat) (clock rands : List Nat)
    (hndn : next_distinct_now now clock = none) :
    monotonic_get_wait s now clock rands = none := by
  rw [monotonic_get_wait]
  split
  · rfl
  · rename_i n2 rest2 heq
    rw [hndn] at heq
    cases heq

theorem monotonic_get_wait_some (s : MonotonicClockState) (now : Nat) (clock rands : List Nat)
    (n : Nat) (rest : List Nat) (r : MonotonicClockState × Nat × Nat)
    (hndn : next_distinct_now now clock = some (n, rest))
    (hadj : monotonic_adjust s n (rands.headD 0) true = some r) :
    monotonic_get_wait s now clock rands = some r := by
  rw [monotonic_get_wait]
  split
  · rename_i heq
    rw [hndn] at heq
    cases heq
  · rename_i n2 rest2 heq
    rw [hndn] at heq
    simp only [Option.some.injEq, Prod.mk.injEq] at heq
    obtain ⟨ha, hb⟩ := heq
    subst ha
    subst hb
    rw [hadj]

theorem monotonic_get_wait_step (s : MonotonicClockState) (now : Nat) (clock rands : List Nat)
    (n : Nat) (rest : List Nat)
    (hndn : next_distinct_now now clock = some (n, rest))
    (hadj : monotonic_adjust s n (rands.headD 0) true = none) :
    monotonic_get_wait s now clock rands = monotonic_get_wait s n rest rands.tail := by
  rw [monotonic_get_wait]
  split
  · rename_i heq
    rw [hndn] at heq
    cases heq
  · rename_i n2 rest2 heq
    rw [hndn] at heq
    simp only [Option.some.injEq, Prod.mk.injEq] at heq
    obtain ⟨ha, hb⟩ := heq
    subst ha
    subst hb
    rw [hadj]

theorem non_repeatable_get_lex :
    ∀ (N : Nat) (clock : List Nat), clock.length ≤ N →
    ∀ (s : NonRepeatableClockState) (now : Nat),
      s.m_last_time ≤ round_to_max_adjustment s.m_max_adjustment now →
      (∀ n ∈ clock, s.m_last_time ≤ round_to_max_adjustment s.m_max_adjustment n) →
      ∀ (s' : NonRepeatableClockState) (t q : Nat),
        non_repeatable_get s now clock = some (s', t, q) →
        s.m_last_time < s'.m_last_time ∨
          (s.m_last_time = s'.m_last_time ∧ s.m_adjustment < s'.m_adjustment) := by
  intro N
  induction N with
  | zero =>
    intro clock hlen s now hq hclock s' t q h
    rcases hadj : non_repeatable_adjust s now with _ | r
    · rcases hndn : next_distinct_now now clock with _ | ⟨n, rest⟩
      · rw [non_repeatable_get_adjust_none_end s now clock hadj hndn] at h
        cases h
      · have := next_distinct_now_length now clock n rest hndn
        omega
    · rw [non_repeatable_get_adjust_some s now clock r hadj] at h
      simp only [Option.some.injEq] at h
      subst h
      exact non_repeatable_adjust_lex s now hq s' t q hadj
  | succ N ih =>
    intro clock hlen s now hq hclock s' t q h
    rcases hadj : non_repeatable_adjust s now with _ | r
    · rcases hndn : next_distinct_now now clock with _ | ⟨n, rest⟩
      · rw [non_repeatable_get_adjust_none_end s now clock hadj hndn] at h
        cases h
      · rw [non_repeatable_get_adjust_none_step s now clock n rest hadj hndn] at h
        have hlen2 := next_distinct_now_length now clock n rest hndn
        obtain ⟨hmem, hsub⟩ := next_distinct_now_mem now clock n rest hndn
        exact ih rest (by omega) s n (hclock n hmem)
          (fun x hx => hclock x (hsub x hx)) s' t q h
    · rw [non_repeatable_get_adjust_some s now clock r hadj] at h
      simp only [Option.some.injEq] at h
      subst h
      exact non_repeatable_adjust_lex s now hq s' t q hadj

theorem monotonic_get_wait_lex :
    ∀ (N : Nat) (clock : List Nat), clock.length ≤ N →
    ∀ (s : MonotonicClockState) (now : Nat) (rands : List Nat),
      (∀ n ∈ clock, s.m_last_time ≤ round_to_max_adjustment s.m_max_adjustment n) →
      s.m_clock_seq ≤ 0x3FFF →
      ∀ (s' : MonotonicClockState) (t q : Nat),
        monotonic_get_wait s now clock rands = some (s', t, q) →
        s.m_last_time < s'.m_last_time ∨
          (s.m_last_time = s'.m_last_time ∧ s.m_adjustment < s'.m_adjustment) ∨
          (s.m_last_time = s'.m_last_time ∧ s.m_adjustment = s'.m_adjustment ∧
            s.m_clock_seq < s'.m_clock_seq) := by
  intro N
  induction N with
  | zero =>
    intro clock hlen s now rands hclock hseq s' t q h
    rcases hndn : next_distinct_now now clock with _ | ⟨n, rest⟩
    · rw [monotonic_get_wait_end s now clock rands hndn] at h
      cases h
    · have := next_distinct_now_length now clock n rest hndn
      omega
  | succ N ih =>
    intro clock hlen s now rands hclock hseq s' t q h
    rcases hndn : next_distinct_now now clock with _ | ⟨n, rest⟩
    · rw [monotonic_get_wait_end s now clock rands hndn] at h
      cases h
    · obtain ⟨hmem, hsub⟩ := next_distinct_now_mem now clock n rest hndn
      rcases hadj : monotonic_adjust s n (rands.headD 0) true with _ | r
      · rw [monotonic_get_wait_step s now clock rands n rest hndn hadj] at h
        have hlen2 := next_distinct_now_length now clock n rest hndn
        exact ih rest (by omega) s n rands.tail
          (fun x hx => hclock x (hsub x hx)) hseq s' t q h
      · rw [monotonic_get_wait_some s now clock rands n rest r hndn hadj] at h
        simp only [Option.some.injEq] at h
        subst h
        exact monotonic_adjust_lex s n (rands.headD 0) true (hclock n hmem) hseq s' t q hadj

theorem monotonic_get_lex (s : MonotonicClockState) (now : Nat) (clock rands : List Nat)
    (hq : s.m_last_time ≤ round_to_max_adjustment s.m_max_adjustment now)
    (hclock : ∀ n ∈ clock, s.m_last_time ≤ round_to_max_adjustment s.m_max_adjustment n)
    (hseq : s.m_clock_seq ≤ 0x3FFF)
    (s' : MonotonicClockState) (t q : Nat)
    (h : monotonic_get s now clock rands = some (s', t, q)) :
    s.m_last_time < s'.m_last_time ∨
      (s.m_last_time = s'.m_last_time ∧ s.m_adjustment < s'.m_adjustment) ∨
      (s.m_last_time = s'.m_last_time ∧ s.m_adjustment = s'.m_adjustment ∧
        s.m_clock_seq < s'.m_clock_seq) := by
  rw [monotonic_get] at h
  rcases hadj : monotonic_adjust s now (rands.headD 0) false with _ | r
  · rw [hadj] at h
    exact monotonic_get_wait_lex clock.length clock (Nat.le_refl _) s now rands.tail
      hclock hseq s' t q h
  · rw [hadj] at h
    simp only [Option.some.injEq] at h
    subst h
    exact monotonic_adjust_lex s now (rands.headD 0) false hq hseq s' t q hadj

/-- C1: for a single clock state record used single-threaded, across
successive `get()` calls during which the quantized clock reading never
moves backward (never drops below the recorded `m_last_time`), each
successful `get()` leaves the pair `(m_last_time, m_adjustment)` — and for
the monotonic variant the triple `(m_last_time, m_adjustment,
m_clock_seq)` — lexicographically strictly greater than before the
call. -/
theorem C1_clock_tuple_never_regresses :
    (∀ (s : NonRepeatableClockState) (now : Nat) (clock : List Nat)
        (s' : NonRepeatableClockState) (t q : Nat),
      s.m_last_time ≤ round_to_max_adjustment s.m_max_adjustment now →
      (∀ n ∈ clock, s.m_last_time ≤ round_to_max_adjustment s.m_max_adjustment n) →
      non_repeatable_get s now clock = some (s', t, q) →
      s.m_last_time < s'.m_last_time ∨
        (s.m_last_time = s'.m_last_time ∧ s.m_adjustment < s'.m_adjustment)) ∧
    (∀ (s : MonotonicClockState) (now : Nat) (clock rands : List Nat)
        (s' : MonotonicClockState) (t q : Nat),
      s.m_last_time ≤ round_to_max_adjustment s.m_max_adjustment now →
      (∀ n ∈ clock, s.m_last_time ≤ round_to_max_adjustment s.m_max_adjustment n) →
      s.m_clock_seq ≤ 0x3FFF →
      monotonic_get s now clock rands = some (s', t, q) →
      s.m_last_time < s'.m_last_time ∨
        (s.m_last_time = s'.m_last_time ∧ s.m_adjustment < s'.m_adjustment) ∨
        (s.m_last_time = s'.m_last_time ∧ s.m_adjustment = s'.m_adjustment ∧
          s.m_clock_seq < s'.m_clock_seq)) :=
  ⟨fun s now clock s' t q hq hclock h =>
      non_repeatable_get_lex clock.length clock (Nat.le_refl _) s now hq hclock s' t q h,
   fun s now clock rands s' t q hq hclock hseq h =>
      monotonic_get_lex s now clock rands hq hclock hseq s' t q h⟩

/-- C1 witness: both parts applied at a concrete same-tick `get()` that
bumps the adjustment from 3 to 4. -/
theorem C1_clock_tuple_never_regresses_witness :
    ((⟨1000, 3, 5, 7⟩ : NonRepeatableClockState).m_last_time <
        (⟨1000, 4, 5, 7⟩ : NonRepeatableClockState).m_last_time ∨
      ((⟨1000, 3, 5, 7⟩ : NonRepeatableClockState).m_last_time =
          (⟨1000, 4, 5, 7⟩ : NonRepeatableClockState).m_last_time ∧
        (⟨1000, 3, 5, 7⟩ : NonRepeatableClockState).m_adjustment <
          (⟨1000, 4, 5, 7⟩ : NonRepeatableClockState).m_adjustment)) ∧
    ((⟨1000, 3, 5, 7⟩ : MonotonicClockState).m_last_time <
        (⟨1000, 4, 5, 7⟩ : MonotonicClockState).m_last_time ∨
      ((⟨1000, 3, 5, 7⟩ : MonotonicClockState).m_last_time =
          (⟨1000, 4, 5, 7⟩ : MonotonicClockState).m_last_time ∧
        (⟨1000, 3, 5, 7⟩ : MonotonicClockState).m_adjustment <
          (⟨1000, 4, 5, 7⟩ : MonotonicClockState).m_adjustment) ∨
      ((⟨1000, 3, 5, 7⟩ : MonotonicClockState).m_last_time =
          (⟨1000, 4, 5, 7⟩ : MonotonicClockState).m_last_time ∧
        (⟨1000, 3, 5, 7⟩ : MonotonicClockState).m_adjustment =
          (⟨1000, 4, 5, 7⟩ : MonotonicClockState).m_adjustment ∧
        (⟨1000, 3, 5, 7⟩ : MonotonicClockState).m_clock_seq <
          (⟨1000, 4, 5, 7⟩ : MonotonicClockState).m_clock_seq)) :=
  ⟨C1_clock_tuple_never_regresses.1 ⟨1000, 3, 5, 7⟩ 1000 [] ⟨1000, 4, 5, 7⟩ 1004 7
      (by decide) (by intro n hn; cases hn)
      (non_repeatable_get_adjust_some _ _ _ _ (by decide)),
   C1_clock_tuple_never_regresses.2 ⟨1000, 3, 5, 7⟩ 1000 [] [] ⟨1000, 4, 5, 7⟩ 1004 7
      (by decide) (by intro n hn; cases hn) (by decide) (by decide)⟩

/-- C3: in the monotonic clock states, when within the same quantized tick
`m_adjustment` has reached `m_max_adjustment`, `get()` does not make the
caller wait: the v6/v7 state advances the 14-bit clock sequence by one
(mod 2^14) and fails (waits) exactly when that counter wraps to zero,
while the ULID state increments its 80-bit tail (split 64+16 bits) as one
big counter mod 2^80 and always succeeds — `ulid_clock_state::get` calls
`adjust` once, with no retry loop, so it never waits. -/
theorem C3_exhaustion_advances_disambiguator :
    (∀ (s : MonotonicClockState) (now rand : Nat) (aw : Bool),
      round_to_max_adjustment s.m_max_adjustment now = s.m_last_time →
      s.m_adjustment ≥ s.m_max_adjustment →
      ((s.m_clock_seq + 1) &&& 0x3FFF ≠ 0 →
        monotonic_adjust s now rand aw =
          some ({ s with m_clock_seq := (s.m_clock_seq + 1) &&& 0x3FFF },
            s.m_last_time + s.m_adjustment, (s.m_clock_seq + 1) &&& 0x3FFF)) ∧
      ((s.m_clock_seq + 1) &&& 0x3FFF = 0 →
        monotonic_adjust s now rand aw = none)) ∧
    (∀ (s : UlidClockState) (now randLow randHigh : Nat),
      round_to_max_adjustment s.m_max_adjustment now = s.m_last_time →
      s.m_adjustment ≥ s.m_max_adjustment →
      s.m_tail_low < 2 ^ 64 → s.m_tail_high < 2 ^ 16 →
      (ulid_adjust s now randLow randHigh).1.m_tail_high * 2 ^ 64 +
          (ulid_adjust s now randLow randHigh).1.m_tail_low =
        (s.m_tail_high * 2 ^ 64 + s.m_tail_low + 1) % 2 ^ 80 ∧
      (ulid_adjust s now randLow randHigh).1.m_last_time = s.m_last_time ∧
      (ulid_adjust s now randLow randHigh).1.m_adjustment = s.m_adjustment ∧
      (ulid_adjust s now randLow randHigh).2 = s.m_last_time + s.m_adjustment) := by
  constructor
  · intro s now rand aw hq hexh
    constructor
    · intro hnz
      simp only [monotonic_adjust, hq, if_neg (Nat.lt_irrefl _), if_pos rfl, if_pos hexh,
        if_neg hnz, eq_self_iff_true, ite_true]
    · intro hz
      simp only [monotonic_adjust, hq, if_neg (Nat.lt_irrefl _), if_pos rfl, if_pos hexh,
        if_pos hz, eq_self_iff_true, ite_true]
  · intro s now randLow randHigh hq hexh hlow hhigh
    simp only [ulid_adjust, hq, if_neg (Nat.lt_irrefl _), if_pos rfl, if_pos hexh,
      tail_increment, eq_self_iff_true, ite_true]
    refine ⟨?_, trivial, trivial, trivial⟩
    split
    · simp only []
      omega
    · simp only []
      omega

/-- C3 witness: the exhausted-tick behaviour at concrete states — the
clock sequence 100 advances to 101 without waiting, sequence 0x3FFF
wraps and fails the attempt, and the ULID tail (low 7, high 3) advances
by one as an 80-bit counter. -/
theorem C3_exhaustion_advances_disambiguator_witness :
    monotonic_adjust ⟨1000, 5, 5, 100⟩ 1002 9 false = some (⟨1000, 5, 5, 101⟩, 1005, 101) ∧
    monotonic_adjust ⟨1000, 5, 5, 16383⟩ 1002 9 false = none ∧
    (ulid_adjust ⟨1000, 5, 5, 7, 3⟩ 1002 11 22).1.m_tail_high * 2 ^ 64 +
        (ulid_adjust ⟨1000, 5, 5, 7, 3⟩ 1002 11 22).1.m_tail_low =
      ((3 : Nat) * 2 ^ 64 + 7 + 1) % 2 ^ 80 :=
  ⟨(C3_exhaustion_advances_disambiguator.1 ⟨1000, 5, 5, 100⟩ 1002 9 false
      (by decide) (by decide)).1 (by decide),
   (C3_exhaustion_advances_disambiguator.1 ⟨1000, 5, 5, 16383⟩ 1002 9 false
      (by decide) (by decide)).2 (by decide),
   (C3_exhaustion_advances_disambiguator.2 ⟨1000, 5, 5, 7, 3⟩ 1002 11 22
      (by decide) (by decide) (by decide) (by decide)).1⟩

/-- C4: in the non-repeatable clock state, when the quantized reading
equals `m_last_time` and `m_adjustment` has reached `m_max_adjustment`,
the attempt fails and `get()` retries only with the next clock reading
distinct from the one just sampled; when the quantized reading equals
`m_last_time` and `m_adjustment` is below the budget, the call succeeds
with `m_adjustment` incremented by exactly one and `m_last_time` and the
clock sequence unchanged. -/
theorem C4_non_repeatable_same_tick :
    (∀ (s : NonRepeatableClockState) (now : Nat),
      round_to_max_adjustment s.m_max_adjustment now = s.m_last_time →
      s.m_adjustment ≥ s.m_max_adjustment →
      non_repeatable_adjust s now = none ∧
      (∀ (clock : List Nat) (n : Nat) (rest : List Nat),
        next_distinct_now now clock = some (n, rest) →
        non_repeatable_get s now clock = non_repeatable_get s n rest ∧ n ≠ now)) ∧
    (∀ (s : NonRepeatableClockState) (now : Nat),
      round_to_max_adjustment s.m_max_adjustment now = s.m_last_time →
      s.m_adjustment < s.m_max_adjustment →
      non_repeatable_adjust s now =
        some ({ s with m_adjustment := s.m_adjustment + 1 },
          s.m_last_time + (s.m_adjustment + 1), s.m_clock_seq)) := by
  constructor
  · intro s now hq hexh
    have hadj : non_repeatable_adjust s now = none := by
      simp only [non_repeatable_adjust, hq, if_neg (Nat.lt_irrefl _), if_pos hexh,
        eq_self_iff_true, ite_true]
    refine ⟨hadj, ?_⟩
    intro clock n rest hndn
    exact ⟨non_repeatable_get_adjust_none_step s now clock n rest hadj hndn,
      next_distinct_now_ne now clock n rest hndn⟩
  · intro s now hq hlt
    have hn : ¬ s.m_adjustment ≥ s.m_max_adjustment := by omega
    simp only [non_repeatable_adjust, hq, if_neg (Nat.lt_irrefl _), if_neg hn,
      eq_self_iff_true, ite_true]

/-- C4 witness: at a concrete exhausted state the attempt fails and the
retry skips the equal reading 1002 to the distinct reading 1007; at a
concrete non-exhausted state the adjustment increments from 3 to 4. -/
theorem C4_non_repeatable_same_tick_witness :
    non_repeatable_adjust ⟨1000, 5, 5, 7⟩ 1002 = none ∧
    non_repeatable_get ⟨1000, 5, 5, 7⟩ 1002 [1002, 1007] =
      non_repeatable_get ⟨1000, 5, 5, 7⟩ 1007 [] ∧
    (1007 : Nat) ≠ 1002 ∧
    non_repeatable_adjust ⟨1000, 3, 5, 7⟩ 1002 = some (⟨1000, 4, 5, 7⟩, 1004, 7) :=
  ⟨(C4_non_repeatable_same_tick.1 ⟨1000, 5, 5, 7⟩ 1002 (by decide) (by decide)).1,
   ((C4_non_repeatable_same_tick.1 ⟨1000, 5, 5, 7⟩ 1002 (by decide) (by decide)).2
      [1002, 1007] 1007 [] (by decide)).1,
   ((C4_non_repeatable_same_tick.1 ⟨1000, 5, 5, 7⟩ 1002 (by decide) (by decide)).2
      [1002, 1007] 1007 [] (by decide)).2,
   C4_non_repeatable_same_tick.2 ⟨1000, 3, 5, 7⟩ 1002 (by decide) (by decide)⟩

/-- C5 counterexample: on a backward clock jump
`non_repeatable_clock_state::adjust` does NOT pick a fresh random
clock sequence — it deterministically increments the previous one
(`m_clock_seq = (m_clock_seq + 1) & 0x3FFF`, clocks.cpp line 291).  Two
states identical except for the prior sequence (5 versus 9), fed the same
reading with the same (unconsulted) random source, produce different new
sequences 6 and 10, each the old value plus one — impossible if the new
sequence were a fresh draw independent of the old. -/
theorem C5_counterexample :
    Option.map (fun r => r.1.m_clock_seq) (non_repeatable_adjust ⟨1000, 0, 0, 5⟩ 500) =
      some 6 ∧
    Option.map (fun r => r.1.m_clock_seq) (non_repeatable_adjust ⟨1000, 0, 0, 9⟩ 500) =
      some 10 ∧
    (6 : Nat) ≠ 10 := by decide

/-- C5 (amended): in the non-repeatable clock state, whenever the
quantized reading is strictly earlier than `m_last_time`, `adjust`
succeeds, advances the clock sequence by one modulo 2^14 (instead of
drawing a fresh random one), resets `m_adjustment` to 0, and sets
`m_last_time` to the quantized reading, which is also the returned
time. -/
theorem C5_backward_jump_increments_clock_seq :
    ∀ (s : NonRepeatableClockState) (now : Nat),
      round_to_max_adjustment s.m_max_adjustment now < s.m_last_time →
      non_repeatable_adjust s now =
        some ({ s with m_clock_seq := (s.m_clock_seq + 1) &&& 0x3FFF, m_adjustment := 0,
                       m_last_time := round_to_max_adjustment s.m_max_adjustment now },
          round_to_max_adjustment s.m_max_adjustment now,
          (s.m_clock_seq + 1) &&& 0x3FFF) := by
  intro s now h
  simp only [non_repeatable_adjust, if_pos h, Nat.add_zero]

/-- C5 witness: the amended backward-jump behaviour at a concrete
state. -/
theorem C5_backward_jump_increments_clock_seq_witness :
    non_repeatable_adjust ⟨1000, 0, 0, 5⟩ 500 = some (⟨500, 0, 0, 6⟩, 500, 6) :=
  C5_backward_jump_increments_clock_seq ⟨1000, 0, 0, 5⟩ 500 (by decide)

/-- C8 counterexample: after a backward clock jump the value returned by
the non-repeatable state equals the new (earlier) quantized reading — at
a state with `m_last_time = 1000` and reading 600 the call returns time
600, which IS below the previously recorded `m_last_time`, contradicting
the claim that the returned time does not regress. -/
theorem C8_counterexample :
    non_repeatable_adjust ⟨1000, 2, 0, 5⟩ 600 = some (⟨600, 0, 0, 6⟩, 600, 6) ∧
    (600 : Nat) < 1000 := by decide

/-- C8 (amended): when the non-repeatable clock state is given a reading
whose quantized value is strictly earlier than `m_last_time`, the next
`get()` succeeds immediately with a disambiguator different from the
previous one, and the time value it returns equals the new quantized
reading — which is strictly below the `m_last_time` recorded before the
jump (the time component is allowed to regress; uniqueness is protected
by the changed clock sequence). -/
theorem C8_backward_jump_changes_seq :
    ∀ (s : NonRepeatableClockState) (now : Nat),
      s.m_clock_seq ≤ 0x3FFF →
      round_to_max_adjustment s.m_max_adjustment now < s.m_last_time →
      ∃ (s' : NonRepeatableClockState) (t q : Nat),
        non_repeatable_adjust s now = some (s', t, q) ∧ q ≠ s.m_clock_seq ∧
        t = round_to_max_adjustment s.m_max_adjustment now ∧ t < s.m_last_time := by
  intro s now hseq h
  refine ⟨{ s with m_clock_seq := (s.m_clock_seq + 1) &&& 0x3FFF, m_adjustment := 0,
                   m_last_time := round_to_max_adjustment s.m_max_adjustment now },
    round_to_max_adjustment s.m_max_adjustment now, (s.m_clock_seq + 1) &&& 0x3FFF,
    ?_, ?_, rfl, h⟩
  · simp only [non_repeatable_adjust, if_pos h, Nat.add_zero]
  · rw [andE16383]
    omega

/-- C8 witness: the amended backward-jump behaviour at a concrete
state. -/
theorem C8_backward_jump_changes_seq_witness :
    ∃ (s' : NonRepeatableClockState) (t q : Nat),
      non_repeatable_adjust ⟨1000, 2, 0, 5⟩ 600 = some (s', t, q) ∧ q ≠ 5 ∧
      t = round_to_max_adjustment 0 600 ∧ t < 1000 :=
  C8_backward_jump_changes_seq ⟨1000, 2, 0, 5⟩ 600 (by decide) (by decide)

/-- C6: the claim (and the documentation of `per_thread::load` in the
headers: called once per handle, before any store) holds for the
`load_once = true` states (UUID v1/v6/v7) but is violated by the code of
`ulid_clock_state` (`load_once = false`): its `mutate` calls `load` on
EVERY `get()`, so two `get()` calls on one handle produce the trace
`[load, store, load, store]` with two loads, the second after a store.
The `load_once` traces show the documented behaviour: exactly one load,
before every store. -/
theorem C6_ulid_loads_on_every_get :
    clock_state_calls false true 2 =
      [PersistenceCall.load, PersistenceCall.store,
       PersistenceCall.load, PersistenceCall.store] ∧
    (clock_state_calls false true 2).count PersistenceCall.load = 2 ∧
    (clock_state_calls true true 2).count PersistenceCall.load = 1 ∧
    (clock_state_calls true false 2).count PersistenceCall.load = 1 ∧
    clock_state_calls true false 2 =
      [PersistenceCall.load, PersistenceCall.store,
       PersistenceCall.store, PersistenceCall.store] := by decide
end Muuid
